import Mathlib

/-!
# bmcsensors.c — IPMI BMC sensor discovery and reading

A shallow embedding of `kernel/chips/bmcsensors.c` (lm_sensors).

Conventions of the embedding.

* C machine integers are mathematical integers reduced explicitly: `u8 x` is
  `x % 256`, `u16 x` is `x % 65536`, and signed results of width `w` are
  reduced by `wrap_signed w` (two's complement wrap-around).  `int` is 32 bits
  wide; the width of `long` is the platform parameter `Host.long_bits`.
* The file-scope variables of the driver are the fields of `Session`.  Arrays
  are index maps (`Nat → _`); the capacity of an array is a separate constant.
* Writes through `memcpy` are not bounds-checked in C.  The array `rx_msg_data` has
  `IPMI_MAX_MSG_LENGTH + 50` bytes, where `IPMI_MAX_MSG_LENGTH` is a constant of a
  header that is not part of the source file (`Host.IPMI_MAX_MSG_LENGTH`).  A copy
  that ends past the array sets `Session.rx_overrun`: the C program has no defined
  behaviour from then on, and statements about the contents of the buffer are made
  for executions in which the flag stays `false`.  The field `id` (declared with
  `SDR_MAX_ID_LENGTH` bytes) holds whatever is copied into it.
* A read outside the constant table `exps` has no defined value, so
  `convert_value` returns an `Option`.
* Everything the driver obtains from headers that are not part of the source
  file (sysctl numbers, `SENSORS_PROC_REAL_*`, results of `kmalloc` and
  `i2c_register_entry`) is a field of `Host`.
* `slave_send` is modelled by appending the message to `Session.sent`.
-/

namespace Bmcsensors

/-! ## Machine integers -/

/-- Truncation to an unsigned 8-bit value. -/
def u8 (x : Nat) : Nat := x % 256

/-- Truncation to an unsigned 16-bit value. -/
def u16 (x : Nat) : Nat := x % 65536

/-- Two's complement reduction of an integer to a signed value of `w` bits. -/
def wrap_signed (w : Nat) (x : Int) : Int :=
  (x + 2 ^ (w - 1)) % 2 ^ w - 2 ^ (w - 1)

/-- Value of a 16-bit pattern stored in an `s16` object. -/
def s16 (x : Nat) : Int :=
  if x % 65536 < 32768 then ((x % 65536 : Nat) : Int) else ((x % 65536 : Nat) : Int) - 65536

/-! ## Constants -/

def MAX_SDR_ENTRIES : Nat := 50
def SDR_LIMITS : Nat := 8
def SDR_MAX_ID_LENGTH : Nat := 16
def SDR_MAX_UNPACKED_ID_LENGTH : Nat := (SDR_MAX_ID_LENGTH * 4 / 3) + 2
def IPMI_SDR_SIZE : Nat := 67

def STATE_INIT : Nat := 0
def STATE_RESERVE : Nat := 1
def STATE_SDR : Nat := 2
def STATE_SDRPARTIAL : Nat := 3
def STATE_READING : Nat := 4
def STATE_UNCANCEL : Nat := 5
def STATE_DONE : Nat := 6

def IPMI_NETFN_SENSOR : Nat := 0x04
def IPMI_NETFN_STORAGE : Nat := 0x0A
def IPMI_RESERVE_SDR : Nat := 0x22
def IPMI_GET_SDR : Nat := 0x23
def IPMI_GET_SENSOR_STATE_READING : Nat := 0x2D

def STYPE_TEMP : Nat := 0x01
def STYPE_VOLT : Nat := 0x02
def STYPE_CURR : Nat := 0x03
def STYPE_FAN : Nat := 0x04
def STYPE_MAX : Nat := 4

/-- Table `bmcs_max[STYPE_MAX + 1] = {0, 20, 20, 20, 20}`. -/
def bmcs_max (stype : Nat) : Nat :=
  match stype with
  | 0 => 0
  | 1 => 20
  | 2 => 20
  | 3 => 20
  | 4 => 20
  | _ => 0

/-- Table `exps[] = {1, 10, ..., 10000000}` (eight entries). -/
def exps : List Int := [1, 10, 100, 1000, 10000, 100000, 1000000, 10000000]

/-! ## Data model -/

/-- One entry of the table `sdrd[]` (`struct sdrdata`). -/
structure sdrdata where
  sysctl : Int
  stype : Nat
  number : Nat
  capab : Nat
  thresh_mask : Nat
  format : Nat
  linear : Nat
  m : Int
  b : Int
  k : Nat
  nominal : Nat
  limits : List Nat
  lim1 : Int
  lim2 : Int
  lim1_write : Nat
  lim2_write : Nat
  string_type : Nat
  id_length : Nat
  id : List Nat
  reading : Nat
  status : Nat
  thresholds : Nat
deriving DecidableEq, Repr

/-- A zero-initialised `struct sdrdata` (static storage). -/
def sdrdata.zero : sdrdata :=
  { sysctl := 0, stype := 0, number := 0, capab := 0, thresh_mask := 0, format := 0,
    linear := 0, m := 0, b := 0, k := 0, nominal := 0, limits := List.replicate 8 0,
    lim1 := 0, lim2 := 0, lim1_write := 0, lim2_write := 0, string_type := 0,
    id_length := 0, id := [], reading := 0, status := 0, thresholds := 0 }

/-- An IPMI message (`struct ipmi_msg`): network function, command and data bytes.
Bytes past the end of `data` read as 0. -/
structure ipmi_msg where
  netfn : Nat
  cmd : Nat
  data : List Nat
deriving DecidableEq, Repr

/-- Byte `msg->data[i]`. -/
def ipmi_msg.byte (msg : ipmi_msg) (i : Nat) : Nat := u8 (msg.data.getD i 0)

/-- Platform parameters and results of calls into code outside the source file. -/
structure Host where
  long_bits : Nat
  BMC_SYSCTL_TEMP1 : Int
  BMC_SYSCTL_IN1 : Int
  BMC_SYSCTL_CURR1 : Int
  BMC_SYSCTL_FAN1 : Int
  SENSORS_PROC_REAL_INFO : Int
  SENSORS_PROC_REAL_READ : Int
  SENSORS_PROC_REAL_WRITE : Int
  kmalloc_dir_table : Bool
  kmalloc_name_pool : Bool
  i2c_register_entry : Int
  /-- Constant `IPMI_MAX_MSG_LENGTH` of the IPMI header, which is not part of the source
  file: the array `rx_msg_data` has `IPMI_MAX_MSG_LENGTH + 50` bytes. -/
  IPMI_MAX_MSG_LENGTH : Nat

/-- File-scope state of the driver. -/
structure Session where
  sdrd : Nat → sdrdata
  sdrd_count : Nat
  bmcs_count : Nat → Nat
  ipmi_sdr_partial_size : Nat
  rx_msg_data : Nat → Nat
  rx_msg_data_offset : Nat
  msgid : Nat
  resid : Nat
  nextrecord : Nat
  errorcount : Nat
  state : Nat
  receive_counter : Nat
  bmcsensors_initialized : Nat
  sysctl_id : Int
  /-- Messages handed to `slave_send`, oldest first. -/
  sent : List ipmi_msg
  /-- Number of calls of `bmcsensors_build_proc_table` so far. -/
  build_calls : Nat
  /-- Set once a `memcpy` into `rx_msg_data` has gone past the end of the array.  The C
  program has no defined behaviour from then on: a state with this flag set describes
  no execution of the driver, and statements about the buffer are made for states in
  which it is `false`.  It is never cleared. -/
  rx_overrun : Bool

/-- Assignment `a[i] = v` on an index map. -/
def set_at {α : Type} (a : Nat → α) (i : Nat) (v : α) : Nat → α :=
  fun j => if j = i then v else a j

/-! ## Threshold selection -/

/-- The "select upper threshold" chain of `bmcsensors_select_thresholds`: the values
left in `lim1` and `lim1_write` (initially -1 and 0). -/
def select_upper (capab mask : Nat) : Int × Nat :=
  if mask &&& 0x10 ≠ 0 then
    (1, if capab &&& 0x0c = 0x08 ∧ mask &&& 0x1000 ≠ 0 then 1 else 0)
  else if mask &&& 0x20 ≠ 0 then
    (0, if capab &&& 0x0c = 0x08 ∧ mask &&& 0x2000 ≠ 0 then 1 else 0)
  else if mask &&& 0x08 ≠ 0 then
    (2, if capab &&& 0x0c = 0x08 ∧ mask &&& 0x0800 ≠ 0 then 1 else 0)
  else (-1, 0)

/-- The "select lower threshold" chain of `bmcsensors_select_thresholds`: the values
left in `lim2` and `lim2_write` (initially -1 and 0). -/
def select_lower (capab mask : Nat) : Int × Nat :=
  if capab &&& 0x30 = 0x10 ∨ capab &&& 0x30 = 0x20 then
    (6, 0)
  else if mask &&& 0x02 ≠ 0 then
    (4, if capab &&& 0x0c = 0x08 ∧ mask &&& 0x0200 ≠ 0 then 1 else 0)
  else if mask &&& 0x04 ≠ 0 then
    (3, if capab &&& 0x0c = 0x08 ∧ mask &&& 0x0400 ≠ 0 then 1 else 0)
  else if mask &&& 0x01 ≠ 0 then
    (5, if capab &&& 0x0c = 0x08 ∧ mask &&& 0x0100 ≠ 0 then 1 else 0)
  else (-1, 0)

/-- Body of `bmcsensors_select_thresholds` acting on the entry `sdrd[i]`: the four
fields are reset to -1, -1, 0, 0 and, when thresholds are readable, assigned by the
two chains. -/
def select_thresholds_entry (d : sdrdata) : sdrdata :=
  let capab := u8 d.capab
  let mask := u16 d.thresh_mask
  let sel : (Int × Nat) × (Int × Nat) :=
    if capab &&& 0x0c = 0x04 ∨ capab &&& 0x0c = 0x08 then
      (select_upper capab mask, select_lower capab mask)
    else ((-1, 0), (-1, 0))
  { d with lim1 := sel.1.1, lim2 := sel.2.1, lim1_write := sel.1.2, lim2_write := sel.2.2 }

/-- Function `bmcsensors_select_thresholds(i)`: selects the two limits of `sdrd[i]`. -/
def bmcsensors_select_thresholds (sdrd : Nat → sdrdata) (i : Nat) : Nat → sdrdata :=
  set_at sdrd i (select_thresholds_entry (sdrd i))

/-! ## Value conversion -/

/-- Function `decplaces(i)`, on the entry `sdrd[i]`. -/
def decplaces (d : sdrdata) : Int :=
  let k2 := u8 (u8 d.k >>> 4)
  if k2 < 8 then 0 else 16 - (k2 : Int)

/-- Function `convert_value(value, i)`, on the entry `sdrd[i]`.  Products of `int`
operands wrap at 32 bits, the accumulator `r` is a `long`.  The result is `none`
when the index into `exps` lies outside the table. -/
def convert_value (H : Host) (value : Nat) (d : sdrdata) : Option Int :=
  let L := H.long_bits
  let r0 : Int := wrap_signed L (wrap_signed 32 ((u8 value : Int) * d.m))
  let k1 := u8 d.k &&& 0x0f
  let k2 := u8 (u8 d.k >>> 4)
  let r1 : Option Int :=
    if k1 < 8 then
      (exps.get? k1).map (fun e => wrap_signed L (r0 + wrap_signed 32 (d.b * e)))
    else
      (exps.get? (16 - k1)).map (fun e => wrap_signed L (r0 + wrap_signed 32 (Int.tdiv d.b e)))
  if k2 < 8 then
    r1.bind (fun r => (exps.get? k2).map (fun e => wrap_signed L (r * e)))
  else r1

/-! ## Message sending -/

/-- Truncation of an `int` to an unsigned 8-bit value. -/
def u8i (x : Int) : Nat := (x % 256).toNat

/-- Function `bmcsensors_send_message`: hands the message to `slave_send` with id `msgid++`. -/
def bmcsensors_send_message (s : Session) (msg : ipmi_msg) : Session :=
  { s with sent := s.sent ++ [msg], msgid := s.msgid + 1 }

/-- Function `bmcsensors_reserve_sdr`. -/
def bmcsensors_reserve_sdr (s : Session) : Session :=
  bmcsensors_send_message s
    { netfn := IPMI_NETFN_STORAGE, cmd := IPMI_RESERVE_SDR, data := [] }

/-- Function `bmcsensors_get_sdr(res_id, record, offset)`. -/
def bmcsensors_get_sdr (s : Session) (res_id record offset : Nat) : Session :=
  bmcsensors_send_message s
    { netfn := IPMI_NETFN_STORAGE, cmd := IPMI_GET_SDR,
      data := [u8 (u16 res_id &&& 0xff), u8 (u16 res_id >>> 8),
               u8 (u16 record &&& 0xff), u8 (u16 record >>> 8),
               u8 offset, u8 s.ipmi_sdr_partial_size] }

/-- Function `bmcsensors_get_reading(client, i)`. -/
def bmcsensors_get_reading (s : Session) (i : Nat) : Session :=
  bmcsensors_send_message s
    { netfn := IPMI_NETFN_SENSOR, cmd := IPMI_GET_SENSOR_STATE_READING,
      data := [u8 (s.sdrd i).number] }

/-! ## Registration of the discovered sensors -/

/-- Loop `for(i = 0; i < sdrd_count; i++)` of `bmcsensors_build_proc_table`, with `n`
iterations left: assigns the sysctl number of entry `i` from the running per-kind
counters and selects its thresholds; an entry of unknown kind is skipped. -/
def build_proc_table_loop (H : Host) (n i temps volts currs fans : Nat)
    (sdrd : Nat → sdrdata) : Nat → sdrdata :=
  match n with
  | 0 => sdrd
  | n + 1 =>
    let st := u8 (sdrd i).stype
    if st = STYPE_TEMP then
      build_proc_table_loop H n (i + 1) (temps + 1) volts currs fans
        (bmcsensors_select_thresholds
          (set_at sdrd i { (sdrd i) with sysctl := H.BMC_SYSCTL_TEMP1 + temps }) i)
    else if st = STYPE_VOLT then
      build_proc_table_loop H n (i + 1) temps (volts + 1) currs fans
        (bmcsensors_select_thresholds
          (set_at sdrd i { (sdrd i) with sysctl := H.BMC_SYSCTL_IN1 + volts }) i)
    else if st = STYPE_CURR then
      build_proc_table_loop H n (i + 1) temps volts (currs + 1) fans
        (bmcsensors_select_thresholds
          (set_at sdrd i { (sdrd i) with sysctl := H.BMC_SYSCTL_CURR1 + currs }) i)
    else if st = STYPE_FAN then
      build_proc_table_loop H n (i + 1) temps volts currs (fans + 1)
        (bmcsensors_select_thresholds
          (set_at sdrd i { (sdrd i) with sysctl := H.BMC_SYSCTL_FAN1 + fans }) i)
    else
      build_proc_table_loop H n (i + 1) temps volts currs fans sdrd

/-- Function `bmcsensors_build_proc_table`: effect on the driver state.  The two
`kmalloc` calls and `i2c_register_entry` take their results from `H`. -/
def bmcsensors_build_proc_table (H : Host) (s : Session) : Session :=
  let s0 := { s with build_calls := s.build_calls + 1 }
  if H.kmalloc_dir_table = false then s0
  else if H.kmalloc_name_pool = false then s0
  else
    let s1 := { s0 with sdrd := build_proc_table_loop H s0.sdrd_count 0 0 0 0 0 s0.sdrd }
    if H.i2c_register_entry < 0 then s1
    else { s1 with bmcsensors_initialized := 3, sysctl_id := H.i2c_register_entry }

/-! ## Receiving -/

/-- The three assignments of `bmcsensors_rcv_reading_msg` to the entry
`sdrd[receive_counter]`. -/
def store_reading (d : sdrdata) (msg : ipmi_msg) : sdrdata :=
  { d with reading := msg.byte 1, status := msg.byte 2, thresholds := msg.byte 3 }

/-- Function `bmcsensors_rcv_reading_msg`: returns the new driver state and the
protocol state to enter. -/
def bmcsensors_rcv_reading_msg (s : Session) (msg : ipmi_msg) : Session × Nat :=
  if s.receive_counter ≥ s.sdrd_count then
    ({ s with receive_counter := 0 }, STATE_DONE)
  else
    let i := s.receive_counter
    let s1 : Session := { s with sdrd := set_at s.sdrd i (store_reading (s.sdrd i) msg) }
    let s2 : Session := { s1 with receive_counter := s1.receive_counter + 1 }
    if s2.receive_counter ≥ s2.sdrd_count then
      ({ s2 with receive_counter := 0 }, STATE_DONE)
    else
      (bmcsensors_get_reading s2 s2.receive_counter, STATE_READING)

/-- Library function `memcpy(dst + doff, src + soff, n)` on index maps. -/
def memcpy (dst : Nat → Nat) (doff : Nat) (src : Nat → Nat) (soff n : Nat) : Nat → Nat :=
  fun j => if doff ≤ j ∧ j < doff + n then src (soff + (j - doff)) else dst j

/-- The 10-bit field of `m` or `b`: low byte, bits 8..9 from the top two bits of the
next byte, sign extension by `|= 0xfc00` when bit 9 is set, read back as `s16`. -/
def sdr_mb_field (lo hi : Nat) : Int :=
  let v := u16 (lo ||| (u16 (hi &&& 0xc0) <<< 2))
  let v := if v &&& 0x0200 ≠ 0 then u16 (v ||| 0xfc00) else v
  s16 v

/-- Block "add entry to sdrd table" of `bmcsensors_rcv_sdr_msg`: fills
`sdrd[sdrd_count]` from the record in `data`; fields that are not assigned keep
their previous content. -/
def sdr_fill_entry (d : sdrdata) (data : Nat → Nat) (type stype : Nat) : sdrdata :=
  let d := { d with stype := u8 stype, number := data 10, capab := data 14,
                    thresh_mask := u16 ((u16 (data 22) <<< 8) ||| data 21) }
  if type = 1 then
    let id_length := data 50 &&& 0x1f
    { d with format := u8 (data 24 >>> 6),
             linear := data 26 &&& 0x7f,
             m := sdr_mb_field (data 27) (data 28),
             b := sdr_mb_field (data 29) (data 30),
             k := data 32,
             nominal := data 34,
             limits := (List.range SDR_LIMITS).map (fun j => data (39 + j)),
             string_type := u8 (data 50 >>> 6),
             id := (List.range id_length).map (fun j => data (51 + j)) ++ d.id.drop id_length,
             id_length := u8 id_length }
  else
    let id_length := data 34 &&& 0x1f
    { d with m := 1, b := 0, k := 0,
             string_type := u8 (data 34 >>> 6),
             id := if id_length > 0 then
                     (List.range id_length).map (fun j => data (35 + j)) ++ d.id.drop id_length
                   else d.id,
             id_length := u8 id_length }

/-- Middle part of `bmcsensors_rcv_sdr_msg` (`type = data[6]` up to the end of the
`if(type == 1 || type == 2)` statement): stores the record in `data` when it is
accepted; `nextrecord` has been assigned before. -/
def sdr_collect (s0 : Session) (data : Nat → Nat) : Session :=
  let type := data 6
  if type = 1 ∨ type = 2 then
    let stype := data 15
    if stype ≤ STYPE_MAX then
      if u8 (s0.bmcs_count stype) ≥ bmcs_max stype then s0
      else if s0.sdrd_count ≥ MAX_SDR_ENTRIES then { s0 with nextrecord := 0xffff }
      else if data 16 ≠ 0x01 then s0
      else
        { s0 with
            sdrd := set_at s0.sdrd s0.sdrd_count
                      (sdr_fill_entry (s0.sdrd s0.sdrd_count) data type stype),
            bmcs_count := set_at s0.bmcs_count stype (u8 (s0.bmcs_count stype + 1)),
            sdrd_count := s0.sdrd_count + 1 }
    else s0
  else s0

/-- Second half of `bmcsensors_rcv_sdr_msg` (from `nextrecord = ...` on): decodes the
complete record found in `data`, stores it when it is accepted, and continues or
ends the walk. -/
def rcv_sdr_record (H : Host) (s : Session) (data : Nat → Nat) : Session × Nat :=
  let s1 : Session :=
    sdr_collect { s with nextrecord := u16 ((data 2 <<< 8) ||| data 1) } data
  if s1.nextrecord = 0xFFFF then
    if s1.sdrd_count = 0 then (s1, STATE_DONE)
    else (bmcsensors_build_proc_table H s1, STATE_DONE)
  else
    (bmcsensors_get_sdr s1 0 s1.nextrecord 0, STATE_SDR)

/-- The two `memcpy` branches of `bmcsensors_rcv_sdr_msg`: the first fragment is
copied with its three leading bytes to the start of `rx_msg_data`, a later fragment
is appended at `rx_msg_data_offset` without them.  The array is
`rx_msg_data[IPMI_MAX_MSG_LENGTH + 50]` and `memcpy` does not check its bounds: a copy
that ends past the array sets `rx_overrun`. -/
def rx_append (H : Host) (s : Session) (msg : ipmi_msg) : Session :=
  let c := s.ipmi_sdr_partial_size
  if s.rx_msg_data_offset = 0 then
    { s with rx_msg_data := memcpy s.rx_msg_data 0 msg.byte 0 (c + 3),
             rx_msg_data_offset := c + 3,
             rx_overrun := s.rx_overrun || decide (H.IPMI_MAX_MSG_LENGTH + 50 < c + 3) }
  else
    { s with rx_msg_data := memcpy s.rx_msg_data s.rx_msg_data_offset msg.byte 3 c,
             rx_msg_data_offset := s.rx_msg_data_offset + c,
             rx_overrun := s.rx_overrun ||
               decide (H.IPMI_MAX_MSG_LENGTH + 50 < s.rx_msg_data_offset + c) }

/-- Function `bmcsensors_rcv_sdr_msg`: returns the new driver state and the protocol
state to enter. -/
def bmcsensors_rcv_sdr_msg (H : Host) (s : Session) (msg : ipmi_msg) : Session × Nat :=
  if msg.byte 0 ≠ 0 then
    let s1 : Session := { s with ipmi_sdr_partial_size := s.ipmi_sdr_partial_size / 2 }
    if s1.ipmi_sdr_partial_size < 8 then (s1, STATE_DONE)
    else (bmcsensors_get_sdr s1 0 0 0, STATE_SDR)
  else if s.ipmi_sdr_partial_size < IPMI_SDR_SIZE then
    let s1 : Session := rx_append H s msg
    if s1.rx_msg_data_offset > u8 (s1.rx_msg_data 7) + 7 then
      rcv_sdr_record H { s1 with rx_msg_data_offset := 0 } (fun j => u8 (s1.rx_msg_data j))
    else
      let record := u16 ((u8 (s1.rx_msg_data 4) <<< 8) ||| u8 (s1.rx_msg_data 3))
      (bmcsensors_get_sdr s1 s1.resid record (u8i ((s1.rx_msg_data_offset : Int) - 3)),
        STATE_SDR)
  else
    rcv_sdr_record H s msg.byte

/-- Value of `(((u16)msg->data[2]) << 8) || msg->data[1]`, a logical or. -/
def resid_of (msg : ipmi_msg) : Nat :=
  if (u16 (msg.byte 2) <<< 8) ≠ 0 ∨ msg.byte 1 ≠ 0 then 1 else 0

/-- Function `bmcsensors_rcv_msg`: dispatch on the protocol state. -/
def bmcsensors_rcv_msg (H : Host) (s : Session) (msg : ipmi_msg) : Session :=
  if s.state = STATE_INIT ∨ s.state = STATE_RESERVE then
    let s1 := { s with resid := resid_of msg }
    { bmcsensors_get_sdr s1 0 0 0 with state := STATE_SDR }
  else if s.state = STATE_SDR ∨ s.state = STATE_SDRPARTIAL then
    let r := bmcsensors_rcv_sdr_msg H s msg
    { r.1 with state := r.2 }
  else if s.state = STATE_READING then
    let r := bmcsensors_rcv_reading_msg s msg
    { r.1 with state := r.2 }
  else if s.state = STATE_UNCANCEL then
    let s1 := { s with resid := resid_of msg }
    let s2 := { s1 with rx_msg_data_offset := 0 }
    { bmcsensors_get_sdr s2 0 s2.nextrecord 0 with state := STATE_SDR }
  else if s.state = STATE_DONE then s
  else { s with state := STATE_INIT }

/-- Function `bmcsensors_msg_handler` on the received message `msg->msg`. -/
def bmcsensors_msg_handler (H : Host) (s : Session) (msg : ipmi_msg) : Session :=
  if s.state = STATE_SDR ∧ msg.byte 0 = 0xc5 then
    let s1 := { s with errorcount := s.errorcount + 1 }
    if s1.errorcount > 275 then { s1 with state := STATE_DONE }
    else { bmcsensors_reserve_sdr s1 with state := STATE_UNCANCEL }
  else if msg.byte 0 ≠ 0 ∧ msg.byte 0 ≠ 0xca then s
  else bmcsensors_rcv_msg H s msg

/-! ## Initialisation -/

/-- Function `bmcsensors_detect` after a successful `i2c_attach_client`: resets the
session and sends the first Reserve request.  The table `sdrd` keeps its content. -/
def bmcsensors_detect (s : Session) : Session :=
  bmcsensors_reserve_sdr
    { s with bmcsensors_initialized := 2, state := STATE_INIT, sdrd_count := 0,
             receive_counter := 0, rx_msg_data_offset := 0, errorcount := 0,
             ipmi_sdr_partial_size := IPMI_SDR_SIZE,
             bmcs_count := fun i => if i ≤ STYPE_MAX then 0 else s.bmcs_count i }

/-- The driver state at module load: all static storage is zero, except
`ipmi_sdr_partial_size = IPMI_SDR_SIZE`. -/
def Session.load : Session :=
  { sdrd := fun _ => sdrdata.zero, sdrd_count := 0, bmcs_count := fun _ => 0,
    ipmi_sdr_partial_size := IPMI_SDR_SIZE, rx_msg_data := fun _ => 0,
    rx_msg_data_offset := 0, msgid := 0, resid := 0, nextrecord := 0, errorcount := 0,
    state := STATE_INIT, receive_counter := 0, bmcsensors_initialized := 1,
    sysctl_id := 0, sent := [], build_calls := 0, rx_overrun := false }

/-! ## The /proc callback -/

/-- Function `bmcsensors_update_client`.  `stale` is the outcome of the test on
`jiffies`, `last_updated` and `valid`; `arrivals` are the responses the message
handler receives while the function waits. -/
def bmcsensors_update_client (H : Host) (s : Session) (stale : Bool)
    (arrivals : List ipmi_msg) : Session :=
  if stale then
    let s1 : Session :=
      if s.state ≠ STATE_READING then
        bmcsensors_get_reading { s with state := STATE_READING } 0
      else s
    arrivals.foldl (bmcsensors_msg_handler H) s1
  else s

/-- Loop of `find_sdrd` with `n` iterations left, at index `i`. -/
def find_sdrd_loop (sdrd : Nat → sdrdata) (sysctl : Int) (n i : Nat) : Int :=
  match n with
  | 0 => -1
  | n + 1 => if (sdrd i).sysctl = sysctl then (i : Int) else find_sdrd_loop sdrd sysctl n (i + 1)

/-- Function `find_sdrd(sysctl)`. -/
def find_sdrd (s : Session) (sysctl : Int) : Int :=
  find_sdrd_loop s.sdrd sysctl s.sdrd_count 0

/-- Subtraction of two `long` values, where both are defined. -/
def long_sub (H : Host) (x y : Option Int) : Option Int :=
  x.bind (fun a => y.map (fun b => wrap_signed H.long_bits (a - b)))

/-- Byte `sdrd[i].limits[lim]`. -/
def sdrdata.limit (d : sdrdata) (lim : Int) : Nat := u8 (d.limits.getD lim.toNat 0)

/-- Function `bmcsensors_all`.  Returns the driver state, the value left in
`*nrels_mag`, and the cells `results[0..]` that were assigned (each the outcome of
its `convert_value` expression). -/
def bmcsensors_all (H : Host) (s : Session) (operation ctl_name nrels_mag : Int)
    (stale : Bool) (arrivals : List ipmi_msg) : Session × Int × List (Option Int) :=
  let i := find_sdrd s ctl_name
  if i < 0 then (s, 0, [])
  else if operation = H.SENSORS_PROC_REAL_INFO then
    (s, decplaces (s.sdrd i.toNat), [])
  else if operation = H.SENSORS_PROC_REAL_READ then
    let s1 := bmcsensors_update_client H s stale arrivals
    let d := s1.sdrd i.toNat
    if u8 d.stype = STYPE_FAN then
      let r0 := if d.lim2 ≥ 0 then convert_value H (d.limit d.lim2) d else some 0
      let r1 := convert_value H d.reading d
      (s1, 2, [r0, r1])
    else
      let r0 := if d.lim1 ≥ 0 then convert_value H (d.limit d.lim1) d else some 0
      let r2 := convert_value H d.reading d
      let r1 :=
        if d.lim2 ≥ 0 then
          let r := convert_value H (d.limit d.lim2) d
          if d.lim2 = 6 then long_sub H r0 r else r
        else some 0
      (s1, 3, [r0, r1, r2])
  else (s, nrels_mag, [])

/-! ## Identifier decoding -/

/-- Table `bcdplus = "0123456789 -.:,_"`. -/
def bcdplus : List Nat := [48, 49, 50, 51, 52, 53, 54, 55, 56, 57, 32, 45, 46, 58, 44, 95]

/-- Loop of case 0 of `ipmi_sprintf` with `n` iterations left, at index `i`:
`*to++ = *from++ & 0x7f`. -/
def sprintf_unicode_loop (n i : Nat) (dst src : Nat → Nat) : Nat → Nat :=
  match n with
  | 0 => dst
  | n + 1 => sprintf_unicode_loop n (i + 1) (set_at dst i (u8 (src i) &&& 0x7f)) src

/-- Loop of case 1 of `ipmi_sprintf` with `n` iterations left, at index `i`:
`*to++ = bcdplus[*from++ & 0x0f]`. -/
def sprintf_bcd_loop (n i : Nat) (dst src : Nat → Nat) : Nat → Nat :=
  match n with
  | 0 => dst
  | n + 1 =>
    sprintf_bcd_loop n (i + 1) (set_at dst i (bcdplus.getD (u8 (src i) &&& 0x0f) 0)) src

/-- Loop of case 2 of `ipmi_sprintf` with `n` iterations left, `to` at offset `t` and
`from` at offset `f`: four bytes are written from three input bytes.  The operands of
each `|` are read from left to right. -/
def sprintf_packed_loop (n t f : Nat) (dst src : Nat → Nat) : Nat → Nat :=
  match n with
  | 0 => dst
  | n + 1 =>
    let dst1 := set_at dst t (u8 (src f) &&& 0x3f)
    let dst2 := set_at dst1 (t + 1)
      (u8 ((u8 (src f) >>> 6) ||| ((u8 (src (f + 1)) &&& 0xf) <<< 2)))
    let dst3 := set_at dst2 (t + 2)
      (u8 ((u8 (src (f + 1)) >>> 4) ||| ((u8 (src (f + 2)) &&& 0x3) <<< 4)))
    let dst4 := set_at dst3 (t + 3) ((u8 (src (f + 2)) >>> 2) &&& 0x3f)
    sprintf_packed_loop n (t + 4) (f + 3) dst4 src

/-- Function `ipmi_sprintf(to, from, type, length)`, with `dst` and `src` standing for
`to` and `from`: returns the buffer `to` after the call and the number of leading bytes
of `to` the call may have written, terminator included. -/
def ipmi_sprintf (dst src : Nat → Nat) (type length : Nat) : (Nat → Nat) × Nat :=
  let len := u8 length
  match u8 type with
  | 0 => (set_at (sprintf_unicode_loop len 0 dst src) len 0, len + 1)
  | 1 => (set_at (sprintf_bcd_loop len 0 dst src) len 0, len + 1)
  | 2 =>
    let n := (len + 2) / 3
    (set_at (sprintf_packed_loop n 0 0 dst src) (4 * n) 0, 4 * n + 1)
  | 3 =>
    let dst1 := if len > 1 then memcpy dst 0 (fun j => u8 (src j)) 0 len else dst
    (set_at dst1 len 0, len + 1)
  | _ => (dst, 0)

/-! ## Runs -/

/-- The driver state after the message handler has received the responses `msgs` in
order. -/
def run (H : Host) (s : Session) (msgs : List ipmi_msg) : Session :=
  msgs.foldl (bmcsensors_msg_handler H) s

/-- The responses of `k` cancelled reservations in a row: each cancel response is
followed by the response `rsv` to the Reserve request it causes. -/
def cancel_cycles (cancel rsv : ipmi_msg) (k : Nat) : List ipmi_msg :=
  match k with
  | 0 => []
  | k + 1 => cancel_cycles cancel rsv k ++ [cancel, rsv]

/-! ## Predicates used in the statements -/

/-- The record in `data` reaches the "add entry to sdrd table" block: it is a sensor
record (type 1 or 2) of a kind up to `STYPE_MAX` whose per-kind count and the total
count are below their limits, and it is a threshold sensor (`data[16] == 0x01`). -/
def sdr_accepts (s : Session) (data : Nat → Nat) : Prop :=
  (data 6 = 1 ∨ data 6 = 2) ∧ data 15 ≤ STYPE_MAX ∧
    u8 (s.bmcs_count (data 15)) < bmcs_max (data 15) ∧
    s.sdrd_count < MAX_SDR_ENTRIES ∧ data 16 = 0x01

instance (s : Session) (data : Nat → Nat) : Decidable (sdr_accepts s data) := by
  unfold sdr_accepts; infer_instance

/-- Two driver states hold the same discovery results: the same table `sdrd`, the
same total and per-kind counts and the same number of proc-table builds. -/
def same_tables (a b : Session) : Prop :=
  a.sdrd = b.sdrd ∧ a.sdrd_count = b.sdrd_count ∧ a.bmcs_count = b.bmcs_count ∧
    a.build_calls = b.build_calls

/-- Number of leading bytes of `data` that `rcv_sdr_record` may read: the header up
to the length byte for a record that is not a sensor record, and the fixed fields
plus the identifier for a full (type 1) or compact (type 2) sensor record. -/
def codec_extent (data : Nat → Nat) : Nat :=
  if data 6 = 1 then 51 + (data 50 &&& 0x1f)
  else if data 6 = 2 then 35 + (data 34 &&& 0x1f)
  else 8

/-- Entry `e` has the fields of `d` that are taken from the record or from readings;
only `sysctl` and the four threshold-selection fields may differ. -/
def same_record_fields (d e : sdrdata) : Prop :=
  e = { d with sysctl := e.sysctl, lim1 := e.lim1, lim2 := e.lim2,
               lim1_write := e.lim1_write, lim2_write := e.lim2_write }

/-- State `b` has the counts of `a` and every table entry has kept its kind. -/
def frame_kinds (a b : Session) : Prop :=
  b.sdrd_count = a.sdrd_count ∧ b.bmcs_count = a.bmcs_count ∧
    ∀ j, (b.sdrd j).stype = (a.sdrd j).stype

/-- Effect of one handler call on counts and kinds: either nothing changes, or one
record `data` that reaches the "add entry" block is stored at index `sdrd_count`. -/
def table_step (a b : Session) : Prop :=
  frame_kinds a b ∨
    ∃ data : Nat → Nat, sdr_accepts a data ∧ b.sdrd_count = a.sdrd_count + 1 ∧
      b.bmcs_count = set_at a.bmcs_count (data 15) (u8 (a.bmcs_count (data 15) + 1)) ∧
      ∀ j, (b.sdrd j).stype = if j = a.sdrd_count then u8 (data 15) else (a.sdrd j).stype

/-- Capacity and kind invariant of the discovery results. -/
def within_capacity (s : Session) : Prop :=
  s.sdrd_count ≤ MAX_SDR_ENTRIES ∧ (∀ k, k ≤ STYPE_MAX → s.bmcs_count k ≤ bmcs_max k) ∧
    ∀ i, i < s.sdrd_count → 1 ≤ (s.sdrd i).stype ∧ (s.sdrd i).stype ≤ STYPE_MAX

/-- The Get-Sensor-Reading request for the sensor with number `number`. -/
def reading_request (number : Nat) : ipmi_msg :=
  { netfn := IPMI_NETFN_SENSOR, cmd := IPMI_GET_SENSOR_STATE_READING, data := [u8 number] }

/-- The conversion formula as the specification words it (section 4.3), over the
integers: `result = raw * m`; then `b * 10^exponent_b` is added if `exponent_b < 8`,
else `b / 10^(16 - exponent_b)`; then the result is multiplied by `10^exponent_result`
if `exponent_result < 8`. -/
def spec_convert (raw : Nat) (m b : Int) (exponent_b exponent_result : Nat) : Int :=
  let result : Int := (raw : Int) * m
  let result : Int :=
    if exponent_b < 8 then result + b * 10 ^ exponent_b
    else result + Int.tdiv b (10 ^ (16 - exponent_b))
  if exponent_result < 8 then result * 10 ^ exponent_result else result

/-- The decimal-place count as the specification words it (section 4.3). -/
def spec_decimal_places (exponent_result : Nat) : Int :=
  if exponent_result < 8 then 0 else 16 - (exponent_result : Int)

/-! ## Concrete inputs -/

/-- A host with 64-bit `long` and `IPMI_MAX_MSG_LENGTH = 80` (an array `rx_msg_data` of
130 bytes) on which allocation and registration succeed. -/
def host_lp64 : Host :=
  { long_bits := 64, BMC_SYSCTL_TEMP1 := 1100, BMC_SYSCTL_IN1 := 1000,
    BMC_SYSCTL_CURR1 := 1200, BMC_SYSCTL_FAN1 := 1300, SENSORS_PROC_REAL_INFO := 1,
    SENSORS_PROC_REAL_READ := 2, SENSORS_PROC_REAL_WRITE := 3, kmalloc_dir_table := true,
    kmalloc_name_pool := true, i2c_register_entry := 1, IPMI_MAX_MSG_LENGTH := 80 }

/-- The same host with 32-bit `long`. -/
def host_ilp32 : Host := { host_lp64 with long_bits := 32 }

/-- Payload of a successful Get-SDR response carrying one full sensor record (type 1,
declared length 48 + 4 id bytes) with next-record id `next`, sensor kind `stype`,
slope bytes `m_lo`, `m_hi`, offset bytes `b_lo`, `b_hi` and exponent byte `k`;
thresholds and hysteresis readable and settable, threshold mask 0x1212, limits
90, 80, 70, 5, 10, 15, hysteresis 2 and 3, plain-ASCII id "Temp". -/
def full_record_payload (next stype m_lo m_hi b_lo b_hi k : Nat) : List Nat :=
  [0x00, next % 256, next / 256, 0x01, 0x00, 0x51, 0x01, 52,
   0x20, 0x00, 0x07, 0x03, 0x01, 0x7f, 0x68, stype,
   0x01, 0x00, 0x00, 0x00, 0x00, 0x12, 0x12, 0x00,
   0x00, 0x00, 0x00, m_lo, m_hi, b_lo, b_hi, 0x00,
   k, 0x00, 0x30, 0x00, 0x00, 0x00, 0x00, 90,
   80, 70, 5, 10, 15, 2, 3, 0x00,
   0x00, 0x00, 0xc4, 84, 101, 109, 112]

/-- A Get-SDR response with the given payload. -/
def sdr_response (payload : List Nat) : ipmi_msg :=
  { netfn := IPMI_NETFN_STORAGE + 1, cmd := IPMI_GET_SDR, data := payload }

/-- A successful Reserve-SDR response with reservation id bytes 0x34, 0x12. -/
def reserve_response : ipmi_msg :=
  { netfn := IPMI_NETFN_STORAGE + 1, cmd := IPMI_RESERVE_SDR, data := [0x00, 0x34, 0x12] }

/-- A successful Get-Sensor-Reading response with raw reading `v`. -/
def reading_response (v : Nat) : ipmi_msg :=
  { netfn := IPMI_NETFN_SENSOR + 1, cmd := IPMI_GET_SENSOR_STATE_READING,
    data := [0x00, v, 0xc0, 0x00] }

/-- The session after `bmcsensors_detect` on a freshly loaded driver and a successful
Reserve response: the first Get-SDR request is outstanding. -/
def session_walking : Session :=
  bmcsensors_msg_handler host_lp64 (bmcsensors_detect Session.load) reserve_response

/-- The session after the walk has ended with one temperature record (`m = 10`,
`b = 0`, `exponent_b = 0`, `exponent_result = 8`, next-record id 0xFFFF). -/
def session_registered : Session :=
  bmcsensors_msg_handler host_lp64 session_walking
    (sdr_response (full_record_payload 0xFFFF 1 10 0 0 0 0x80))

/-- A Get-SDR response with the buffer-too-large completion code 0xCA. -/
def overflow_response : ipmi_msg :=
  { netfn := IPMI_NETFN_STORAGE + 1, cmd := IPMI_GET_SDR, data := [0xca] }

/-- The walking session after two overflow responses: chunk size 16. -/
def session_chunk16 : Session :=
  run host_lp64 session_walking [overflow_response, overflow_response]

/-- Fragment `k` of the response `whole` at chunk size `c`: the three leading bytes
(completion code, next-record id) followed by the record bytes `[k*c, (k+1)*c)`. -/
def fragment (c : Nat) (whole : ipmi_msg) (k : Nat) : ipmi_msg :=
  { whole with data := whole.data.take 3 ++ (whole.data.drop (3 + k * c)).take c }

/-- Payload of a successful Get-SDR response carrying a management-controller locator
record (type 0x12) of declared length 20, next-record id 0x0003. -/
def locator_record_payload : List Nat :=
  [0x00, 0x03, 0x00, 0x02, 0x00, 0x51, 0x12, 20,
   0x20, 0x00, 0x00, 0x00, 0x00, 0x00, 0x07, 0x00,
   0x00, 0x00, 0xc9, 66, 97, 115, 101, 98,
   111, 97, 114, 100]

/-- Payload of a successful Get-SDR response carrying a sensor record of type 1 whose
declared length is only 20: a voltage threshold sensor, next-record id 0xFFFF. -/
def short_sensor_payload : List Nat :=
  [0x00, 0xff, 0xff, 0x02, 0x00, 0x51, 0x01, 20,
   0x20, 0x00, 0x08, 0x03, 0x01, 0x7f, 0x68, 0x02,
   0x01, 0x00, 0x00, 0x00, 0x00, 0x12, 0x12, 0x00,
   0x00, 0x00, 0x00, 0x05]

/-- The chunk-size-16 session after the full temperature record with next-record id
0x0002 has been received in four fragments. -/
def session_after_first_record : Session :=
  run host_lp64 session_chunk16
    ((List.range 4).map (fragment 16 (sdr_response (full_record_payload 0x0002 1 10 0 0 0 0x80))))


/-- A Get-SDR response with the reservation-cancelled completion code 0xC5. -/
def cancel_response : ipmi_msg :=
  { netfn := IPMI_NETFN_STORAGE + 1, cmd := IPMI_GET_SDR, data := [0xc5] }

/-- The walking session after one temperature record with next-record id 0x0002. -/
def session_one_descriptor : Session :=
  bmcsensors_msg_handler host_lp64 session_walking
    (sdr_response (full_record_payload 0x0002 1 10 0 0 0 0x80))

/-- The session after the reservation was cancelled during the request for the second
record: a Reserve request is outstanding. -/
def session_uncancel : Session :=
  bmcsensors_msg_handler host_lp64 session_one_descriptor cancel_response

/-- The walking session after 50 accepted records (20 temperature, 20 voltage and 10
current sensors), each with next-record id 0x0002: the table is full. -/
def session_full : Session :=
  run host_lp64 session_walking
    (List.replicate 20 (sdr_response (full_record_payload 0x0002 1 10 0 0 0 0x80)) ++
     List.replicate 20 (sdr_response (full_record_payload 0x0002 2 10 0 0 0 0x80)) ++
     List.replicate 10 (sdr_response (full_record_payload 0x0002 3 10 0 0 0 0x80)))

/-- Payload of a successful Get-SDR response carrying a locator record (type 0x12) that
is the last record of the repository (next-record id 0xFFFF). -/
def last_locator_payload : List Nat :=
  [0x00, 0xff, 0xff, 0x02, 0x00, 0x51, 0x12, 20,
   0x20, 0x00, 0x00, 0x00, 0x00, 0x00, 0x07, 0x00,
   0x00, 0x00, 0xc9, 66, 97, 115, 101, 98,
   111, 97, 114, 100]

/-- Payload of a full fan sensor record with next-record id 0x0007 whose event/reading
type byte is 0x6f: not a threshold sensor. -/
def non_threshold_payload : List Nat :=
  (full_record_payload 0x0007 4 10 0 0 0 0x80).set 16 0x6f

/-- The walk has ended with two descriptors (a temperature sensor, then a voltage
sensor) and a reading cycle has been started: the first Get-Reading request is
outstanding. -/
def session_reading : Session :=
  bmcsensors_get_reading
    { (run host_lp64 session_walking
        [sdr_response (full_record_payload 0x0002 1 10 0 0 0 0x80),
         sdr_response ((full_record_payload 0xFFFF 2 10 0 0 0 0x80).set 10 0x09)]) with
      state := STATE_READING } 0

/-- A Get-SDR response with the completion code 0xC1 (invalid command). -/
def unknown_code_response : ipmi_msg :=
  { netfn := IPMI_NETFN_STORAGE + 1, cmd := IPMI_GET_SDR, data := [0xc1] }

/-- The chunk-size-16 session after the first fragment of a record: the request for
the bytes from offset 16 on is outstanding. -/
def session_mid_record : Session :=
  bmcsensors_msg_handler host_lp64 session_chunk16
    (fragment 16 (sdr_response (full_record_payload 0x0002 1 10 0 0 0 0x80)) 0)

/-- Payload of a successful Get-SDR response of 70 bytes carrying a full temperature
sensor record (next-record id 0xFFFF) whose id type/length byte is 0xdf: plain ASCII,
length 31. -/
def long_id_payload : List Nat :=
  ((full_record_payload 0xFFFF 1 10 0 0 0 0x80).set 50 0xdf).set 7 74
    ++ List.replicate 15 65

/-- The same response as a compact (type 2) sensor record, with the id type/length
byte 0xdf at its place in that format. -/
def long_id_compact_payload : List Nat :=
  (long_id_payload.set 6 2).set 34 0xdf

/-! # Theorems -/

/-! ## Arithmetic lemmas -/

theorem wrap_signed_of_fits (w : Nat) (x : Int) (hw : 0 < w)
    (h1 : -2 ^ (w - 1) ≤ x) (h2 : x < 2 ^ (w - 1)) : wrap_signed w x = x := by
  unfold wrap_signed
  have hpow : (2 : Int) ^ w = 2 * 2 ^ (w - 1) := by
    obtain ⟨n, rfl⟩ : ∃ n, w = n + 1 := ⟨w - 1, by omega⟩
    simp [pow_succ]; ring
  rw [hpow, Int.emod_eq_of_lt (by linarith) (by linarith)]
  ring

theorem pow31_le_long (w : Nat) (hw : 32 ≤ w) : (2 : Int) ^ 31 ≤ 2 ^ (w - 1) :=
  pow_le_pow_right₀ (by norm_num) (by omega)

theorem exps_get (i : Nat) (h : i < 8) : exps.get? i = some (10 ^ i) := by
  interval_cases i <;> rfl

theorem low_nibble (k : Nat) : u8 k &&& 0x0f = k % 16 := by
  have h := Nat.and_pow_two_sub_one_eq_mod (u8 k) 4
  norm_num at h
  rw [h]; unfold u8; omega

theorem high_nibble (k : Nat) : u8 (u8 k >>> 4) = k % 256 / 16 := by
  unfold u8
  rw [Nat.shiftRight_eq_div_pow]
  norm_num
  omega

theorem fits_of_scaled_fits (B S t : Int) (ht : 1 ≤ t)
    (h1 : -B ≤ S * t) (h2 : S * t < B) : -B ≤ S ∧ S < B := by
  constructor
  · by_contra h
    push_neg at h
    have hB : 0 ≤ B := by
      by_contra hB; push_neg at hB; linarith
    have : S * t ≤ S := by nlinarith
    linarith
  · by_contra h
    push_neg at h
    have hB : 0 ≤ B := by
      by_contra hB; push_neg at hB; linarith
    have : S ≤ S * t := by nlinarith
    linarith

theorem vm_fits (v : Nat) (m : Int) (hv : v < 256) (hm1 : -512 ≤ m) (hm2 : m ≤ 511) :
    -2 ^ 31 ≤ (u8 v : Int) * m ∧ (u8 v : Int) * m < 2 ^ 31 := by
  have hu : u8 v = v := by unfold u8; omega
  rw [hu]
  have h0 : (0 : Int) ≤ v := by positivity
  have h1 : (v : Int) ≤ 255 := by omega
  constructor <;> nlinarith

theorem tdiv_small (b e : Int) (hb1 : -512 ≤ b) (hb2 : b ≤ 511) :
    -512 ≤ Int.tdiv b e ∧ Int.tdiv b e ≤ 512 := by
  have hq : (Int.tdiv b e).natAbs ≤ 512 := by
    rw [Int.natAbs_tdiv]
    exact le_trans (Nat.div_le_self _ _) (by omega)
  omega

theorem neg_exponent_sum_fits (H : Host) (v : Nat) (d : sdrdata)
    (hL : 32 ≤ H.long_bits) (hv : v < 256)
    (hm : -512 ≤ d.m ∧ d.m ≤ 511) (hb : -512 ≤ d.b ∧ d.b ≤ 511) :
    -2 ^ (H.long_bits - 1) ≤ (v : Int) * d.m + Int.tdiv d.b (10 ^ (16 - d.k % 16)) ∧
      (v : Int) * d.m + Int.tdiv d.b (10 ^ (16 - d.k % 16)) < 2 ^ (H.long_bits - 1) := by
  have hp := pow31_le_long H.long_bits hL
  have hq := tdiv_small d.b (10 ^ (16 - d.k % 16)) hb.1 hb.2
  have h0 : (0 : Int) ≤ v := by positivity
  have h1 : (v : Int) ≤ 255 := by omega
  constructor <;> nlinarith [hm.1, hm.2, hq.1, hq.2]

/-- The conversion of the driver agrees with the formula of the specification when
`exponent_b` is not 8, the product or quotient formed from `b` fits an `int`, and
the value of the formula fits a `long`. -/
theorem convert_value_eq_spec (H : Host) (v : Nat) (d : sdrdata)
    (hL : 32 ≤ H.long_bits) (hv : v < 256)
    (hm : -512 ≤ d.m ∧ d.m ≤ 511) (hk : d.k < 256)
    (hb : (d.k % 16 < 8 ∧ -2 ^ 31 ≤ d.b * 10 ^ (d.k % 16) ∧ d.b * 10 ^ (d.k % 16) < 2 ^ 31) ∨
          (9 ≤ d.k % 16 ∧ -512 ≤ d.b ∧ d.b ≤ 511))
    (hlong : -2 ^ (H.long_bits - 1) ≤ spec_convert v d.m d.b (d.k % 16) (d.k / 16) ∧
      spec_convert v d.m d.b (d.k % 16) (d.k / 16) < 2 ^ (H.long_bits - 1)) :
    convert_value H v d = some (spec_convert v d.m d.b (d.k % 16) (d.k / 16)) := by
  have hk256 : d.k % 256 = d.k := Nat.mod_eq_of_lt hk
  have hu : u8 v = v := by unfold u8; omega
  have hp := pow31_le_long H.long_bits hL
  have hvm := vm_fits v d.m hv hm.1 hm.2
  rw [hu] at hvm
  have ht : (1 : Int) ≤ 10 ^ (d.k / 16) := one_le_pow₀ (by norm_num)
  rcases hb with ⟨hk1, hint⟩ | ⟨hk1, hb⟩
  · -- non-negative exponent of b
    have hsum : -2 ^ (H.long_bits - 1) ≤ (v : Int) * d.m + d.b * 10 ^ (d.k % 16) ∧
        (v : Int) * d.m + d.b * 10 ^ (d.k % 16) < 2 ^ (H.long_bits - 1) := by
      by_cases hk2 : d.k / 16 < 8
      · simp only [spec_convert, if_pos hk1, if_pos hk2] at hlong
        exact fits_of_scaled_fits _ _ _ ht hlong.1 hlong.2
      · simpa only [spec_convert, if_pos hk1, if_neg hk2] using hlong
    unfold convert_value
    simp only [low_nibble, high_nibble, hk256, hk1, if_true, exps_get _ hk1, Option.map_some', hu]
    rw [wrap_signed_of_fits 32 _ (by norm_num) hvm.1 hvm.2,
      wrap_signed_of_fits 32 _ (by norm_num) hint.1 hint.2,
      wrap_signed_of_fits H.long_bits ((v : Int) * d.m) (by omega) (by linarith [hvm.1])
        (by linarith [hvm.2]),
      wrap_signed_of_fits H.long_bits _ (by omega) hsum.1 hsum.2]
    by_cases hk2 : d.k / 16 < 8
    · simp only [spec_convert, if_pos hk1, if_pos hk2] at hlong ⊢
      simp only [exps_get _ hk2, Option.some_bind, Option.map_some']
      rw [wrap_signed_of_fits H.long_bits _ (by omega) hlong.1 hlong.2]
    · simp only [spec_convert, if_pos hk1, if_neg hk2]
  · -- negative exponent of b
    have hk1' : ¬ d.k % 16 < 8 := by omega
    have hidx : 16 - d.k % 16 < 8 := by omega
    have hq := tdiv_small d.b (10 ^ (16 - d.k % 16)) hb.1 hb.2
    have hsum := neg_exponent_sum_fits H v d hL hv hm hb
    unfold convert_value
    simp only [low_nibble, high_nibble, hk256, hk1', if_false, exps_get _ hidx,
      Option.map_some', hu]
    rw [wrap_signed_of_fits 32 _ (by norm_num) hvm.1 hvm.2,
      wrap_signed_of_fits 32 (Int.tdiv d.b (10 ^ (16 - d.k % 16))) (by norm_num)
        (by norm_num; linarith [hq.1]) (by norm_num; linarith [hq.2]),
      wrap_signed_of_fits H.long_bits ((v : Int) * d.m) (by omega) (by linarith [hvm.1])
        (by linarith [hvm.2]),
      wrap_signed_of_fits H.long_bits _ (by omega) hsum.1 hsum.2]
    by_cases hk2 : d.k / 16 < 8
    · simp only [spec_convert, if_neg hk1', if_pos hk2] at hlong ⊢
      simp only [exps_get _ hk2, Option.some_bind, Option.map_some']
      rw [wrap_signed_of_fits H.long_bits _ (by omega) hlong.1 hlong.2]
    · simp only [spec_convert, if_neg hk1', if_neg hk2]

/-! ## Value converter -/

/-- C2, as stated, fails: with `m = 0`, `b = 511`, `exponent_b = 7`, `exponent_result = 0`
and raw byte 0 the product `b * exps[7]` is formed in a 32-bit `int` and wraps, so
`convert_value` returns 815032704 (even with a 64-bit `long`) and not
`(0*0 + 511*10^7) * 10^0 = 5110000000`. -/
theorem convert_value_int_product_wraps :
    convert_value host_lp64 0 { sdrdata.zero with m := 0, b := 511, k := 0x07 }
        = some 815032704 ∧
      (((0 : Nat) : Int) * 0 + 511 * 10 ^ 7) * 10 ^ 0 ≠ 815032704 := by
  decide

/-- C2 (amended): for every raw byte `v`, slope `m` in -512..511, offset `b` and
exponents `exponent_b = k % 16`, `exponent_result = k / 16` both in 0..7, whenever
`b * 10^exponent_b` fits a 32-bit `int` and `(v*m + b*10^exponent_b) * 10^exponent_result`
fits a `long`, `convert_value` returns exactly that value. -/
theorem convert_value_nonneg_exponents (H : Host) (v : Nat) (d : sdrdata)
    (hL : 32 ≤ H.long_bits) (hv : v < 256)
    (hm : -512 ≤ d.m ∧ d.m ≤ 511)
    (hk : d.k < 256) (hk1 : d.k % 16 < 8) (hk2 : d.k / 16 < 8)
    (hint : -2 ^ 31 ≤ d.b * 10 ^ (d.k % 16) ∧ d.b * 10 ^ (d.k % 16) < 2 ^ 31)
    (hlong : -2 ^ (H.long_bits - 1) ≤ ((v : Int) * d.m + d.b * 10 ^ (d.k % 16)) * 10 ^ (d.k / 16) ∧
      ((v : Int) * d.m + d.b * 10 ^ (d.k % 16)) * 10 ^ (d.k / 16) < 2 ^ (H.long_bits - 1)) :
    convert_value H v d
      = some (((v : Int) * d.m + d.b * 10 ^ (d.k % 16)) * 10 ^ (d.k / 16)) := by
  have h := convert_value_eq_spec H v d hL hv hm hk (Or.inl ⟨hk1, hint⟩)
    (by simpa only [spec_convert, if_pos hk1, if_pos hk2] using hlong)
  simpa only [spec_convert, if_pos hk1, if_pos hk2] using h

/-- Witness for C2 (amended): `m = 10`, `b = -3`, `exponent_b = 2`, `exponent_result = 1`,
raw byte 50. -/
theorem convert_value_nonneg_exponents_witness :
    convert_value host_lp64 50 { sdrdata.zero with m := 10, b := -3, k := 0x12 }
      = some ((((50 : Nat) : Int) * 10 + (-3) * 10 ^ (0x12 % 16)) * 10 ^ (0x12 / 16)) :=
  convert_value_nonneg_exponents host_lp64 50 { sdrdata.zero with m := 10, b := -3, k := 0x12 }
    (by decide) (by decide) (by decide) (by decide) (by decide) (by decide) (by decide)
    (by decide)

/-- C3, as stated, fails: with `exponent_b = 8` the index `16 - 8` lies outside the
eight-entry table `exps`, so the conversion has no defined result; and with a 32-bit
`long`, `v = 255`, `m = 511`, `b = 0`, `exponent_b = 9`, `exponent_result = 7` the
scaling by `10^7` wraps, giving 1674909312 and not `(255*511 + 0) * 10^7`. -/
theorem convert_value_exponent_b_8_and_long_wraps :
    convert_value host_lp64 10 { sdrdata.zero with m := 1, b := 100, k := 0x88 } = none ∧
    convert_value host_ilp32 255 { sdrdata.zero with m := 511, b := 0, k := 0x79 }
        = some 1674909312 ∧
      (((255 : Nat) : Int) * 511 + Int.tdiv 0 (10 ^ (16 - 9))) * 10 ^ 7 ≠ 1674909312 := by
  decide

/-- C3 (amended): for every raw byte `v`, `m` and `b` in -512..511 and
`exponent_b = k % 16` in 9..15, `convert_value` adds `b / 10^(16 - exponent_b)`
(truncating toward zero) to `v*m`; for `exponent_result = k / 16` in 8..15 this sum is
the result, and for `exponent_result < 8` the result is the sum times
`10^exponent_result` whenever that product fits a `long`. -/
theorem convert_value_negative_exponent_b (H : Host) (v : Nat) (d : sdrdata)
    (hL : 32 ≤ H.long_bits) (hv : v < 256)
    (hm : -512 ≤ d.m ∧ d.m ≤ 511) (hb : -512 ≤ d.b ∧ d.b ≤ 511)
    (hk : d.k < 256) (hk1 : 9 ≤ d.k % 16)
    (hlong : d.k / 16 < 8 →
      -2 ^ (H.long_bits - 1)
          ≤ ((v : Int) * d.m + Int.tdiv d.b (10 ^ (16 - d.k % 16))) * 10 ^ (d.k / 16) ∧
        ((v : Int) * d.m + Int.tdiv d.b (10 ^ (16 - d.k % 16))) * 10 ^ (d.k / 16)
          < 2 ^ (H.long_bits - 1)) :
    convert_value H v d
      = some (if d.k / 16 < 8 then
                ((v : Int) * d.m + Int.tdiv d.b (10 ^ (16 - d.k % 16))) * 10 ^ (d.k / 16)
              else (v : Int) * d.m + Int.tdiv d.b (10 ^ (16 - d.k % 16))) := by
  have hk1' : ¬ d.k % 16 < 8 := by omega
  have hfit := neg_exponent_sum_fits H v d hL hv hm hb
  have h := convert_value_eq_spec H v d hL hv hm hk (Or.inr ⟨hk1, hb⟩)
    (by
      simp only [spec_convert, if_neg hk1']
      by_cases hk2 : d.k / 16 < 8
      · simpa only [if_pos hk2] using hlong hk2
      · simpa only [if_neg hk2] using hfit)
  simpa only [spec_convert, if_neg hk1'] using h

/-- Witness for C3 (amended): `m = -5`, `b = -511`, `exponent_b = 15`,
`exponent_result = 1`, raw byte 3, 32-bit `long`. -/
theorem convert_value_negative_exponent_b_witness :
    convert_value host_ilp32 3 { sdrdata.zero with m := -5, b := -511, k := 0x1f }
      = some (if 0x1f / 16 < 8 then
                (((3 : Nat) : Int) * (-5) + Int.tdiv (-511) (10 ^ (16 - 0x1f % 16)))
                  * 10 ^ (0x1f / 16)
              else ((3 : Nat) : Int) * (-5) + Int.tdiv (-511) (10 ^ (16 - 0x1f % 16))) :=
  convert_value_negative_exponent_b host_ilp32 3
    { sdrdata.zero with m := -5, b := -511, k := 0x1f }
    (by decide) (by decide) (by decide) (by decide) (by decide) (by decide)
    (fun _ => by decide)

/-! ## Record codec -/

set_option maxRecDepth 100000 in
theorem and_c0_of_mul : ∀ q, q < 4 → (64 * q) &&& 0xc0 = 64 * q := by decide

set_option maxRecDepth 100000 in
theorem and_c0 : ∀ hi, hi < 256 → hi &&& 0xc0 = 64 * (hi / 64) := by decide

set_option maxRecDepth 100000 in
theorem mb_field_aux : ∀ q, q < 4 → ∀ lo, lo < 256 →
    sdr_mb_field lo (64 * q) =
      if lo + 256 * q < 512 then ((lo + 256 * q : Nat) : Int)
      else ((lo + 256 * q : Nat) : Int) - 1024 := by decide

theorem mb_field_value (lo hi : Nat) (hlo : lo < 256) (hhi : hi < 256) :
    sdr_mb_field lo hi =
      if lo + 256 * (hi / 64) < 512 then ((lo + 256 * (hi / 64) : Nat) : Int)
      else ((lo + 256 * (hi / 64) : Nat) : Int) - 1024 := by
  have hq : hi / 64 < 4 := by omega
  rw [← mb_field_aux (hi / 64) hq lo hlo]
  unfold sdr_mb_field
  rw [and_c0 hi hhi, and_c0_of_mul _ hq]

theorem u8_lt (x : Nat) : u8 x < 256 := by unfold u8; omega

theorem same_record_fields_refl (d : sdrdata) : same_record_fields d d := rfl

theorem same_record_fields_trans {a b c : sdrdata} (h1 : same_record_fields a b)
    (h2 : same_record_fields b c) : same_record_fields a c := by
  unfold same_record_fields at *
  rw [h2, h1]

theorem select_thresholds_same (sdrd : Nat → sdrdata) (i j : Nat) :
    same_record_fields (sdrd j) (bmcsensors_select_thresholds sdrd i j) := by
  unfold bmcsensors_select_thresholds set_at
  by_cases h : j = i
  · subst h; simp only [if_true]; rfl
  · simp only [if_neg h]; rfl

theorem build_loop_same (H : Host) (n : Nat) :
    ∀ (i t v c f : Nat) (sdrd : Nat → sdrdata) (j : Nat),
      same_record_fields (sdrd j) (build_proc_table_loop H n i t v c f sdrd j) := by
  induction n with
  | zero => intro i t v c f sdrd j; exact same_record_fields_refl _
  | succ n ih =>
    intro i t v c f sdrd j
    have hset : ∀ (x : Int), same_record_fields (sdrd j)
        (bmcsensors_select_thresholds (set_at sdrd i { (sdrd i) with sysctl := x }) i j) := by
      intro x
      refine same_record_fields_trans ?_ (select_thresholds_same _ i j)
      unfold set_at
      by_cases h : j = i
      · subst h; simp only [if_true]; rfl
      · simp only [if_neg h]; rfl
    unfold build_proc_table_loop
    simp only []
    split_ifs
    · exact same_record_fields_trans (hset _) (ih _ _ _ _ _ _ j)
    · exact same_record_fields_trans (hset _) (ih _ _ _ _ _ _ j)
    · exact same_record_fields_trans (hset _) (ih _ _ _ _ _ _ j)
    · exact same_record_fields_trans (hset _) (ih _ _ _ _ _ _ j)
    · exact ih _ _ _ _ _ _ j

theorem build_proc_table_same (H : Host) (s : Session) (j : Nat) :
    same_record_fields (s.sdrd j) ((bmcsensors_build_proc_table H s).sdrd j) := by
  unfold bmcsensors_build_proc_table
  simp only []
  split_ifs
  · exact same_record_fields_refl _
  · exact same_record_fields_refl _
  · exact build_loop_same H _ _ _ _ _ _ _ j
  · exact build_loop_same H _ _ _ _ _ _ _ j

theorem sdr_collect_accepts (s : Session) (data : Nat → Nat) (h : sdr_accepts s data) :
    sdr_collect s data =
      { s with
          sdrd := set_at s.sdrd s.sdrd_count
                    (sdr_fill_entry (s.sdrd s.sdrd_count) data (data 6) (data 15)),
          bmcs_count := set_at s.bmcs_count (data 15) (u8 (s.bmcs_count (data 15) + 1)),
          sdrd_count := s.sdrd_count + 1 } := by
  obtain ⟨h1, h2, h3, h4, h5⟩ := h
  unfold sdr_collect
  simp only []
  rw [if_pos h1, if_pos h2, if_neg (by omega), if_neg (by omega), if_neg (by simp [h5])]

theorem rcv_sdr_record_same (H : Host) (s : Session) (data : Nat → Nat) (j : Nat) :
    same_record_fields
      ((sdr_collect { s with nextrecord := u16 ((data 2 <<< 8) ||| data 1) } data).sdrd j)
      ((rcv_sdr_record H s data).1.sdrd j) := by
  unfold rcv_sdr_record
  simp only []
  split_ifs
  · exact same_record_fields_refl _
  · exact build_proc_table_same H _ j
  · exact same_record_fields_refl _


@[simp] theorem build_proc_table_sdrd_count (H : Host) (s : Session) :
    (bmcsensors_build_proc_table H s).sdrd_count = s.sdrd_count := by
  unfold bmcsensors_build_proc_table
  simp only []
  split_ifs <;> rfl

@[simp] theorem build_proc_table_bmcs_count (H : Host) (s : Session) :
    (bmcsensors_build_proc_table H s).bmcs_count = s.bmcs_count := by
  unfold bmcsensors_build_proc_table
  simp only []
  split_ifs <;> rfl

@[simp] theorem build_proc_table_ipmi_sdr_partial_size (H : Host) (s : Session) :
    (bmcsensors_build_proc_table H s).ipmi_sdr_partial_size = s.ipmi_sdr_partial_size := by
  unfold bmcsensors_build_proc_table
  simp only []
  split_ifs <;> rfl

@[simp] theorem build_proc_table_rx_msg_data (H : Host) (s : Session) :
    (bmcsensors_build_proc_table H s).rx_msg_data = s.rx_msg_data := by
  unfold bmcsensors_build_proc_table
  simp only []
  split_ifs <;> rfl

@[simp] theorem build_proc_table_rx_msg_data_offset (H : Host) (s : Session) :
    (bmcsensors_build_proc_table H s).rx_msg_data_offset = s.rx_msg_data_offset := by
  unfold bmcsensors_build_proc_table
  simp only []
  split_ifs <;> rfl

@[simp] theorem build_proc_table_msgid (H : Host) (s : Session) :
    (bmcsensors_build_proc_table H s).msgid = s.msgid := by
  unfold bmcsensors_build_proc_table
  simp only []
  split_ifs <;> rfl

@[simp] theorem build_proc_table_resid (H : Host) (s : Session) :
    (bmcsensors_build_proc_table H s).resid = s.resid := by
  unfold bmcsensors_build_proc_table
  simp only []
  split_ifs <;> rfl

@[simp] theorem build_proc_table_nextrecord (H : Host) (s : Session) :
    (bmcsensors_build_proc_table H s).nextrecord = s.nextrecord := by
  unfold bmcsensors_build_proc_table
  simp only []
  split_ifs <;> rfl

@[simp] theorem build_proc_table_errorcount (H : Host) (s : Session) :
    (bmcsensors_build_proc_table H s).errorcount = s.errorcount := by
  unfold bmcsensors_build_proc_table
  simp only []
  split_ifs <;> rfl

@[simp] theorem build_proc_table_state (H : Host) (s : Session) :
    (bmcsensors_build_proc_table H s).state = s.state := by
  unfold bmcsensors_build_proc_table
  simp only []
  split_ifs <;> rfl

@[simp] theorem build_proc_table_receive_counter (H : Host) (s : Session) :
    (bmcsensors_build_proc_table H s).receive_counter = s.receive_counter := by
  unfold bmcsensors_build_proc_table
  simp only []
  split_ifs <;> rfl

@[simp] theorem build_proc_table_sent (H : Host) (s : Session) :
    (bmcsensors_build_proc_table H s).sent = s.sent := by
  unfold bmcsensors_build_proc_table
  simp only []
  split_ifs <;> rfl

@[simp] theorem build_proc_table_build_calls (H : Host) (s : Session) :
    (bmcsensors_build_proc_table H s).build_calls = s.build_calls + 1 := by
  unfold bmcsensors_build_proc_table
  simp only []
  split_ifs <;> rfl

@[simp] theorem build_proc_table_rx_overrun (H : Host) (s : Session) :
    (bmcsensors_build_proc_table H s).rx_overrun = s.rx_overrun := by
  unfold bmcsensors_build_proc_table
  simp only []
  split_ifs <;> rfl

/-- C4: for every full-format record (type 1) that reaches the "add entry" block, the
record is stored and its slope `m` is the two's-complement value of the 10-bit field
`u = data[27] + 256 * (data[28] >> 6)`: `m = u` if `u < 512`, else `u - 1024`; the same
holds for `b` with bytes 29 and 30.  Hence `m` and `b` lie in -512..511 and the field
0x200 gives -512. -/
theorem full_record_slope_offset (H : Host) (s : Session) (raw : Nat → Nat)
    (hacc : sdr_accepts s (fun j => u8 (raw j))) (hfull : u8 (raw 6) = 1) :
    let r := rcv_sdr_record H s (fun j => u8 (raw j))
    let d := r.1.sdrd s.sdrd_count
    let um := u8 (raw 27) + 256 * (u8 (raw 28) / 64)
    let ub := u8 (raw 29) + 256 * (u8 (raw 30) / 64)
    r.1.sdrd_count = s.sdrd_count + 1 ∧
    d.m = (if um < 512 then (um : Int) else (um : Int) - 1024) ∧
    d.b = (if ub < 512 then (ub : Int) else (ub : Int) - 1024) ∧
    (-512 ≤ d.m ∧ d.m ≤ 511) ∧ (-512 ≤ d.b ∧ d.b ≤ 511) ∧
    (um = 0x200 → d.m = -512) ∧ (ub = 0x200 → d.b = -512) := by
  intro r d um ub
  have hsame := rcv_sdr_record_same H s (fun j => u8 (raw j)) s.sdrd_count
  have hacc0 : sdr_accepts { s with nextrecord := u16 ((u8 (raw 2) <<< 8) ||| u8 (raw 1)) }
      (fun j => u8 (raw j)) := hacc
  rw [sdr_collect_accepts _ _ hacc0] at hsame
  have hcount : r.1.sdrd_count = s.sdrd_count + 1 := by
    simp only [r, rcv_sdr_record]
    rw [sdr_collect_accepts _ _ hacc0]
    simp only []
    split_ifs
    · rfl
    · simp
    · rfl
  have hm : d.m = sdr_mb_field (u8 (raw 27)) (u8 (raw 28)) := by
    have := congrArg sdrdata.m hsame
    simp only [set_at, if_true, sdr_fill_entry, hfull] at this
    exact this
  have hb : d.b = sdr_mb_field (u8 (raw 29)) (u8 (raw 30)) := by
    have := congrArg sdrdata.b hsame
    simp only [set_at, if_true, sdr_fill_entry, hfull] at this
    exact this
  rw [mb_field_value _ _ (u8_lt _) (u8_lt _)] at hm hb
  have h27 := u8_lt (raw 27)
  have h28 := u8_lt (raw 28)
  have h29 := u8_lt (raw 29)
  have h30 := u8_lt (raw 30)
  refine ⟨hcount, hm, hb, ?_, ?_, ?_, ?_⟩
  · rw [hm]; split_ifs <;> omega
  · rw [hb]; split_ifs <;> omega
  · intro h; rw [hm]; simp only [um] at h; split_ifs <;> omega
  · intro h; rw [hb]; simp only [ub] at h; split_ifs <;> omega

/-- Witness for C4: a voltage record with slope field 0x200 and offset field 0x3ff,
received by the session that has sent its first Get-SDR request. -/
theorem full_record_slope_offset_witness :
    ((rcv_sdr_record host_lp64 session_walking
        (fun j => u8 ((full_record_payload 0x0002 2 0x00 0x80 0xff 0xc0 0x00).getD j 0))).1.sdrd
          session_walking.sdrd_count).m = -512 :=
  (full_record_slope_offset host_lp64 session_walking
    (fun j => (full_record_payload 0x0002 2 0x00 0x80 0xff 0xc0 0x00).getD j 0)
    (by decide) (by decide)).2.2.2.2.2.1 (by decide)

/-- C5: for every descriptor, `decplaces` returns 0 when `exponent_result` (the high
nibble of the byte `k`) is in 0..7 and `16 - exponent_result` when it is in 8..15
(so 2 for `exponent_result = 14`); the result always lies in 0..8. -/
theorem decplaces_by_exponent_result (d : sdrdata) :
    (d.k % 256 / 16 < 8 → decplaces d = 0) ∧
    (8 ≤ d.k % 256 / 16 → decplaces d = 16 - ((d.k % 256 / 16 : Nat) : Int)) ∧
    (d.k % 256 / 16 = 14 → decplaces d = 2) ∧
    0 ≤ decplaces d ∧ decplaces d ≤ 8 := by
  have hlt : d.k % 256 / 16 < 16 := by omega
  refine ⟨?_, ?_, ?_, ?_, ?_⟩ <;>
    · unfold decplaces
      simp only [high_nibble]
      split_ifs <;> omega

/-! ## Threshold selector -/

/-- C6: when the threshold-access field `capab & 0x0c` is 0x04 or 0x08, the upper slot is
1 if mask bit 0x10 is set, else 0 if 0x20 is set, else 2 if 0x08 is set, else none (-1);
and, when hysteresis is not readable, the lower slot is 4 if mask bit 0x02 is set, else
3 if 0x04 is set, else 5 if 0x01 is set, else none.  When the field is neither 0x04 nor
0x08 both slots are none and both writable flags are 0. -/
theorem select_thresholds_first_match (sdrd : Nat → sdrdata) (i : Nat) :
    let capab := (sdrd i).capab % 256
    let mask := (sdrd i).thresh_mask % 65536
    let d := bmcsensors_select_thresholds sdrd i i
    ((capab &&& 0x0c = 0x04 ∨ capab &&& 0x0c = 0x08) →
      d.lim1 = (if mask &&& 0x10 ≠ 0 then 1 else if mask &&& 0x20 ≠ 0 then 0
                else if mask &&& 0x08 ≠ 0 then 2 else -1) ∧
      (¬ (capab &&& 0x30 = 0x10 ∨ capab &&& 0x30 = 0x20) →
        d.lim2 = (if mask &&& 0x02 ≠ 0 then 4 else if mask &&& 0x04 ≠ 0 then 3
                  else if mask &&& 0x01 ≠ 0 then 5 else -1))) ∧
    (¬ (capab &&& 0x0c = 0x04 ∨ capab &&& 0x0c = 0x08) →
      d.lim1 = -1 ∧ d.lim2 = -1 ∧ d.lim1_write = 0 ∧ d.lim2_write = 0) := by
  intro capab mask d
  refine ⟨fun h => ⟨?_, fun hh => ?_⟩, fun h => ?_⟩
  · simp only [d, bmcsensors_select_thresholds, set_at, if_true, select_thresholds_entry, u8, u16]
    rw [if_pos h]
    unfold select_upper
    split_ifs <;> rfl
  · simp only [d, bmcsensors_select_thresholds, set_at, if_true, select_thresholds_entry, u8, u16]
    rw [if_pos h]
    unfold select_lower
    rw [if_neg hh]
    split_ifs <;> rfl
  · simp only [d, bmcsensors_select_thresholds, set_at, if_true, select_thresholds_entry, u8, u16]
    rw [if_neg h]
    exact ⟨rfl, rfl, rfl, rfl⟩

/-- C7, as stated, fails: with `capab = 0x10` (hysteresis readable, thresholds not
readable) and the lower-critical mask bit 0x02 set, no lower slot is selected
(`lim2 = -1`), not the hysteresis slot 6. -/
theorem select_thresholds_hysteresis_needs_readable :
    (select_thresholds_entry { sdrdata.zero with capab := 0x10, thresh_mask := 0x02 }).lim2 ≠ 6 ∧
    (bmcsensors_select_thresholds
      (fun _ => { sdrdata.zero with capab := 0x10, thresh_mask := 0x02 }) 0 0).lim2 = -1 := by
  decide

/-- C7 (amended): for every capability byte whose threshold-access field `capab & 0x0c`
is 0x04 or 0x08 and that indicates hysteresis is readable (`capab & 0x30` is 0x10 or
0x20), and every threshold mask, the lower slot is the hysteresis slot 6. -/
theorem select_thresholds_hysteresis (sdrd : Nat → sdrdata) (i : Nat)
    (hthr : (sdrd i).capab % 256 &&& 0x0c = 0x04 ∨ (sdrd i).capab % 256 &&& 0x0c = 0x08)
    (hhys : (sdrd i).capab % 256 &&& 0x30 = 0x10 ∨ (sdrd i).capab % 256 &&& 0x30 = 0x20) :
    (bmcsensors_select_thresholds sdrd i i).lim2 = 6 := by
  simp only [bmcsensors_select_thresholds, set_at, if_true, select_thresholds_entry, u8, u16]
  rw [if_pos hthr]
  unfold select_lower
  rw [if_pos hhys]

/-- Witness for C7 (amended): `capab = 0x18`, lower-critical bit set in the mask. -/
theorem select_thresholds_hysteresis_witness :
    (bmcsensors_select_thresholds
      (fun _ => { sdrdata.zero with capab := 0x18, thresh_mask := 0x0202 }) 3 3).lim2 = 6 :=
  select_thresholds_hysteresis _ 3 (by decide) (by decide)

/-- C8: the upper writable flag is 1 exactly when `capab & 0x0c` is 0x08 and the
write-enable bit of the selected upper slot is set (0x1000 for slot 1, 0x2000 for slot 0,
0x0800 for slot 2); the lower writable flag is 1 exactly when `capab & 0x0c` is 0x08 and
the lower slot was selected by the mask search with its write-enable bit set (0x0200 for
slot 4, 0x0400 for slot 3, 0x0100 for slot 5); both flags are 0 or 1 and a lower slot
fixed to hysteresis (6) is not writable. -/
theorem select_thresholds_writable (sdrd : Nat → sdrdata) (i : Nat) :
    let capab := (sdrd i).capab % 256
    let mask := (sdrd i).thresh_mask % 65536
    let d := bmcsensors_select_thresholds sdrd i i
    (d.lim1_write = 1 ↔
      capab &&& 0x0c = 0x08 ∧
        ((d.lim1 = 1 ∧ mask &&& 0x1000 ≠ 0) ∨ (d.lim1 = 0 ∧ mask &&& 0x2000 ≠ 0) ∨
          (d.lim1 = 2 ∧ mask &&& 0x0800 ≠ 0))) ∧
    (d.lim2_write = 1 ↔
      capab &&& 0x0c = 0x08 ∧
        ((d.lim2 = 4 ∧ mask &&& 0x0200 ≠ 0) ∨ (d.lim2 = 3 ∧ mask &&& 0x0400 ≠ 0) ∨
          (d.lim2 = 5 ∧ mask &&& 0x0100 ≠ 0))) ∧
    (d.lim1_write = 0 ∨ d.lim1_write = 1) ∧ (d.lim2_write = 0 ∨ d.lim2_write = 1) ∧
    (d.lim2 = 6 → d.lim2_write = 0) := by
  intro capab mask d
  simp only [d, capab, mask, bmcsensors_select_thresholds, set_at, if_true,
    select_thresholds_entry, u8, u16]
  refine ⟨?_, ?_, ?_, ?_, ?_⟩
  · by_cases h : (sdrd i).capab % 256 &&& 0x0c = 0x04 ∨ (sdrd i).capab % 256 &&& 0x0c = 0x08
    · rw [if_pos h]
      unfold select_upper
      split_ifs <;> simp_all
    · rw [if_neg h]
      simp
  · by_cases h : (sdrd i).capab % 256 &&& 0x0c = 0x04 ∨ (sdrd i).capab % 256 &&& 0x0c = 0x08
    · rw [if_pos h]
      unfold select_lower
      split_ifs <;> simp_all
    · rw [if_neg h]
      simp
  · unfold select_upper
    split_ifs <;> simp
  · unfold select_lower
    split_ifs <;> simp
  · unfold select_lower
    split_ifs <;> simp


/-! ## Message handler: one step in each protocol state -/

theorem handler_init (H : Host) (s : Session) (msg : ipmi_msg)
    (hst : s.state = STATE_INIT ∨ s.state = STATE_RESERVE) (hcc : msg.byte 0 = 0) :
    bmcsensors_msg_handler H s msg
      = { bmcsensors_get_sdr { s with resid := resid_of msg } 0 0 0 with state := STATE_SDR } := by
  have h1 : ¬ (s.state = STATE_SDR ∧ msg.byte 0 = 0xc5) := by
    rw [hcc]; rintro ⟨_, h⟩; exact absurd h (by decide)
  have h2 : ¬ (msg.byte 0 ≠ 0 ∧ msg.byte 0 ≠ 0xca) := by
    rw [hcc]; rintro ⟨h, _⟩; exact h rfl
  unfold bmcsensors_msg_handler
  rw [if_neg h1, if_neg h2]
  unfold bmcsensors_rcv_msg
  rw [if_pos hst]

theorem handler_sdr_whole (H : Host) (s : Session) (msg : ipmi_msg)
    (hst : s.state = STATE_SDR) (hcc : msg.byte 0 = 0)
    (hsz : ¬ s.ipmi_sdr_partial_size < IPMI_SDR_SIZE) :
    bmcsensors_msg_handler H s msg
      = { (rcv_sdr_record H s msg.byte).1 with state := (rcv_sdr_record H s msg.byte).2 } := by
  have h1 : ¬ (s.state = STATE_SDR ∧ msg.byte 0 = 0xc5) := by
    rw [hcc]; rintro ⟨_, h⟩; exact absurd h (by decide)
  have h2 : ¬ (msg.byte 0 ≠ 0 ∧ msg.byte 0 ≠ 0xca) := by
    rw [hcc]; rintro ⟨h, _⟩; exact h rfl
  have h3 : ¬ (s.state = STATE_INIT ∨ s.state = STATE_RESERVE) := by
    rw [hst]; decide
  unfold bmcsensors_msg_handler
  rw [if_neg h1, if_neg h2]
  unfold bmcsensors_rcv_msg
  rw [if_neg h3, if_pos (Or.inl hst)]
  unfold bmcsensors_rcv_sdr_msg
  rw [if_neg (by simp [hcc]), if_neg hsz]

theorem handler_reading (H : Host) (s : Session) (msg : ipmi_msg)
    (hst : s.state = STATE_READING) (hcc : msg.byte 0 = 0 ∨ msg.byte 0 = 0xca) :
    bmcsensors_msg_handler H s msg
      = { (bmcsensors_rcv_reading_msg s msg).1 with
            state := (bmcsensors_rcv_reading_msg s msg).2 } := by
  have h1 : ¬ (s.state = STATE_SDR ∧ msg.byte 0 = 0xc5) := by
    rw [hst]; rintro ⟨h, _⟩; exact absurd h (by decide)
  have h2 : ¬ (msg.byte 0 ≠ 0 ∧ msg.byte 0 ≠ 0xca) := by
    rintro ⟨ha, hb⟩; rcases hcc with h | h
    · exact ha h
    · exact hb h
  have h3 : ¬ (s.state = STATE_INIT ∨ s.state = STATE_RESERVE) := by
    rw [hst]; decide
  have h4 : ¬ (s.state = STATE_SDR ∨ s.state = STATE_SDRPARTIAL) := by
    rw [hst]; decide
  unfold bmcsensors_msg_handler
  rw [if_neg h1, if_neg h2]
  unfold bmcsensors_rcv_msg
  rw [if_neg h3, if_neg h4, if_pos hst]

/-- A record that is accepted and carries the terminator as its next-record id: the
entry is stored, the proc table is built and the walk ends. -/
theorem rcv_sdr_record_last_accepted (H : Host) (s : Session) (data : Nat → Nat)
    (hacc : sdr_accepts s data) (hnext : u16 ((data 2 <<< 8) ||| data 1) = 0xFFFF) :
    rcv_sdr_record H s data
      = (bmcsensors_build_proc_table H
          { s with
              nextrecord := 0xFFFF,
              sdrd := set_at s.sdrd s.sdrd_count
                        (sdr_fill_entry (s.sdrd s.sdrd_count) data (data 6) (data 15)),
              bmcs_count := set_at s.bmcs_count (data 15) (u8 (s.bmcs_count (data 15) + 1)),
              sdrd_count := s.sdrd_count + 1 }, STATE_DONE) := by
  have hacc0 : sdr_accepts { s with nextrecord := u16 ((data 2 <<< 8) ||| data 1) } data := hacc
  unfold rcv_sdr_record
  simp only []
  rw [sdr_collect_accepts _ _ hacc0]
  simp only [hnext, if_true]
  rw [if_neg (Nat.succ_ne_zero _)]

theorem same_record_fields_decoded {d e : sdrdata} (h : same_record_fields d e) :
    e.stype = d.stype ∧ e.m = d.m ∧ e.b = d.b ∧ e.k = d.k ∧ e.number = d.number ∧
      e.reading = d.reading := by
  unfold same_record_fields at h
  refine ⟨?_, ?_, ?_, ?_, ?_, ?_⟩ <;> (rw [h])

theorem fill_entry_full (d : sdrdata) (data : Nat → Nat) (stype : Nat) :
    (sdr_fill_entry d data 1 stype).stype = u8 stype ∧
    (sdr_fill_entry d data 1 stype).m = sdr_mb_field (data 27) (data 28) ∧
    (sdr_fill_entry d data 1 stype).b = sdr_mb_field (data 29) (data 30) ∧
    (sdr_fill_entry d data 1 stype).k = data 32 := by
  simp [sdr_fill_entry]

theorem convert_value_congr (H : Host) (v : Nat) (d e : sdrdata)
    (hm : e.m = d.m) (hb : e.b = d.b) (hk : e.k = d.k) :
    convert_value H v e = convert_value H v d := by
  unfold convert_value
  rw [hm, hb, hk]

theorem decplaces_eq_spec (d : sdrdata) (hk : d.k < 256) :
    decplaces d = spec_decimal_places (d.k / 16) := by
  unfold decplaces spec_decimal_places
  rw [high_nibble, Nat.mod_eq_of_lt hk]

theorem byte_lt (msg : ipmi_msg) (i : Nat) : msg.byte i < 256 := u8_lt _

/-- C1 (amended): starting from the freshly initialised session, after a successful
Reserve response and one successful full-format threshold-sensor record response of a
supported kind with next-record id 0xFFFF, the session is in Done with exactly one
descriptor, of that kind, the proc table has been built once more, and the record's
response has sent no request.  After a reading cycle with one successful reading
response carrying raw byte `v`, the descriptor holds `v`, `decplaces` returns the
decimal-place count, and `convert_value` on that descriptor returns the formula value
for `v` provided `exponent_b` is not 8, `b * 10^exponent_b` fits a 32-bit `int` and the
formula value fits a `long` of at least 32 bits; these provisos bear on the converted
value only. -/
theorem discovery_then_reading (H : Host) (s : Session) (rsv rec rd : ipmi_msg)
    (hrsv : rsv.byte 0 = 0) (hrec : rec.byte 0 = 0)
    (hnext : rec.byte 1 = 0xff ∧ rec.byte 2 = 0xff)
    (htype : rec.byte 6 = 1)
    (hkind : 1 ≤ rec.byte 15 ∧ rec.byte 15 ≤ 4)
    (hthr : rec.byte 16 = 0x01)
    (hrd : rd.byte 0 = 0) :
    let s1 := bmcsensors_msg_handler H (bmcsensors_detect s) rsv
    let s2 := bmcsensors_msg_handler H s1 rec
    let s3 := bmcsensors_update_client H s2 true [rd]
    s2.state = STATE_DONE ∧ s2.sdrd_count = 1 ∧ (s2.sdrd 0).stype = rec.byte 15 ∧
    s2.bmcs_count (rec.byte 15) = 1 ∧
    s2.build_calls = s.build_calls + 1 ∧
    s2.sent = s1.sent ∧
    s3.state = STATE_DONE ∧ s3.sdrd_count = 1 ∧
    (s3.sdrd 0).reading = rd.byte 1 ∧
    (32 ≤ H.long_bits →
      ((rec.byte 32 % 16 < 8 ∧
          -2 ^ 31 ≤ sdr_mb_field (rec.byte 29) (rec.byte 30) * 10 ^ (rec.byte 32 % 16) ∧
          sdr_mb_field (rec.byte 29) (rec.byte 30) * 10 ^ (rec.byte 32 % 16) < 2 ^ 31) ∨
        9 ≤ rec.byte 32 % 16) →
      (-2 ^ (H.long_bits - 1)
          ≤ spec_convert (rd.byte 1) (sdr_mb_field (rec.byte 27) (rec.byte 28))
              (sdr_mb_field (rec.byte 29) (rec.byte 30)) (rec.byte 32 % 16)
              (rec.byte 32 / 16) ∧
        spec_convert (rd.byte 1) (sdr_mb_field (rec.byte 27) (rec.byte 28))
              (sdr_mb_field (rec.byte 29) (rec.byte 30)) (rec.byte 32 % 16)
              (rec.byte 32 / 16)
          < 2 ^ (H.long_bits - 1)) →
      convert_value H (s3.sdrd 0).reading (s3.sdrd 0)
        = some (spec_convert (rd.byte 1) (sdr_mb_field (rec.byte 27) (rec.byte 28))
            (sdr_mb_field (rec.byte 29) (rec.byte 30)) (rec.byte 32 % 16)
            (rec.byte 32 / 16))) ∧
    decplaces (s3.sdrd 0) = spec_decimal_places (rec.byte 32 / 16) := by
  intro s1 s2 s3
  -- the Reserve response
  have hs1 : s1 = { bmcsensors_get_sdr { (bmcsensors_detect s) with resid := resid_of rsv } 0 0 0
      with state := STATE_SDR } := handler_init H _ rsv (Or.inl rfl) hrsv
  have hs1_state : s1.state = STATE_SDR := by rw [hs1]
  have hs1_size : s1.ipmi_sdr_partial_size = IPMI_SDR_SIZE := by rw [hs1]; rfl
  have hs1_count : s1.sdrd_count = 0 := by rw [hs1]; rfl
  have hs1_rc : s1.receive_counter = 0 := by rw [hs1]; rfl
  have hs1_bc : s1.build_calls = s.build_calls := by rw [hs1]; rfl
  have hs1_kinds : s1.bmcs_count (rec.byte 15) = 0 := by
    rw [hs1]
    show (if rec.byte 15 ≤ STYPE_MAX then 0 else s.bmcs_count (rec.byte 15)) = 0
    exact if_pos hkind.2
  -- the record response
  have hmax : bmcs_max (rec.byte 15) = 20 := by
    obtain ⟨h1, h2⟩ := hkind
    interval_cases (rec.byte 15) <;> rfl
  have hacc : sdr_accepts s1 rec.byte := by
    refine ⟨Or.inl htype, hkind.2, ?_, ?_, hthr⟩
    · rw [hs1_kinds, hmax]; decide
    · rw [hs1_count]; decide
  have hterm : u16 ((rec.byte 2 <<< 8) ||| rec.byte 1) = 0xFFFF := by
    rw [hnext.1, hnext.2]; decide
  have hs2 : s2 = { (rcv_sdr_record H s1 rec.byte).1 with
      state := (rcv_sdr_record H s1 rec.byte).2 } :=
    handler_sdr_whole H s1 rec hs1_state hrec (by rw [hs1_size]; decide)
  rw [rcv_sdr_record_last_accepted H s1 rec.byte hacc hterm] at hs2
  simp only [hs1_count, htype] at hs2
  have hs2_state : s2.state = STATE_DONE := by rw [hs2]
  have hs2_count : s2.sdrd_count = 1 := by rw [hs2]; simp
  have hs2_rc : s2.receive_counter = 0 := by rw [hs2]; simp [hs1_rc]
  have hd2 := build_proc_table_same H
      { s1 with
          nextrecord := 0xFFFF,
          sdrd := set_at s1.sdrd 0 (sdr_fill_entry (s1.sdrd 0) rec.byte 1 (rec.byte 15)),
          bmcs_count := set_at s1.bmcs_count (rec.byte 15) (u8 (s1.bmcs_count (rec.byte 15) + 1)),
          sdrd_count := 0 + 1 } 0
  have hd2' : same_record_fields (sdr_fill_entry (s1.sdrd 0) rec.byte 1 (rec.byte 15))
      (s2.sdrd 0) := by
    rw [hs2]; exact hd2
  obtain ⟨hst2, hm2, hb2, hk2, -, -⟩ := same_record_fields_decoded hd2'
  obtain ⟨hfs, hfm, hfb, hfk⟩ := fill_entry_full (s1.sdrd 0) rec.byte (rec.byte 15)
  rw [hfs] at hst2; rw [hfm] at hm2; rw [hfb] at hb2; rw [hfk] at hk2
  have hu15 : u8 (rec.byte 15) = rec.byte 15 := Nat.mod_eq_of_lt (byte_lt _ _)
  -- the reading cycle
  have hne : s2.state ≠ STATE_READING := by rw [hs2_state]; decide
  have hs3 : s3 = bmcsensors_msg_handler H
      (bmcsensors_get_reading { s2 with state := STATE_READING } 0) rd := by
    simp only [s3, bmcsensors_update_client, if_true, if_pos hne, List.foldl]
  rw [handler_reading H _ rd rfl (Or.inl hrd)] at hs3
  have hrcv : bmcsensors_rcv_reading_msg
      (bmcsensors_get_reading { s2 with state := STATE_READING } 0) rd
      = ({ (bmcsensors_get_reading { s2 with state := STATE_READING } 0) with
            sdrd := set_at s2.sdrd 0 (store_reading (s2.sdrd 0) rd),
            receive_counter := 0 }, STATE_DONE) := by
    unfold bmcsensors_rcv_reading_msg
    have hc : (bmcsensors_get_reading { s2 with state := STATE_READING } 0).receive_counter
        = 0 := hs2_rc
    have hn : (bmcsensors_get_reading { s2 with state := STATE_READING } 0).sdrd_count
        = 1 := hs2_count
    simp only [hc, hn]
    rfl
  rw [hrcv] at hs3
  have hd3 : s3.sdrd 0 = store_reading (s2.sdrd 0) rd := by
    rw [hs3]; rfl
  refine ⟨hs2_state, hs2_count, ?_, ?_, ?_, ?_, ?_, ?_, ?_, ?_, ?_⟩
  · rw [hst2, hu15]
  · rw [hs2]; simp [set_at, hs1_kinds]; rfl
  · rw [hs2]; simp [hs1_bc]
  · rw [hs2]; simp
  · rw [hs3]
  · rw [hs3]; exact hs2_count
  · rw [hd3]; rfl
  · intro hL hexp hlong
    rw [hd3]
    show convert_value H (rd.byte 1) (store_reading (s2.sdrd 0) rd) = _
    rw [convert_value_congr H (rd.byte 1) (s2.sdrd 0) (store_reading (s2.sdrd 0) rd)
      rfl rfl rfl]
    have hmr : -512 ≤ (s2.sdrd 0).m ∧ (s2.sdrd 0).m ≤ 511 := by
      rw [hm2, mb_field_value _ _ (byte_lt _ _) (byte_lt _ _)]
      have := byte_lt rec 27
      have := byte_lt rec 28
      split_ifs <;> omega
    have hbr : -512 ≤ (s2.sdrd 0).b ∧ (s2.sdrd 0).b ≤ 511 := by
      rw [hb2, mb_field_value _ _ (byte_lt _ _) (byte_lt _ _)]
      have := byte_lt rec 29
      have := byte_lt rec 30
      split_ifs <;> omega
    have h := convert_value_eq_spec H (rd.byte 1) (s2.sdrd 0) hL (byte_lt _ _) hmr
      (by rw [hk2]; exact byte_lt _ _)
      (by
        rw [hk2, hb2]
        rcases hexp with h | h
        · exact Or.inl h
        · refine Or.inr ⟨h, ?_⟩
          rw [← hb2]; exact hbr)
      (by rw [hk2, hb2, hm2]; exact hlong)
    rw [h, hk2, hb2, hm2]
  · rw [hd3]
    have hk3 : (store_reading (s2.sdrd 0) rd).k = rec.byte 32 := hk2
    rw [← hk3]
    exact decplaces_eq_spec _ (by rw [hk3]; exact byte_lt _ _)


/-- Witness for C1 (amended): the temperature record with `m = 10`, `b = 0`,
`exponent_b = 0`, `exponent_result = 8` and raw reading 50 gives the converted value
500 and 8 decimal places. -/
theorem discovery_then_reading_witness :
    session_registered.state = STATE_DONE ∧ session_registered.sdrd_count = 1 ∧
    (session_registered.sdrd 0).stype = STYPE_TEMP ∧
    session_registered.build_calls = 1 ∧
    convert_value host_lp64
        ((bmcsensors_update_client host_lp64 session_registered true
            [reading_response 50]).sdrd 0).reading
        ((bmcsensors_update_client host_lp64 session_registered true
            [reading_response 50]).sdrd 0) = some 500 ∧
    decplaces ((bmcsensors_update_client host_lp64 session_registered true
        [reading_response 50]).sdrd 0) = 8 := by
  have h := discovery_then_reading host_lp64 Session.load reserve_response
    (sdr_response (full_record_payload 0xFFFF 1 10 0 0 0 0x80)) (reading_response 50)
    (by decide) (by decide) (by decide) (by decide) (by decide) (by decide) (by decide)
  exact ⟨h.1, h.2.1, h.2.2.1, h.2.2.2.2.1,
    h.2.2.2.2.2.2.2.2.2.1 (by decide) (by decide) (by decide), h.2.2.2.2.2.2.2.2.2.2⟩

/-- C1, as stated, fails: for the temperature record with `m = 0`, `b = 511`,
`exponent_b = 7`, `exponent_result = 0` the walk ends in Done with one descriptor, but
for raw reading 0 `convert_value` returns 815032704 while the formula value is
5110000000. -/
theorem discovery_then_reading_conversion_wraps :
    (bmcsensors_msg_handler host_lp64 session_walking
        (sdr_response (full_record_payload 0xFFFF 1 0 0 0xff 0x40 0x07))).state = STATE_DONE ∧
    ((bmcsensors_update_client host_lp64
        (bmcsensors_msg_handler host_lp64 session_walking
          (sdr_response (full_record_payload 0xFFFF 1 0 0 0xff 0x40 0x07)))
        true [reading_response 0]).sdrd 0).b = 511 ∧
    convert_value host_lp64 0
      ((bmcsensors_update_client host_lp64
        (bmcsensors_msg_handler host_lp64 session_walking
          (sdr_response (full_record_payload 0xFFFF 1 0 0 0xff 0x40 0x07)))
        true [reading_response 0]).sdrd 0) = some 815032704 ∧
    spec_convert 0 0 511 7 0 = 5110000000 := by
  decide

/-! ## Reading access -/

/-- C9: the read operation of `bmcsensors_all`, for the descriptor `d` found for the
control id (as it is after `bmcsensors_update_client`), produces for a fan sensor the
two cells [lower, reading] and for every other kind the three cells
[upper, lower', reading], where `reading` is the converted last reading, `upper` the
converted upper limit or 0 if no upper slot is selected, `lower` the converted lower
limit or 0 if no lower slot is selected, and `lower'` is `lower` unless the lower slot
is the hysteresis slot 6, in which case it is `upper` minus the converted hysteresis
byte (a subtraction of `long` values).  For a control id that matches no descriptor
the result has 0 elements. -/
theorem bmcsensors_all_read (H : Host) (s : Session) (ctl_name nrels_mag : Int)
    (stale : Bool) (arrivals : List ipmi_msg)
    (hop : H.SENSORS_PROC_REAL_READ ≠ H.SENSORS_PROC_REAL_INFO) :
    let i := find_sdrd s ctl_name
    let r := bmcsensors_all H s H.SENSORS_PROC_REAL_READ ctl_name nrels_mag stale arrivals
    let d := (bmcsensors_update_client H s stale arrivals).sdrd i.toNat
    let reading := convert_value H d.reading d
    let upper := if d.lim1 ≥ 0 then convert_value H (d.limit d.lim1) d else some 0
    let lower := if d.lim2 ≥ 0 then convert_value H (d.limit d.lim2) d else some 0
    (i < 0 → r.2 = (0, [])) ∧
    (0 ≤ i → u8 d.stype = STYPE_FAN → r.2 = (2, [lower, reading])) ∧
    (0 ≤ i → u8 d.stype ≠ STYPE_FAN → d.lim2 ≠ 6 → r.2 = (3, [upper, lower, reading])) ∧
    (0 ≤ i → u8 d.stype ≠ STYPE_FAN → d.lim2 = 6 →
      r.2 = (3, [upper, long_sub H upper (convert_value H (d.limit 6) d), reading])) := by
  intro i r d reading upper lower
  refine ⟨fun hi => ?_, fun hi hfan => ?_, fun hi hfan h6 => ?_, fun hi hfan h6 => ?_⟩
  · simp only [r, bmcsensors_all]
    rw [if_pos hi]
  · simp only [r, bmcsensors_all]
    rw [if_neg (not_lt.mpr hi), if_neg hop, if_pos trivial, if_pos hfan]
  · simp only [r, bmcsensors_all]
    rw [if_neg (not_lt.mpr hi), if_neg hop, if_pos trivial, if_neg hfan]
    simp only [lower, upper, reading, d, i]
    split_ifs <;> rfl
  · simp only [r, bmcsensors_all]
    rw [if_neg (not_lt.mpr hi), if_neg hop, if_pos trivial, if_neg hfan]
    simp only [lower, upper, reading, d, i]
    have h6' : ((bmcsensors_update_client H s stale arrivals).sdrd
        (find_sdrd s ctl_name).toNat).lim2 = 6 := h6
    rw [h6']
    simp


/-- Witness for C9: the registered temperature sensor (upper-critical limit 80,
hysteresis 2, `m = 10`) after a reading cycle with raw reading 50. -/
theorem bmcsensors_all_read_witness :
    (bmcsensors_all host_lp64 session_registered host_lp64.SENSORS_PROC_REAL_READ 1100 0
        true [reading_response 50]).2 = (3, [some 800, some 780, some 500]) :=
  ((bmcsensors_all_read host_lp64 session_registered 1100 0 true [reading_response 50]
      (by decide)).2.2.2 (by decide) (by decide) (by decide)).trans (by decide)


/-! ## Fragment reassembly -/

theorem handler_sdr_fragment (H : Host) (s : Session) (msg : ipmi_msg)
    (hst : s.state = STATE_SDR) (hcc : msg.byte 0 = 0)
    (hsz : s.ipmi_sdr_partial_size < IPMI_SDR_SIZE) :
    bmcsensors_msg_handler H s msg
      = if (rx_append H s msg).rx_msg_data_offset > u8 ((rx_append H s msg).rx_msg_data 7) + 7 then
          { (rcv_sdr_record H { (rx_append H s msg) with rx_msg_data_offset := 0 }
                (fun j => u8 ((rx_append H s msg).rx_msg_data j))).1 with
              state := (rcv_sdr_record H { (rx_append H s msg) with rx_msg_data_offset := 0 }
                (fun j => u8 ((rx_append H s msg).rx_msg_data j))).2 }
        else
          { (bmcsensors_get_sdr (rx_append H s msg) (rx_append H s msg).resid
                (u16 ((u8 ((rx_append H s msg).rx_msg_data 4) <<< 8)
                  ||| u8 ((rx_append H s msg).rx_msg_data 3)))
                (u8i (((rx_append H s msg).rx_msg_data_offset : Int) - 3))) with
              state := STATE_SDR } := by
  have h1 : ¬ (s.state = STATE_SDR ∧ msg.byte 0 = 0xc5) := by
    rw [hcc]; rintro ⟨_, h⟩; exact absurd h (by decide)
  have h2 : ¬ (msg.byte 0 ≠ 0 ∧ msg.byte 0 ≠ 0xca) := by
    rw [hcc]; rintro ⟨h, _⟩; exact h rfl
  have h3 : ¬ (s.state = STATE_INIT ∨ s.state = STATE_RESERVE) := by
    rw [hst]; decide
  unfold bmcsensors_msg_handler
  rw [if_neg h1, if_neg h2]
  unfold bmcsensors_rcv_msg
  rw [if_neg h3, if_pos (Or.inl hst)]
  unfold bmcsensors_rcv_sdr_msg
  rw [if_neg (by simp [hcc]), if_pos hsz]
  simp only []
  split_ifs <;> rfl

theorem rx_append_frame (H : Host) (s : Session) (msg : ipmi_msg) :
    (rx_append H s msg).state = s.state ∧
    (rx_append H s msg).ipmi_sdr_partial_size = s.ipmi_sdr_partial_size ∧
    same_tables (rx_append H s msg) s ∧
    (rx_append H s msg).nextrecord = s.nextrecord := by
  unfold rx_append same_tables
  simp only []
  split_ifs <;> exact ⟨rfl, rfl, ⟨rfl, rfl, rfl, rfl⟩, rfl⟩

theorem rx_append_offset (H : Host) (s : Session) (msg : ipmi_msg) :
    (rx_append H s msg).rx_msg_data_offset
      = if s.rx_msg_data_offset = 0 then s.ipmi_sdr_partial_size + 3
        else s.rx_msg_data_offset + s.ipmi_sdr_partial_size := by
  unfold rx_append
  simp only []
  split_ifs <;> rfl

theorem rx_append_first (H : Host) (s : Session) (msg : ipmi_msg) (h0 : s.rx_msg_data_offset = 0)
    (j : Nat) (hj : j < s.ipmi_sdr_partial_size + 3) :
    (rx_append H s msg).rx_msg_data j = msg.byte j := by
  unfold rx_append
  simp only [if_pos h0, memcpy]
  rw [if_pos ⟨Nat.zero_le _, by omega⟩]
  simp

theorem rx_append_later (H : Host) (s : Session) (msg : ipmi_msg) (h0 : s.rx_msg_data_offset ≠ 0)
    (j : Nat) :
    (rx_append H s msg).rx_msg_data j
      = if s.rx_msg_data_offset ≤ j ∧ j < s.rx_msg_data_offset + s.ipmi_sdr_partial_size then
          msg.byte (3 + (j - s.rx_msg_data_offset))
        else s.rx_msg_data j := by
  unfold rx_append
  simp only [if_neg h0, memcpy]

theorem same_tables_refl (a : Session) : same_tables a a := ⟨rfl, rfl, rfl, rfl⟩

theorem same_tables_trans {a b c : Session} (h1 : same_tables a b) (h2 : same_tables b c) :
    same_tables a c :=
  ⟨h1.1.trans h2.1, h1.2.1.trans h2.2.1, h1.2.2.1.trans h2.2.2.1, h1.2.2.2.trans h2.2.2.2⟩

theorem same_tables_symm {a b : Session} (h : same_tables a b) : same_tables b a :=
  ⟨h.1.symm, h.2.1.symm, h.2.2.1.symm, h.2.2.2.symm⟩

theorem build_proc_table_tables (H : Host) (a b : Session) (hab : same_tables a b) :
    same_tables (bmcsensors_build_proc_table H a) (bmcsensors_build_proc_table H b) := by
  obtain ⟨h1, h2, h3, h4⟩ := hab
  unfold bmcsensors_build_proc_table same_tables
  simp only [h1, h2, h3, h4]
  split_ifs <;> simp [h1, h2, h3, h4]

theorem sdr_collect_tables (a b : Session) (data : Nat → Nat) (hab : same_tables a b)
    (hn : a.nextrecord = b.nextrecord) :
    same_tables (sdr_collect a data) (sdr_collect b data) ∧
      (sdr_collect a data).nextrecord = (sdr_collect b data).nextrecord := by
  obtain ⟨h1, h2, h3, h4⟩ := hab
  unfold sdr_collect same_tables
  simp only [h1, h2, h3, h4, hn]
  split_ifs <;> simp [h1, h2, h3, h4, hn]

theorem codec_extent_ge (data : Nat → Nat) : 8 ≤ codec_extent data := by
  unfold codec_extent
  split_ifs <;> omega

theorem fill_entry_congr (d : sdrdata) (data data' : Nat → Nat) (stype : Nat)
    (h12 : data 6 = 1 ∨ data 6 = 2)
    (h : ∀ j, j < codec_extent data → data j = data' j) :
    sdr_fill_entry d data (data 6) stype = sdr_fill_entry d data' (data 6) stype := by
  by_cases ht : data 6 = 1
  · have hx : codec_extent data = 51 + (data 50 &&& 0x1f) := by
      unfold codec_extent; rw [if_pos ht]
    rw [hx] at h
    have e10 := h 10 (by omega)
    have e14 := h 14 (by omega)
    have e21 := h 21 (by omega)
    have e22 := h 22 (by omega)
    have e24 := h 24 (by omega)
    have e26 := h 26 (by omega)
    have e27 := h 27 (by omega)
    have e28 := h 28 (by omega)
    have e29 := h 29 (by omega)
    have e30 := h 30 (by omega)
    have e32 := h 32 (by omega)
    have e34 := h 34 (by omega)
    have e50 := h 50 (by omega)
    have elim : (List.range SDR_LIMITS).map (fun j => data (39 + j))
        = (List.range SDR_LIMITS).map (fun j => data' (39 + j)) := by
      apply List.map_congr_left
      intro j hj
      have : j < 8 := List.mem_range.mp hj
      exact h (39 + j) (by omega)
    have eid : (List.range (data 50 &&& 0x1f)).map (fun j => data (51 + j))
        = (List.range (data 50 &&& 0x1f)).map (fun j => data' (51 + j)) := by
      apply List.map_congr_left
      intro j hj
      have : j < data 50 &&& 0x1f := List.mem_range.mp hj
      exact h (51 + j) (by omega)
    unfold sdr_fill_entry
    simp only [ht, if_true]
    rw [elim, ← e50, eid, e10, e14, e21, e22, e24, e26, e27, e28, e29, e30, e32, e34]
  · have ht2 : data 6 = 2 := h12.resolve_left ht
    have hx : codec_extent data = 35 + (data 34 &&& 0x1f) := by
      unfold codec_extent; rw [if_neg ht, if_pos ht2]
    rw [hx] at h
    have e10 := h 10 (by omega)
    have e14 := h 14 (by omega)
    have e21 := h 21 (by omega)
    have e22 := h 22 (by omega)
    have e34 := h 34 (by omega)
    have eid : (List.range (data 34 &&& 0x1f)).map (fun j => data (35 + j))
        = (List.range (data 34 &&& 0x1f)).map (fun j => data' (35 + j)) := by
      apply List.map_congr_left
      intro j hj
      have : j < data 34 &&& 0x1f := List.mem_range.mp hj
      exact h (35 + j) (by omega)
    unfold sdr_fill_entry
    simp only [if_neg ht]
    rw [← e34, eid, e10, e14, e21, e22]

theorem sdr_collect_data_congr (x : Session) (data data' : Nat → Nat)
    (h : ∀ j, j < codec_extent data → data j = data' j) :
    sdr_collect x data = sdr_collect x data' := by
  have hge := codec_extent_ge data
  have e6 := h 6 (by omega)
  by_cases h12 : data 6 = 1 ∨ data 6 = 2
  · have hx : 35 ≤ codec_extent data := by
      unfold codec_extent
      rcases h12 with h1 | h2
      · rw [if_pos h1]; omega
      · rw [if_neg (by omega), if_pos h2]; omega
    have e15 := h 15 (by omega)
    have e16 := h 16 (by omega)
    have hfill := fill_entry_congr (x.sdrd x.sdrd_count) data data' (data 15) h12 h
    unfold sdr_collect
    simp only []
    rw [← e6, ← e15, ← e16, ← hfill]
  · have h12' : ¬ (data' 6 = 1 ∨ data' 6 = 2) := by rw [← e6]; exact h12
    unfold sdr_collect
    simp only []
    rw [if_neg h12, if_neg h12']

theorem sdr_collect_frame (x : Session) (data : Nat → Nat) :
    (sdr_collect x data).rx_msg_data = x.rx_msg_data ∧
    (sdr_collect x data).rx_msg_data_offset = x.rx_msg_data_offset := by
  unfold sdr_collect
  simp only []
  split_ifs <;> exact ⟨rfl, rfl⟩

theorem rcv_sdr_record_frame (H : Host) (a : Session) (data : Nat → Nat) :
    (rcv_sdr_record H a data).1.rx_msg_data = a.rx_msg_data ∧
    (rcv_sdr_record H a data).1.rx_msg_data_offset = a.rx_msg_data_offset := by
  have hf := sdr_collect_frame { a with nextrecord := u16 ((data 2 <<< 8) ||| data 1) } data
  unfold rcv_sdr_record
  simp only []
  split_ifs
  · exact hf
  · simp only [build_proc_table_rx_msg_data, build_proc_table_rx_msg_data_offset]
    exact hf
  · exact hf

theorem sdr_collect_overrun (x : Session) (data : Nat → Nat) :
    (sdr_collect x data).rx_overrun = x.rx_overrun := by
  unfold sdr_collect
  simp only []
  split_ifs <;> rfl

theorem rcv_sdr_record_overrun (H : Host) (a : Session) (data : Nat → Nat) :
    (rcv_sdr_record H a data).1.rx_overrun = a.rx_overrun := by
  have hf := sdr_collect_overrun { a with nextrecord := u16 ((data 2 <<< 8) ||| data 1) } data
  unfold rcv_sdr_record
  simp only []
  split_ifs
  · exact hf
  · simp only [build_proc_table_rx_overrun]
    exact hf
  · exact hf

/-- The copy of `rx_append` stays inside the array exactly when the new offset does
not exceed its size. -/
theorem rx_append_overrun (H : Host) (s : Session) (msg : ipmi_msg) :
    (rx_append H s msg).rx_overrun
      = (s.rx_overrun ||
          decide (H.IPMI_MAX_MSG_LENGTH + 50 < (rx_append H s msg).rx_msg_data_offset)) := by
  unfold rx_append
  simp only []
  split_ifs <;> rfl

theorem rx_append_in_bounds (H : Host) (s : Session) (msg : ipmi_msg)
    (hclean : s.rx_overrun = false)
    (hfit : (rx_append H s msg).rx_msg_data_offset ≤ H.IPMI_MAX_MSG_LENGTH + 50) :
    (rx_append H s msg).rx_overrun = false := by
  rw [rx_append_overrun, hclean]
  simp only [Bool.false_or, decide_eq_false_iff_not]
  omega

/-- The walk step after the record has been collected depends only on the discovery
results and the next-record pointer. -/
theorem walk_step_tables (H : Host) (X Y : Session) (hXY : same_tables X Y)
    (hn : X.nextrecord = Y.nextrecord) :
    same_tables
      (if X.nextrecord = 0xFFFF then
        if X.sdrd_count = 0 then (X, STATE_DONE)
        else (bmcsensors_build_proc_table H X, STATE_DONE)
       else (bmcsensors_get_sdr X 0 X.nextrecord 0, STATE_SDR)).1
      (if Y.nextrecord = 0xFFFF then
        if Y.sdrd_count = 0 then (Y, STATE_DONE)
        else (bmcsensors_build_proc_table H Y, STATE_DONE)
       else (bmcsensors_get_sdr Y 0 Y.nextrecord 0, STATE_SDR)).1 ∧
    (if X.nextrecord = 0xFFFF then
        if X.sdrd_count = 0 then (X, STATE_DONE)
        else (bmcsensors_build_proc_table H X, STATE_DONE)
       else (bmcsensors_get_sdr X 0 X.nextrecord 0, STATE_SDR)).1.nextrecord
      = (if Y.nextrecord = 0xFFFF then
        if Y.sdrd_count = 0 then (Y, STATE_DONE)
        else (bmcsensors_build_proc_table H Y, STATE_DONE)
       else (bmcsensors_get_sdr Y 0 Y.nextrecord 0, STATE_SDR)).1.nextrecord ∧
    (if X.nextrecord = 0xFFFF then
        if X.sdrd_count = 0 then (X, STATE_DONE)
        else (bmcsensors_build_proc_table H X, STATE_DONE)
       else (bmcsensors_get_sdr X 0 X.nextrecord 0, STATE_SDR)).2
      = (if Y.nextrecord = 0xFFFF then
        if Y.sdrd_count = 0 then (Y, STATE_DONE)
        else (bmcsensors_build_proc_table H Y, STATE_DONE)
       else (bmcsensors_get_sdr Y 0 Y.nextrecord 0, STATE_SDR)).2 := by
  have hc : X.sdrd_count = Y.sdrd_count := hXY.2.1
  rw [← hn, ← hc]
  by_cases h1 : X.nextrecord = 0xFFFF
  · rw [if_pos h1, if_pos h1]
    by_cases h2 : X.sdrd_count = 0
    · rw [if_pos h2, if_pos h2]
      exact ⟨hXY, hn, rfl⟩
    · rw [if_neg h2, if_neg h2]
      refine ⟨build_proc_table_tables H X Y hXY, ?_, rfl⟩
      simp only [build_proc_table_nextrecord]
      exact hn
  · rw [if_neg h1, if_neg h1]
    exact ⟨hXY, hn, rfl⟩

theorem rcv_sdr_record_congr (H : Host) (a b : Session) (data data' : Nat → Nat)
    (hab : same_tables a b) (h : ∀ j, j < codec_extent data → data j = data' j) :
    same_tables (rcv_sdr_record H a data).1 (rcv_sdr_record H b data').1 ∧
    (rcv_sdr_record H a data).1.nextrecord = (rcv_sdr_record H b data').1.nextrecord ∧
    (rcv_sdr_record H a data).2 = (rcv_sdr_record H b data').2 := by
  have hge := codec_extent_ge data
  have e1 := h 1 (by omega)
  have e2 := h 2 (by omega)
  have hcol := sdr_collect_tables
    { a with nextrecord := u16 ((data 2 <<< 8) ||| data 1) }
    { b with nextrecord := u16 ((data 2 <<< 8) ||| data 1) } data hab rfl
  have hd := sdr_collect_data_congr
    { b with nextrecord := u16 ((data 2 <<< 8) ||| data 1) } data data' h
  rw [hd] at hcol
  have := walk_step_tables H _ _ hcol.1 hcol.2
  unfold rcv_sdr_record
  simp only []
  rw [← e1, ← e2]
  exact this

theorem u8_byte (msg : ipmi_msg) (i : Nat) : u8 (msg.byte i) = msg.byte i :=
  Nat.mod_eq_of_lt (byte_lt msg i)

theorem run_snoc (H : Host) (s : Session) (frag : Nat → ipmi_msg) (k : Nat) :
    run H s ((List.range (k + 1)).map frag)
      = bmcsensors_msg_handler H (run H s ((List.range k).map frag)) (frag k) := by
  unfold run
  rw [List.range_succ, List.map_append, List.foldl_append]
  rfl

/-- Appending fragment `k` to a buffer that holds the first `k` fragments. -/
theorem rx_append_fragment (H : Host) (sk : Session) (whole : ipmi_msg) (frag : Nat → ipmi_msg)
    (c k : Nat)
    (hwhole : whole.byte 0 = 0) (hcc : (frag k).byte 0 = 0)
    (hhead : (frag 0).byte 1 = whole.byte 1 ∧ (frag 0).byte 2 = whole.byte 2)
    (hbody : ∀ t, t < c → k * c + t < whole.byte 7 + 5 →
      (frag k).byte (3 + t) = whole.byte (3 + k * c + t))
    (hsize : sk.ipmi_sdr_partial_size = c)
    (hoff : sk.rx_msg_data_offset = if k = 0 then 0 else 3 + k * c)
    (hbytes : ∀ j, j < 3 + k * c → 0 < k → j < whole.byte 7 + 8 →
      u8 (sk.rx_msg_data j) = whole.byte j) :
    (rx_append H sk (frag k)).rx_msg_data_offset = 3 + (k + 1) * c ∧
    (∀ j, j < 3 + (k + 1) * c → j < whole.byte 7 + 8 →
      u8 ((rx_append H sk (frag k)).rx_msg_data j) = whole.byte j) := by
  have hkc : (k + 1) * c = k * c + c := by ring
  by_cases hk : k = 0
  · subst hk
    simp only [if_true] at hoff
    constructor
    · rw [rx_append_offset, if_pos hoff, hsize]; omega
    · intro j hj hjL
      rw [rx_append_first H sk (frag 0) hoff j (by rw [hsize]; omega), u8_byte]
      by_cases h3 : j < 3
      · interval_cases j
        · rw [hcc, hwhole]
        · exact hhead.1
        · exact hhead.2
      · have hb := hbody (j - 3) (by omega) (by omega)
        have e1 : 3 + (j - 3) = j := by omega
        have e2 : 3 + 0 * c + (j - 3) = j := by omega
        rw [e1, e2] at hb
        exact hb
  · rw [if_neg hk] at hoff
    have hne : sk.rx_msg_data_offset ≠ 0 := by rw [hoff]; omega
    constructor
    · rw [rx_append_offset, if_neg hne, hsize, hoff]; omega
    · intro j hj hjL
      rw [rx_append_later H sk (frag k) hne j, hoff, hsize]
      by_cases hin : 3 + k * c ≤ j ∧ j < 3 + k * c + c
      · rw [if_pos hin, u8_byte]
        have hb := hbody (j - (3 + k * c)) (by omega) (by omega)
        have e2 : 3 + k * c + (j - (3 + k * c)) = j := by omega
        rw [e2] at hb
        exact hb
      · rw [if_neg hin]
        exact hbytes j (by omega) (by omega) hjL

/-- While the record is incomplete, the session stays in Sdr and the buffer holds the
fragments received so far. -/
theorem reassembly_prefix (H : Host) (s : Session) (whole : ipmi_msg)
    (frag : Nat → ipmi_msg) (c n : Nat) (hc : 8 ≤ c) (hc67 : c < IPMI_SDR_SIZE)
    (hst : s.state = STATE_SDR) (hsize : s.ipmi_sdr_partial_size = c)
    (hoff : s.rx_msg_data_offset = 0)
    (hwhole : whole.byte 0 = 0)
    (hcc : ∀ k, k < n → (frag k).byte 0 = 0)
    (hhead : (frag 0).byte 1 = whole.byte 1 ∧ (frag 0).byte 2 = whole.byte 2)
    (hbody : ∀ k, k < n → ∀ t, t < c → k * c + t < whole.byte 7 + 5 →
      (frag k).byte (3 + t) = whole.byte (3 + k * c + t))
    (hmin : 3 + (n - 1) * c ≤ whole.byte 7 + 7)
    (hclean : s.rx_overrun = false)
    (hfit : 3 + n * c ≤ H.IPMI_MAX_MSG_LENGTH + 50) :
    ∀ k, k < n →
      (run H s ((List.range k).map frag)).rx_overrun = false ∧
      (run H s ((List.range k).map frag)).state = STATE_SDR ∧
      (run H s ((List.range k).map frag)).ipmi_sdr_partial_size = c ∧
      (run H s ((List.range k).map frag)).rx_msg_data_offset = (if k = 0 then 0 else 3 + k * c) ∧
      (∀ j, j < 3 + k * c → 0 < k → j < whole.byte 7 + 8 →
        u8 ((run H s ((List.range k).map frag)).rx_msg_data j) = whole.byte j) ∧
      same_tables (run H s ((List.range k).map frag)) s := by
  intro k
  induction k with
  | zero =>
    intro _
    refine ⟨hclean, hst, hsize, ?_, ?_, same_tables_refl s⟩
    · simpa [run] using hoff
    · intro j _ h0; exact absurd h0 (by decide)
  | succ k ih =>
    intro hk
    obtain ⟨icl, ist, isz, ioff, ibytes, itab⟩ := ih (by omega)
    have happ := rx_append_fragment H (run H s ((List.range k).map frag)) whole frag c k
      hwhole (hcc k (by omega)) hhead (hbody k (by omega)) isz ioff ibytes
    have hfr := rx_append_frame H (run H s ((List.range k).map frag)) (frag k)
    have hle : (k + 1) * c ≤ (n - 1) * c := Nat.mul_le_mul_right c (by omega)
    have hle' : (n - 1) * c ≤ n * c := Nat.mul_le_mul_right c (by omega)
    have hov := rx_append_in_bounds H (run H s ((List.range k).map frag)) (frag k) icl
      (by rw [happ.1]; omega)
    have h7 : u8 ((rx_append H (run H s ((List.range k).map frag)) (frag k)).rx_msg_data 7)
        = whole.byte 7 := by
      have hkc : (k + 1) * c = k * c + c := by ring
      exact happ.2 7 (by omega) (by omega)
    have hnot : ¬ (rx_append H (run H s ((List.range k).map frag)) (frag k)).rx_msg_data_offset
        > u8 ((rx_append H (run H s ((List.range k).map frag)) (frag k)).rx_msg_data 7) + 7 := by
      rw [happ.1, h7]; omega
    rw [run_snoc, handler_sdr_fragment H _ (frag k) ist (hcc k (by omega))
      (by rw [isz]; exact hc67), if_neg hnot]
    refine ⟨hov, rfl, hfr.2.1.trans isz, ?_, ?_, same_tables_trans hfr.2.2.1 itab⟩
    · rw [if_neg (Nat.succ_ne_zero k)]
      exact happ.1
    · intro j hj _ hjL
      exact happ.2 j hj hjL

/-- C10, as stated, fails: at chunk size 16, after a full temperature record has been
reassembled, a type-1 record of declared length 20 is delivered in two fragments that
carry its bytes `[0,16)` and `[16,32)`.  The first 28 bytes of the reassembly buffer
equal the unfragmented payload, but the codec reads the limits at bytes 39..46, past
the record: the reassembled record yields the limits left in the buffer by the
previous record, the unfragmented response yields zeros, so the descriptor tables
differ.  No copy goes past the array `rx_msg_data`. -/
theorem fragment_reassembly_stale_bytes :
    session_after_first_record.state = STATE_SDR ∧
    session_after_first_record.rx_msg_data_offset = 0 ∧
    (run host_lp64 session_after_first_record
        ((List.range 2).map (fragment 16 (sdr_response short_sensor_payload)))).rx_overrun
      = false ∧
    (∀ k, k < 2 → (fragment 16 (sdr_response short_sensor_payload) k).byte 0 = 0) ∧
    (∀ k, k < 2 → ∀ t, t < 16 → k * 16 + t < 20 + 5 →
      (fragment 16 (sdr_response short_sensor_payload) k).byte (3 + t)
        = (sdr_response short_sensor_payload).byte (3 + k * 16 + t)) ∧
    (∀ j, j < 28 →
      u8 ((run host_lp64 session_after_first_record
        ((List.range 2).map (fragment 16 (sdr_response short_sensor_payload)))).rx_msg_data j)
        = (sdr_response short_sensor_payload).byte j) ∧
    ((run host_lp64 session_after_first_record
        ((List.range 2).map (fragment 16 (sdr_response short_sensor_payload)))).sdrd 1).limits
      = [90, 80, 70, 5, 10, 15, 2, 3] ∧
    ((bmcsensors_msg_handler host_lp64
        { session_after_first_record with ipmi_sdr_partial_size := IPMI_SDR_SIZE }
        (sdr_response short_sensor_payload)).sdrd 1).limits
      = [0, 0, 0, 0, 0, 0, 0, 0] := by
  decide

/-- C10 (amended): for every chunk size `c` with `8 ≤ c < 67`, every session in Sdr
with reassembly offset 0 and no overrun so far, and every successful response `whole`
with declared length `L = whole[7]` delivered instead as `n` successful fragments,
fragment `k` carrying the record bytes `[k*c, (k+1)*c)` (and the first one the
next-record id), where `n` is the number of fragments after which reassembly completes
and the `3 + n*c` bytes they copy fit the array `rx_msg_data[IPMI_MAX_MSG_LENGTH + 50]`:
no copy goes past the array, the first `L + 8` bytes of the reassembly buffer equal the
payload of `whole`, the offset is reset to 0, and, whenever the bytes the codec reads
lie within these `L + 8` bytes (`codec_extent`), the descriptor table, the counts, the
next-record pointer and the protocol state are the same as after processing `whole` at
chunk size 67. -/
theorem fragment_reassembly (H : Host) (s : Session) (whole : ipmi_msg)
    (frag : Nat → ipmi_msg) (c n : Nat) (hc : 8 ≤ c) (hc67 : c < IPMI_SDR_SIZE)
    (hst : s.state = STATE_SDR) (hsize : s.ipmi_sdr_partial_size = c)
    (hoff : s.rx_msg_data_offset = 0)
    (hwhole : whole.byte 0 = 0)
    (hcc : ∀ k, k < n → (frag k).byte 0 = 0)
    (hhead : (frag 0).byte 1 = whole.byte 1 ∧ (frag 0).byte 2 = whole.byte 2)
    (hbody : ∀ k, k < n → ∀ t, t < c → k * c + t < whole.byte 7 + 5 →
      (frag k).byte (3 + t) = whole.byte (3 + k * c + t))
    (hmin : 3 + (n - 1) * c ≤ whole.byte 7 + 7)
    (hdone : whole.byte 7 + 7 < 3 + n * c)
    (hclean : s.rx_overrun = false)
    (hfit : 3 + n * c ≤ H.IPMI_MAX_MSG_LENGTH + 50) :
    let s' := run H s ((List.range n).map frag)
    let s67 := bmcsensors_msg_handler H { s with ipmi_sdr_partial_size := IPMI_SDR_SIZE } whole
    s'.rx_overrun = false ∧
    (∀ j, j < whole.byte 7 + 8 → u8 (s'.rx_msg_data j) = whole.byte j) ∧
    s'.rx_msg_data_offset = 0 ∧
    (codec_extent whole.byte ≤ whole.byte 7 + 8 →
      same_tables s' s67 ∧ s'.nextrecord = s67.nextrecord ∧ s'.state = s67.state) := by
  intro s' s67
  have hn : n ≠ 0 := by
    rintro rfl
    rw [Nat.zero_mul] at hdone
    omega
  obtain ⟨k, rfl⟩ : ∃ k, n = k + 1 := ⟨n - 1, by omega⟩
  simp only [Nat.add_sub_cancel] at hmin
  obtain ⟨icl, ist, isz, ioff, ibytes, itab⟩ :=
    reassembly_prefix H s whole frag c (k + 1) hc hc67 hst hsize hoff hwhole hcc hhead hbody
      (by simpa using hmin) hclean hfit k (by omega)
  have happ := rx_append_fragment H (run H s ((List.range k).map frag)) whole frag c k
    hwhole (hcc k (by omega)) hhead (hbody k (by omega)) isz ioff ibytes
  have hfr := rx_append_frame H (run H s ((List.range k).map frag)) (frag k)
  have h7 : u8 ((rx_append H (run H s ((List.range k).map frag)) (frag k)).rx_msg_data 7)
      = whole.byte 7 := happ.2 7 (by omega) (by omega)
  have hyes : (rx_append H (run H s ((List.range k).map frag)) (frag k)).rx_msg_data_offset
      > u8 ((rx_append H (run H s ((List.range k).map frag)) (frag k)).rx_msg_data 7) + 7 := by
    rw [happ.1, h7]; omega
  have hs' : s' = _ := (run_snoc H s frag k).trans
    ((handler_sdr_fragment H _ (frag k) ist (hcc k (by omega))
      (by rw [isz]; exact hc67)).trans (if_pos hyes))
  have hs67 : s67 = _ := handler_sdr_whole H
    { s with ipmi_sdr_partial_size := IPMI_SDR_SIZE } whole hst hwhole (lt_irrefl _)
  have hframe := rcv_sdr_record_frame H
    { (rx_append H (run H s ((List.range k).map frag)) (frag k)) with rx_msg_data_offset := 0 }
    (fun j => u8 ((rx_append H (run H s ((List.range k).map frag)) (frag k)).rx_msg_data j))
  have hov := rx_append_in_bounds H (run H s ((List.range k).map frag)) (frag k) icl
    (by rw [happ.1]; exact hfit)
  refine ⟨?_, ?_, ?_, ?_⟩
  · rw [hs']
    show (rcv_sdr_record H _ _).1.rx_overrun = false
    rw [rcv_sdr_record_overrun]
    exact hov
  · intro j hj
    rw [hs']
    show u8 ((rcv_sdr_record H _ _).1.rx_msg_data j) = _
    rw [hframe.1]
    exact happ.2 j (by omega) hj
  · rw [hs']
    exact hframe.2
  · intro hext
    have hcong := rcv_sdr_record_congr H
      { s with ipmi_sdr_partial_size := IPMI_SDR_SIZE }
      { (rx_append H (run H s ((List.range k).map frag)) (frag k)) with rx_msg_data_offset := 0 }
      whole.byte
      (fun j => u8 ((rx_append H (run H s ((List.range k).map frag)) (frag k)).rx_msg_data j))
      (same_tables_symm (same_tables_trans hfr.2.2.1 itab))
      (fun j hj => (happ.2 j (by omega) (by omega)).symm)
    rw [hs', hs67]
    exact ⟨same_tables_symm hcong.1, hcong.2.1.symm, hcong.2.2.symm⟩


/-- Witness for C10 (amended): a locator record of declared length 20 delivered in two
fragments at chunk size 16. -/
theorem fragment_reassembly_witness :
    same_tables
      (run host_lp64 session_chunk16
        ((List.range 2).map (fragment 16 (sdr_response locator_record_payload))))
      (bmcsensors_msg_handler host_lp64
        { session_chunk16 with ipmi_sdr_partial_size := IPMI_SDR_SIZE }
        (sdr_response locator_record_payload)) ∧
    (run host_lp64 session_chunk16
        ((List.range 2).map (fragment 16 (sdr_response locator_record_payload)))).nextrecord
      = 0x0003 :=
  have h := fragment_reassembly host_lp64 session_chunk16 (sdr_response locator_record_payload)
    (fragment 16 (sdr_response locator_record_payload)) 16 2 (by decide) (by decide)
    (by decide) (by decide) (by decide) (by decide) (by decide) (by decide) (by decide)
    (by decide) (by decide) (by decide) (by decide)
  ⟨(h.2.2.2 (by decide)).1, (h.2.2.2 (by decide)).2.1.trans (by decide)⟩


/-! ## Discovery walk: retries -/

theorem handler_sdr_overflow (H : Host) (s : Session) (msg : ipmi_msg)
    (hst : s.state = STATE_SDR) (hcc : msg.byte 0 = 0xca) :
    bmcsensors_msg_handler H s msg
      = if s.ipmi_sdr_partial_size / 2 < 8 then
          { s with ipmi_sdr_partial_size := s.ipmi_sdr_partial_size / 2, state := STATE_DONE }
        else
          { (bmcsensors_get_sdr
              { s with ipmi_sdr_partial_size := s.ipmi_sdr_partial_size / 2 } 0 0 0) with
            state := STATE_SDR } := by
  have h1 : ¬ (s.state = STATE_SDR ∧ msg.byte 0 = 0xc5) := by
    rw [hcc]; rintro ⟨_, h⟩; exact absurd h (by decide)
  have h2 : ¬ (msg.byte 0 ≠ 0 ∧ msg.byte 0 ≠ 0xca) := by
    rintro ⟨_, h⟩; exact h hcc
  have h3 : ¬ (s.state = STATE_INIT ∨ s.state = STATE_RESERVE) := by
    rw [hst]; decide
  have h4 : msg.byte 0 ≠ 0 := by rw [hcc]; decide
  unfold bmcsensors_msg_handler
  rw [if_neg h1, if_neg h2]
  unfold bmcsensors_rcv_msg
  rw [if_neg h3, if_pos (Or.inl hst)]
  unfold bmcsensors_rcv_sdr_msg
  rw [if_pos h4]
  simp only []
  split_ifs <;> rfl

theorem overflow_step (H : Host) (s : Session) (msg : ipmi_msg)
    (hst : s.state = STATE_SDR) (hcc : msg.byte 0 = 0xca) :
    (bmcsensors_msg_handler H s msg).ipmi_sdr_partial_size = s.ipmi_sdr_partial_size / 2 ∧
    (s.ipmi_sdr_partial_size / 2 < 8 →
      (bmcsensors_msg_handler H s msg).state = STATE_DONE ∧
      (bmcsensors_msg_handler H s msg).sent = s.sent) ∧
    (8 ≤ s.ipmi_sdr_partial_size / 2 →
      (bmcsensors_msg_handler H s msg).state = STATE_SDR ∧
      (bmcsensors_msg_handler H s msg).sent
        = s.sent ++ [{ netfn := IPMI_NETFN_STORAGE, cmd := IPMI_GET_SDR,
                       data := [0, 0, 0, 0, 0, u8 (s.ipmi_sdr_partial_size / 2)] }]) := by
  rw [handler_sdr_overflow H s msg hst hcc]
  refine ⟨?_, fun h => ?_, fun h => ?_⟩
  · split_ifs <;> rfl
  · rw [if_pos h]; exact ⟨rfl, rfl⟩
  · rw [if_neg (by omega)]; exact ⟨rfl, rfl⟩

/-- C11: for every session in Sdr with chunk size `s`, a response with the
buffer-too-large completion code 0xCA sets the chunk size to `s / 2`; if the new size is
below 8 the session moves to Done and no request is sent, otherwise one Get-Record
request whose size byte is the new chunk size is sent and the session stays in Sdr.
Starting from 67, the first three overflow responses give the sizes 33, 16 and 8, each
with one new request, and the fourth moves to Done without a request. -/
theorem chunk_size_shrink (H : Host) (s : Session) (msg : ipmi_msg)
    (hst : s.state = STATE_SDR) (hcc : msg.byte 0 = 0xca) :
    (bmcsensors_msg_handler H s msg).ipmi_sdr_partial_size = s.ipmi_sdr_partial_size / 2 ∧
    (s.ipmi_sdr_partial_size / 2 < 8 →
      (bmcsensors_msg_handler H s msg).state = STATE_DONE ∧
      (bmcsensors_msg_handler H s msg).sent = s.sent) ∧
    (8 ≤ s.ipmi_sdr_partial_size / 2 →
      (bmcsensors_msg_handler H s msg).state = STATE_SDR ∧
      (bmcsensors_msg_handler H s msg).sent
        = s.sent ++ [{ netfn := IPMI_NETFN_STORAGE, cmd := IPMI_GET_SDR,
                       data := [0, 0, 0, 0, 0, u8 (s.ipmi_sdr_partial_size / 2)] }] ∧
      (s.ipmi_sdr_partial_size / 2 < 256 →
        u8 (s.ipmi_sdr_partial_size / 2) = s.ipmi_sdr_partial_size / 2)) ∧
    (s.ipmi_sdr_partial_size = IPMI_SDR_SIZE →
      (run H s [msg]).ipmi_sdr_partial_size = 33 ∧ (run H s [msg]).state = STATE_SDR ∧
      (run H s [msg]).sent.length = s.sent.length + 1 ∧
      (run H s [msg, msg]).ipmi_sdr_partial_size = 16 ∧
      (run H s [msg, msg]).state = STATE_SDR ∧
      (run H s [msg, msg]).sent.length = s.sent.length + 2 ∧
      (run H s [msg, msg, msg]).ipmi_sdr_partial_size = 8 ∧
      (run H s [msg, msg, msg]).state = STATE_SDR ∧
      (run H s [msg, msg, msg]).sent.length = s.sent.length + 3 ∧
      (run H s [msg, msg, msg, msg]).state = STATE_DONE ∧
      (run H s [msg, msg, msg, msg]).sent = (run H s [msg, msg, msg]).sent) := by
  obtain ⟨h1, h2, h3⟩ := overflow_step H s msg hst hcc
  refine ⟨h1, h2, fun h => ⟨(h3 h).1, (h3 h).2, fun hb => Nat.mod_eq_of_lt hb⟩, fun h67 => ?_⟩
  have e1 : run H s [msg] = bmcsensors_msg_handler H s msg := rfl
  have e2 : run H s [msg, msg] = bmcsensors_msg_handler H (run H s [msg]) msg := rfl
  have e3 : run H s [msg, msg, msg] = bmcsensors_msg_handler H (run H s [msg, msg]) msg := rfl
  have e4 : run H s [msg, msg, msg, msg]
      = bmcsensors_msg_handler H (run H s [msg, msg, msg]) msg := rfl
  have a1 : (run H s [msg]).ipmi_sdr_partial_size = 33 := by
    rw [e1, h1, h67]; rfl
  have b1 := (h3 (by rw [h67]; decide))
  rw [← e1] at b1
  obtain ⟨a2', _, c2⟩ := overflow_step H (run H s [msg]) msg b1.1 hcc
  rw [← e2, a1] at a2' c2
  have b2 := c2 (by decide)
  obtain ⟨a3', _, c3⟩ := overflow_step H (run H s [msg, msg]) msg b2.1 hcc
  rw [← e3, a2'] at a3' c3
  have b3 := c3 (by decide)
  obtain ⟨a4', c4, _⟩ := overflow_step H (run H s [msg, msg, msg]) msg b3.1 hcc
  rw [← e4, a3'] at a4' c4
  have b4 := c4 (by decide)
  refine ⟨a1, b1.1, ?_, a2', b2.1, ?_, a3', b3.1, ?_, b4.1, b4.2⟩
  · rw [b1.2]; simp
  · rw [b2.2, b1.2]; simp
  · rw [b3.2, b2.2, b1.2]; simp

/-- Witness for C11: four overflow responses received by the walking session. -/
theorem chunk_size_shrink_witness :
    (run host_lp64 session_walking
      [overflow_response, overflow_response, overflow_response]).ipmi_sdr_partial_size = 8 ∧
    (run host_lp64 session_walking
      [overflow_response, overflow_response, overflow_response, overflow_response]).state
        = STATE_DONE :=
  have h := (chunk_size_shrink host_lp64 session_walking overflow_response
    (by decide) (by decide)).2.2.2 (by decide)
  ⟨h.2.2.2.2.2.2.1, h.2.2.2.2.2.2.2.2.2.1⟩

theorem handler_cancel (H : Host) (s : Session) (msg : ipmi_msg)
    (hst : s.state = STATE_SDR) (hcc : msg.byte 0 = 0xc5) :
    bmcsensors_msg_handler H s msg
      = if s.errorcount + 1 > 275 then
          { s with errorcount := s.errorcount + 1, state := STATE_DONE }
        else
          { (bmcsensors_reserve_sdr { s with errorcount := s.errorcount + 1 }) with
            state := STATE_UNCANCEL } := by
  unfold bmcsensors_msg_handler
  rw [if_pos ⟨hst, hcc⟩]

theorem handler_uncancel (H : Host) (s : Session) (msg : ipmi_msg)
    (hst : s.state = STATE_UNCANCEL) (hcc : msg.byte 0 = 0) :
    bmcsensors_msg_handler H s msg
      = { (bmcsensors_get_sdr { s with resid := resid_of msg, rx_msg_data_offset := 0 }
            0 s.nextrecord 0) with state := STATE_SDR } := by
  have h1 : ¬ (s.state = STATE_SDR ∧ msg.byte 0 = 0xc5) := by
    rw [hcc]; rintro ⟨_, h⟩; exact absurd h (by decide)
  have h2 : ¬ (msg.byte 0 ≠ 0 ∧ msg.byte 0 ≠ 0xca) := by
    rw [hcc]; rintro ⟨h, _⟩; exact h rfl
  unfold bmcsensors_msg_handler
  rw [if_neg h1, if_neg h2]
  unfold bmcsensors_rcv_msg
  rw [if_neg (by rw [hst]; decide), if_neg (by rw [hst]; decide),
    if_neg (by rw [hst]; decide), if_pos hst]

theorem u16_split (n : Nat) : u8 (u16 n &&& 0xff) + 256 * u8 (u16 n >>> 8) = u16 n := by
  have h := Nat.and_pow_two_sub_one_eq_mod (u16 n) 8
  norm_num at h
  rw [h, Nat.shiftRight_eq_div_pow]
  unfold u8 u16
  norm_num
  omega

/-- One cancelled reservation followed by a successful new reservation. -/
theorem cancel_cycle_step (H : Host) (s : Session) (cancel rsv : ipmi_msg)
    (hst : s.state = STATE_SDR) (hc : cancel.byte 0 = 0xc5) (hr : rsv.byte 0 = 0)
    (herr : s.errorcount + 1 ≤ 275) :
    (run H s [cancel, rsv]).state = STATE_SDR ∧
    (run H s [cancel, rsv]).errorcount = s.errorcount + 1 ∧
    same_tables (run H s [cancel, rsv]) s ∧
    (run H s [cancel, rsv]).nextrecord = s.nextrecord ∧
    (run H s [cancel, rsv]).ipmi_sdr_partial_size = s.ipmi_sdr_partial_size ∧
    (run H s [cancel, rsv]).rx_msg_data_offset = 0 := by
  have e : run H s [cancel, rsv]
      = bmcsensors_msg_handler H (bmcsensors_msg_handler H s cancel) rsv := rfl
  have h1 := handler_cancel H s cancel hst hc
  rw [if_neg (by omega)] at h1
  rw [e, h1, handler_uncancel H _ rsv rfl hr]
  exact ⟨rfl, rfl, ⟨rfl, rfl, rfl, rfl⟩, rfl, rfl, rfl⟩

theorem run_single (H : Host) (s : Session) (m : ipmi_msg) :
    run H s [m] = bmcsensors_msg_handler H s m := rfl

theorem run_append (H : Host) (s : Session) (l1 l2 : List ipmi_msg) :
    run H s (l1 ++ l2) = run H (run H s l1) l2 := by
  unfold run
  rw [List.foldl_append]

theorem cancel_cycles_run (H : Host) (s : Session) (cancel rsv : ipmi_msg)
    (hst : s.state = STATE_SDR) (hc : cancel.byte 0 = 0xc5) (hr : rsv.byte 0 = 0)
    (h0 : s.errorcount = 0) :
    ∀ k, k ≤ 275 →
      (run H s (cancel_cycles cancel rsv k)).state = STATE_SDR ∧
      (run H s (cancel_cycles cancel rsv k)).errorcount = k ∧
      same_tables (run H s (cancel_cycles cancel rsv k)) s ∧
      (run H s (cancel_cycles cancel rsv k)).nextrecord = s.nextrecord ∧
      (run H s (cancel_cycles cancel rsv k)).ipmi_sdr_partial_size
        = s.ipmi_sdr_partial_size := by
  intro k
  induction k with
  | zero => intro _; exact ⟨hst, h0, same_tables_refl s, rfl, rfl⟩
  | succ k ih =>
    intro hk
    obtain ⟨i1, i2, i3, i4, i5⟩ := ih (by omega)
    have hs := cancel_cycle_step H (run H s (cancel_cycles cancel rsv k)) cancel rsv i1 hc hr
      (by omega)
    have e : run H s (cancel_cycles cancel rsv (k + 1))
        = run H (run H s (cancel_cycles cancel rsv k)) [cancel, rsv] := by
      show run H s (cancel_cycles cancel rsv k ++ [cancel, rsv]) = _
      rw [run_append]
    rw [e]
    exact ⟨hs.1, by rw [hs.2.1, i2], same_tables_trans hs.2.2.1 i3, hs.2.2.2.1.trans i4,
      hs.2.2.2.2.1.trans i5⟩

/-- The retry counter is never reset by the message handler. -/
theorem errorcount_mono (H : Host) (s : Session) (msg : ipmi_msg) :
    s.errorcount ≤ (bmcsensors_msg_handler H s msg).errorcount := by
  have hcol : ∀ (x : Session) (data : Nat → Nat),
      (sdr_collect x data).errorcount = x.errorcount := by
    intro x data
    unfold sdr_collect
    simp only []
    split_ifs <;> rfl
  have hrec : ∀ (x : Session) (data : Nat → Nat),
      (rcv_sdr_record H x data).1.errorcount = x.errorcount := by
    intro x data
    unfold rcv_sdr_record
    simp only []
    split_ifs
    · exact hcol _ _
    · rw [build_proc_table_errorcount]; exact hcol _ _
    · exact hcol _ _
  have happ : ∀ (x : Session) (m : ipmi_msg), (rx_append H x m).errorcount = x.errorcount := by
    intro x m
    unfold rx_append
    simp only []
    split_ifs <;> rfl
  have hsdr : (bmcsensors_rcv_sdr_msg H s msg).1.errorcount = s.errorcount := by
    unfold bmcsensors_rcv_sdr_msg
    simp only []
    split_ifs
    · rfl
    · rfl
    · rw [hrec]; exact happ s msg
    · exact happ s msg
    · exact hrec s _
  have hrd : (bmcsensors_rcv_reading_msg s msg).1.errorcount = s.errorcount := by
    unfold bmcsensors_rcv_reading_msg
    simp only []
    split_ifs <;> rfl
  unfold bmcsensors_msg_handler
  simp only []
  split_ifs
  · exact Nat.le_succ _
  · exact Nat.le_succ _
  · exact le_refl _
  · unfold bmcsensors_rcv_msg
    simp only []
    split_ifs
    · exact le_refl _
    · exact le_of_eq hsdr.symm
    · exact le_of_eq hrd.symm
    · exact le_refl _
    · exact le_refl _
    · exact le_refl _

theorem handler_sdr_normal (H : Host) (s : Session) (msg : ipmi_msg)
    (hst : s.state = STATE_SDR) (hcc : msg.byte 0 = 0) :
    bmcsensors_msg_handler H s msg
      = { (bmcsensors_rcv_sdr_msg H s msg).1 with
            state := (bmcsensors_rcv_sdr_msg H s msg).2 } := by
  have h1 : ¬ (s.state = STATE_SDR ∧ msg.byte 0 = 0xc5) := by
    rw [hcc]; rintro ⟨_, h⟩; exact absurd h (by decide)
  have h2 : ¬ (msg.byte 0 ≠ 0 ∧ msg.byte 0 ≠ 0xca) := by
    rw [hcc]; rintro ⟨h, _⟩; exact h rfl
  unfold bmcsensors_msg_handler
  rw [if_neg h1, if_neg h2]
  unfold bmcsensors_rcv_msg
  rw [if_neg (by rw [hst]; decide), if_pos (Or.inl hst)]

/-- C12: for every session in Sdr with retry counter `c`, a response with completion
code 0xC5 sets the counter to `c + 1`; if `c + 1 > 275` the session moves to Done and no
request is sent, otherwise exactly one Reserve request is sent and the session moves to
Uncancel.  No handler call lowers the counter.  Starting with counter 0, after 275
cancel responses, each followed by a successful new reservation, the next cancel
response moves to Done without a request; after 274 of them the session is in Sdr with
its discovery results, next-record pointer and chunk size as before, and a successful
response is processed by `bmcsensors_rcv_sdr_msg` as usual. -/
theorem reservation_cancel_retry (H : Host) (s : Session) (cancel rsv rec : ipmi_msg)
    (hst : s.state = STATE_SDR) (hc : cancel.byte 0 = 0xc5) (hr : rsv.byte 0 = 0)
    (hrec : rec.byte 0 = 0) :
    (bmcsensors_msg_handler H s cancel).errorcount = s.errorcount + 1 ∧
    (s.errorcount + 1 > 275 →
      (bmcsensors_msg_handler H s cancel).state = STATE_DONE ∧
      (bmcsensors_msg_handler H s cancel).sent = s.sent) ∧
    (s.errorcount + 1 ≤ 275 →
      (bmcsensors_msg_handler H s cancel).state = STATE_UNCANCEL ∧
      (bmcsensors_msg_handler H s cancel).sent
        = s.sent ++ [{ netfn := IPMI_NETFN_STORAGE, cmd := IPMI_RESERVE_SDR, data := [] }]) ∧
    (∀ (x : Session) (msg : ipmi_msg),
      x.errorcount ≤ (bmcsensors_msg_handler H x msg).errorcount) ∧
    (s.errorcount = 0 →
      (run H s (cancel_cycles cancel rsv 275 ++ [cancel])).state = STATE_DONE ∧
      (run H s (cancel_cycles cancel rsv 275 ++ [cancel])).sent
        = (run H s (cancel_cycles cancel rsv 275)).sent ∧
      (run H s (cancel_cycles cancel rsv 274)).state = STATE_SDR ∧
      (run H s (cancel_cycles cancel rsv 274)).errorcount = 274 ∧
      same_tables (run H s (cancel_cycles cancel rsv 274)) s ∧
      (run H s (cancel_cycles cancel rsv 274)).nextrecord = s.nextrecord ∧
      (run H s (cancel_cycles cancel rsv 274)).ipmi_sdr_partial_size
        = s.ipmi_sdr_partial_size ∧
      run H s (cancel_cycles cancel rsv 274 ++ [rec])
        = { (bmcsensors_rcv_sdr_msg H (run H s (cancel_cycles cancel rsv 274)) rec).1 with
            state := (bmcsensors_rcv_sdr_msg H (run H s (cancel_cycles cancel rsv 274)) rec).2 })
    := by
  have hstep := handler_cancel H s cancel hst hc
  refine ⟨?_, fun h => ?_, fun h => ?_, errorcount_mono H, fun h0 => ?_⟩
  · rw [hstep]; split_ifs <;> rfl
  · rw [hstep, if_pos h]; exact ⟨rfl, rfl⟩
  · rw [hstep, if_neg (by omega)]; exact ⟨rfl, rfl⟩
  · obtain ⟨a1, a2, _, _, _⟩ := cancel_cycles_run H s cancel rsv hst hc hr h0 275 (le_refl _)
    obtain ⟨b1, b2, b3, b4, b5⟩ := cancel_cycles_run H s cancel rsv hst hc hr h0 274 (by decide)
    have hlast := handler_cancel H (run H s (cancel_cycles cancel rsv 275)) cancel a1 hc
    rw [if_pos (by rw [a2]; decide)] at hlast
    have e1 : run H s (cancel_cycles cancel rsv 275 ++ [cancel])
        = bmcsensors_msg_handler H (run H s (cancel_cycles cancel rsv 275)) cancel := by
      rw [run_append, run_single]
    have e2 : run H s (cancel_cycles cancel rsv 274 ++ [rec])
        = bmcsensors_msg_handler H (run H s (cancel_cycles cancel rsv 274)) rec := by
      rw [run_append, run_single]
    refine ⟨?_, ?_, b1, b2, b3, b4, b5, ?_⟩
    · rw [e1, hlast]
    · rw [e1, hlast]
    · rw [e2, handler_sdr_normal H _ rec b1 hrec]

/-- Witness for C12: the walking session, 275 cancelled reservations and one more
cancel response. -/
theorem reservation_cancel_retry_witness :
    (run host_lp64 session_walking
      (cancel_cycles cancel_response reserve_response 275 ++ [cancel_response])).state
        = STATE_DONE ∧
    (run host_lp64 session_walking
      (cancel_cycles cancel_response reserve_response 274)).state = STATE_SDR :=
  have h := (reservation_cancel_retry host_lp64 session_walking cancel_response
    reserve_response (sdr_response (full_record_payload 0xFFFF 1 10 0 0 0 0x80))
    (by decide) (by decide) (by decide) (by decide)).2.2.2.2 (by decide)
  ⟨h.1, h.2.2.1⟩

/-- C13: for every session in Uncancel and every successful response, the handler
resets the reassembly offset to 0, sends one Get-Record request whose record id bytes are
those of the next-record pointer (offset byte 0), moves to Sdr, and leaves the
descriptor table, the total and per-kind counts, the next-record pointer, the chunk size
and the retry counter unchanged. -/
theorem uncancel_resumes_walk (H : Host) (s : Session) (msg : ipmi_msg)
    (hst : s.state = STATE_UNCANCEL) (hcc : msg.byte 0 = 0) :
    (bmcsensors_msg_handler H s msg).rx_msg_data_offset = 0 ∧
    (bmcsensors_msg_handler H s msg).state = STATE_SDR ∧
    (bmcsensors_msg_handler H s msg).sent
      = s.sent ++ [{ netfn := IPMI_NETFN_STORAGE, cmd := IPMI_GET_SDR,
                     data := [0, 0, u8 (u16 s.nextrecord &&& 0xff), u8 (u16 s.nextrecord >>> 8),
                              0, u8 s.ipmi_sdr_partial_size] }] ∧
    u8 (u16 s.nextrecord &&& 0xff) + 256 * u8 (u16 s.nextrecord >>> 8) = u16 s.nextrecord ∧
    (bmcsensors_msg_handler H s msg).sdrd = s.sdrd ∧
    (bmcsensors_msg_handler H s msg).sdrd_count = s.sdrd_count ∧
    (bmcsensors_msg_handler H s msg).bmcs_count = s.bmcs_count ∧
    (bmcsensors_msg_handler H s msg).nextrecord = s.nextrecord ∧
    (bmcsensors_msg_handler H s msg).ipmi_sdr_partial_size = s.ipmi_sdr_partial_size ∧
    (bmcsensors_msg_handler H s msg).errorcount = s.errorcount := by
  rw [handler_uncancel H s msg hst hcc]
  exact ⟨rfl, rfl, rfl, u16_split _, rfl, rfl, rfl, rfl, rfl, rfl⟩

/-- Witness for C13: a reservation cancelled while record 0x0002 was requested; the
request sent on the new reservation asks for record 0x0002 again. -/
theorem uncancel_resumes_walk_witness :
    (bmcsensors_msg_handler host_lp64 session_uncancel reserve_response).sent.getLast?
      = some { netfn := IPMI_NETFN_STORAGE, cmd := IPMI_GET_SDR,
               data := [0, 0, 2, 0, 0, 67] } :=
  ((uncancel_resumes_walk host_lp64 session_uncancel reserve_response
    (by decide) (by decide)).2.2.1 ▸ (by decide))

/-- C14 fails on the code: for the Reserve response with payload bytes 0x34, 0x12
after the completion code, received in Init and in Uncancel, the stored reservation id
is 1 (the value of the logical or `||`), not `0x34 + 256 * 0x12 = 0x1234`. -/
theorem reservation_id_is_truth_value :
    (bmcsensors_msg_handler host_lp64 (bmcsensors_detect Session.load) reserve_response).resid
      = 1 ∧
    (bmcsensors_msg_handler host_lp64 session_uncancel reserve_response).resid = 1 ∧
    reserve_response.byte 1 + 256 * reserve_response.byte 2 = 0x1234 := by
  decide

/-! ## Capacity and skipped records -/

theorem bmcs_max_le (k : Nat) : bmcs_max k ≤ 20 := by
  unfold bmcs_max
  split <;> omega

theorem bmcs_max_pos {k : Nat} (h : 0 < bmcs_max k) : 1 ≤ k ∧ k ≤ 4 ∧ bmcs_max k = 20 := by
  unfold bmcs_max at h ⊢
  split at h <;> simp_all

theorem bmcs_max_kind {k : Nat} (h1 : 1 ≤ k) (h4 : k ≤ 4) : bmcs_max k = 20 := by
  interval_cases k <;> rfl

/-- A record that is no sensor record, or of an unsupported kind, or of a kind that is
at its limit, or that is not a threshold sensor while the table has room, is not
collected. -/
theorem sdr_collect_skips (x : Session) (data : Nat → Nat)
    (h : ¬ (data 6 = 1 ∨ data 6 = 2) ∨ ¬ data 15 ≤ STYPE_MAX ∨
      bmcs_max (data 15) ≤ u8 (x.bmcs_count (data 15)) ∨
      (x.sdrd_count < MAX_SDR_ENTRIES ∧ data 16 ≠ 0x01)) :
    sdr_collect x data = x := by
  unfold sdr_collect
  simp only []
  split_ifs with h1 h2 h3 h4 h5
  · rfl
  · exfalso
    rcases h with h | h | h | h
    · exact h h1
    · exact h h2
    · exact h3 h
    · exact absurd h4 (by omega)
  · rfl
  · exfalso
    rcases h with h | h | h | h
    · exact h h1
    · exact h h2
    · exact h3 h
    · exact h5 h.2
  · rfl
  · rfl

/-- A sensor record of a supported kind below its limit that meets a full table only
sets the next-record pointer to the terminator. -/
theorem sdr_collect_table_full (x : Session) (data : Nat → Nat)
    (h12 : data 6 = 1 ∨ data 6 = 2) (hk : data 15 ≤ STYPE_MAX)
    (hcnt : u8 (x.bmcs_count (data 15)) < bmcs_max (data 15))
    (hfull : MAX_SDR_ENTRIES ≤ x.sdrd_count) :
    sdr_collect x data = { x with nextrecord := 0xffff } := by
  unfold sdr_collect
  simp only []
  rw [if_pos h12, if_pos hk, if_neg (by omega), if_pos hfull]

/-- The walk step of a record that is not collected, with `N` the next-record pointer
left by `sdr_collect`. -/
theorem rcv_sdr_record_rejected (H : Host) (s : Session) (data : Nat → Nat) (N : Nat)
    (hc : sdr_collect { s with nextrecord := u16 ((data 2 <<< 8) ||| data 1) } data
      = { s with nextrecord := N }) :
    rcv_sdr_record H s data
      = if N = 0xFFFF then
          if s.sdrd_count = 0 then ({ s with nextrecord := N }, STATE_DONE)
          else (bmcsensors_build_proc_table H { s with nextrecord := N }, STATE_DONE)
        else (bmcsensors_get_sdr { s with nextrecord := N } 0 N 0, STATE_SDR) := by
  unfold rcv_sdr_record
  simp only []
  rw [hc]

/-- What a record that is not collected leaves behind. -/
theorem rejected_effects (H : Host) (s : Session) (data : Nat → Nat) (N : Nat)
    (hc : sdr_collect { s with nextrecord := u16 ((data 2 <<< 8) ||| data 1) } data
      = { s with nextrecord := N }) :
    (rcv_sdr_record H s data).1.sdrd_count = s.sdrd_count ∧
    (rcv_sdr_record H s data).1.bmcs_count = s.bmcs_count ∧
    (rcv_sdr_record H s data).1.nextrecord = N ∧
    (∀ j, same_record_fields (s.sdrd j) ((rcv_sdr_record H s data).1.sdrd j)) ∧
    (N ≠ 0xFFFF →
      (rcv_sdr_record H s data).2 = STATE_SDR ∧
      (rcv_sdr_record H s data).1.sdrd = s.sdrd ∧
      (rcv_sdr_record H s data).1.sent
        = s.sent ++ [{ netfn := IPMI_NETFN_STORAGE, cmd := IPMI_GET_SDR,
                       data := [0, 0, u8 (u16 N &&& 0xff), u8 (u16 N >>> 8), 0,
                                u8 s.ipmi_sdr_partial_size] }]) ∧
    (N = 0xFFFF →
      (rcv_sdr_record H s data).2 = STATE_DONE ∧
      (rcv_sdr_record H s data).1.sent = s.sent) := by
  rw [rcv_sdr_record_rejected H s data N hc]
  by_cases hN : N = 0xFFFF
  · rw [if_pos hN]
    by_cases h0 : s.sdrd_count = 0
    · rw [if_pos h0]
      exact ⟨rfl, rfl, rfl, fun j => same_record_fields_refl _, fun h => absurd hN h,
        fun _ => ⟨rfl, rfl⟩⟩
    · rw [if_neg h0]
      refine ⟨by simp, by simp, by simp, fun j => ?_, fun h => absurd hN h,
        fun _ => ⟨rfl, by simp⟩⟩
      exact build_proc_table_same H { s with nextrecord := N } j
  · rw [if_neg hN]
    exact ⟨rfl, rfl, rfl, fun j => same_record_fields_refl _, fun _ => ⟨rfl, rfl, rfl⟩,
      fun h => absurd h hN⟩

theorem frame_kinds_refl (a : Session) : frame_kinds a a := ⟨rfl, rfl, fun _ => rfl⟩

theorem frame_kinds_trans {a b c : Session} (h1 : frame_kinds a b) (h2 : frame_kinds b c) :
    frame_kinds a c :=
  ⟨h2.1.trans h1.1, h2.2.1.trans h1.2.1, fun j => (h2.2.2 j).trans (h1.2.2 j)⟩

theorem table_step_frame_right {a b c : Session} (h1 : table_step a b)
    (h2 : frame_kinds b c) : table_step a c := by
  rcases h1 with h | ⟨data, hacc, hc, hb, hs⟩
  · exact Or.inl (frame_kinds_trans h h2)
  · exact Or.inr ⟨data, hacc, h2.1.trans hc, h2.2.1.trans hb,
      fun j => (h2.2.2 j).trans (hs j)⟩

theorem table_step_frame_left {a b c : Session} (h1 : frame_kinds a b)
    (h2 : table_step b c) : table_step a c := by
  rcases h2 with h | ⟨data, hacc, hc, hb, hs⟩
  · exact Or.inl (frame_kinds_trans h1 h)
  · refine Or.inr ⟨data, ?_, ?_, ?_, fun j => ?_⟩
    · unfold sdr_accepts at hacc ⊢
      rw [← h1.1, ← h1.2.1]
      exact hacc
    · rw [hc, h1.1]
    · rw [hb, h1.2.1]
    · rw [hs j, h1.1, h1.2.2 j]

theorem fill_entry_stype (d : sdrdata) (data : Nat → Nat) (type stype : Nat) :
    (sdr_fill_entry d data type stype).stype = u8 stype := by
  unfold sdr_fill_entry
  simp only []
  split_ifs <;> rfl

theorem sdr_collect_table_step (x : Session) (data : Nat → Nat) :
    table_step x (sdr_collect x data) := by
  by_cases hacc : sdr_accepts x data
  · rw [sdr_collect_accepts x data hacc]
    refine Or.inr ⟨data, hacc, rfl, rfl, fun j => ?_⟩
    show (set_at x.sdrd x.sdrd_count _ j).stype = _
    unfold set_at
    by_cases hj : j = x.sdrd_count
    · rw [if_pos hj, if_pos hj]; exact fill_entry_stype _ _ _ _
    · rw [if_neg hj, if_neg hj]
  · left
    unfold sdr_collect
    simp only []
    split_ifs with h1 h2 h3 h4 h5
    · exact frame_kinds_refl x
    · exact ⟨rfl, rfl, fun _ => rfl⟩
    · exact frame_kinds_refl x
    · exfalso
      exact hacc ⟨h1, h2, by omega, by omega, by simpa using h5⟩
    · exact frame_kinds_refl x
    · exact frame_kinds_refl x

theorem build_proc_table_frame (H : Host) (s : Session) :
    frame_kinds s (bmcsensors_build_proc_table H s) :=
  ⟨by simp, by simp, fun j => (same_record_fields_decoded (build_proc_table_same H s j)).1⟩

theorem rcv_sdr_record_table_step (H : Host) (s : Session) (data : Nat → Nat) :
    table_step s (rcv_sdr_record H s data).1 := by
  have h0 : frame_kinds s { s with nextrecord := u16 ((data 2 <<< 8) ||| data 1) } :=
    ⟨rfl, rfl, fun _ => rfl⟩
  have h1 := table_step_frame_left h0 (sdr_collect_table_step _ data)
  unfold rcv_sdr_record
  simp only []
  split_ifs
  · exact h1
  · exact table_step_frame_right h1 (build_proc_table_frame H _)
  · exact table_step_frame_right h1 ⟨rfl, rfl, fun _ => rfl⟩

theorem rx_append_frame_kinds (H : Host) (s : Session) (msg : ipmi_msg) :
    frame_kinds s (rx_append H s msg) := by
  unfold rx_append
  simp only []
  split_ifs <;> exact ⟨rfl, rfl, fun _ => rfl⟩

theorem rcv_sdr_msg_table_step (H : Host) (s : Session) (msg : ipmi_msg) :
    table_step s (bmcsensors_rcv_sdr_msg H s msg).1 := by
  unfold bmcsensors_rcv_sdr_msg
  simp only []
  split_ifs
  · exact Or.inl ⟨rfl, rfl, fun _ => rfl⟩
  · exact Or.inl ⟨rfl, rfl, fun _ => rfl⟩
  · refine table_step_frame_left
      (frame_kinds_trans (rx_append_frame_kinds H s msg) ?_) (rcv_sdr_record_table_step H _ _)
    exact ⟨rfl, rfl, fun _ => rfl⟩
  · exact Or.inl (frame_kinds_trans (rx_append_frame_kinds H s msg) ⟨rfl, rfl, fun _ => rfl⟩)
  · exact rcv_sdr_record_table_step H s _

theorem rcv_reading_frame_kinds (s : Session) (msg : ipmi_msg) :
    frame_kinds s (bmcsensors_rcv_reading_msg s msg).1 := by
  have hst : ∀ j, (set_at s.sdrd s.receive_counter
      (store_reading (s.sdrd s.receive_counter) msg) j).stype = (s.sdrd j).stype := by
    intro j
    unfold set_at
    by_cases hj : j = s.receive_counter
    · rw [if_pos hj, hj]; rfl
    · rw [if_neg hj]
  unfold bmcsensors_rcv_reading_msg
  simp only []
  split_ifs
  · exact ⟨rfl, rfl, fun _ => rfl⟩
  · exact ⟨rfl, rfl, hst⟩
  · exact ⟨rfl, rfl, hst⟩

theorem handler_table_step (H : Host) (s : Session) (msg : ipmi_msg) :
    table_step s (bmcsensors_msg_handler H s msg) := by
  unfold bmcsensors_msg_handler
  simp only []
  split_ifs
  · exact Or.inl ⟨rfl, rfl, fun _ => rfl⟩
  · exact Or.inl ⟨rfl, rfl, fun _ => rfl⟩
  · exact Or.inl (frame_kinds_refl s)
  · unfold bmcsensors_rcv_msg
    simp only []
    split_ifs
    · exact Or.inl ⟨rfl, rfl, fun _ => rfl⟩
    · exact table_step_frame_right (rcv_sdr_msg_table_step H s msg) ⟨rfl, rfl, fun _ => rfl⟩
    · exact Or.inl (frame_kinds_trans (rcv_reading_frame_kinds s msg) ⟨rfl, rfl, fun _ => rfl⟩)
    · exact Or.inl ⟨rfl, rfl, fun _ => rfl⟩
    · exact Or.inl (frame_kinds_refl s)
    · exact Or.inl ⟨rfl, rfl, fun _ => rfl⟩

theorem within_capacity_step {a b : Session} (ha : within_capacity a)
    (h : table_step a b) : within_capacity b := by
  obtain ⟨a1, a2, a3⟩ := ha
  rcases h with ⟨hc, hb, hs⟩ | ⟨data, hacc, hc, hb, hs⟩
  · refine ⟨by rw [hc]; exact a1, fun k hk => by rw [hb]; exact a2 k hk, fun i hi => ?_⟩
    rw [hs i]
    exact a3 i (by rw [← hc]; exact hi)
  · obtain ⟨_, h15, hcnt, htot, _⟩ := hacc
    have hpos := bmcs_max_pos (k := data 15) (by omega)
    refine ⟨?_, fun k hk => ?_, fun i hi => ?_⟩
    · rw [hc]; unfold MAX_SDR_ENTRIES at htot ⊢; omega
    · rw [hb]
      unfold set_at
      by_cases hkd : k = data 15
      · rw [if_pos hkd, hkd]
        unfold u8 at hcnt ⊢
        omega
      · rw [if_neg hkd]; exact a2 k hk
    · rw [hs i]
      by_cases hi0 : i = a.sdrd_count
      · rw [if_pos hi0]
        have : u8 (data 15) = data 15 := by unfold u8; omega
        rw [this]
        unfold STYPE_MAX
        omega
      · rw [if_neg hi0]
        exact a3 i (by omega)

theorem within_capacity_run (H : Host) (msgs : List ipmi_msg) :
    ∀ s, within_capacity s → within_capacity (run H s msgs) := by
  induction msgs with
  | nil => intro s hs; exact hs
  | cons m ms ih =>
    intro s hs
    exact ih _ (within_capacity_step hs (handler_table_step H s m))

theorem within_capacity_detect (s : Session) : within_capacity (bmcsensors_detect s) := by
  refine ⟨Nat.zero_le _, fun k hk => ?_, fun i hi => absurd hi (Nat.not_lt_zero i)⟩
  show (if k ≤ STYPE_MAX then 0 else s.bmcs_count k) ≤ bmcs_max k
  rw [if_pos hk]
  exact Nat.zero_le _

set_option maxRecDepth 100000 in
/-- C16, as stated, fails: with 50 descriptors in the table, a fan threshold-sensor
record (fan count 0) ends the walk, and the proc-table build that follows assigns the
sysctl number and the selected limits of the existing descriptors: entry 0 changes from
`sysctl = 0`, `lim1 = 0` to `sysctl = 1100`, `lim1 = 1`. -/
theorem capacity_rejection_registers :
    session_full.state = STATE_SDR ∧ session_full.sdrd_count = 50 ∧
    session_full.bmcs_count 4 = 0 ∧
    (session_full.sdrd 0).sysctl = 0 ∧ (session_full.sdrd 0).lim1 = 0 ∧
    ((rcv_sdr_record host_lp64 session_full
        (sdr_response (full_record_payload 0x0007 4 10 0 0 0 0x80)).byte).1.sdrd 0).sysctl
      = 1100 ∧
    ((rcv_sdr_record host_lp64 session_full
        (sdr_response (full_record_payload 0x0007 4 10 0 0 0 0x80)).byte).1.sdrd 0).lim1
      = 1 := by
  decide

/-- C16 (amended): for every complete sensor record (type 1 or 2) of a supported kind,
if the total descriptor count is already 50, or the count of the record's kind is
already 20 while the total is below 50, processing the record leaves the total count and
every per-kind count unchanged and adds no descriptor: every table entry keeps its
record and reading fields (only `sysctl` and the threshold-selection fields may be
assigned, by the proc-table build when the walk ends), and the table is unchanged
whenever the walk continues. -/
theorem capacity_rejection (H : Host) (s : Session) (data : Nat → Nat)
    (h12 : data 6 = 1 ∨ data 6 = 2) (hkind : 1 ≤ data 15 ∧ data 15 ≤ 4)
    (hcap : s.sdrd_count = 50 ∨ (u8 (s.bmcs_count (data 15)) = 20 ∧ s.sdrd_count < 50)) :
    (rcv_sdr_record H s data).1.sdrd_count = s.sdrd_count ∧
    (rcv_sdr_record H s data).1.bmcs_count = s.bmcs_count ∧
    (∀ j, same_record_fields (s.sdrd j) ((rcv_sdr_record H s data).1.sdrd j)) ∧
    ((rcv_sdr_record H s data).2 = STATE_SDR → (rcv_sdr_record H s data).1.sdrd = s.sdrd) := by
  have hmax := bmcs_max_kind hkind.1 hkind.2
  have key : ∃ N, sdr_collect { s with nextrecord := u16 ((data 2 <<< 8) ||| data 1) } data
      = { s with nextrecord := N } := by
    by_cases hcnt : u8 (s.bmcs_count (data 15)) < 20
    · have hfull : s.sdrd_count = 50 := by
        rcases hcap with h | h
        · exact h
        · omega
      exact ⟨0xffff, sdr_collect_table_full _ data h12 hkind.2 (by rw [hmax]; exact hcnt)
        (by show 50 ≤ s.sdrd_count; omega)⟩
    · exact ⟨_, sdr_collect_skips _ data (Or.inr (Or.inr (Or.inl (by
        show bmcs_max (data 15) ≤ u8 (s.bmcs_count (data 15))
        rw [hmax]; omega))))⟩
  obtain ⟨N, hN⟩ := key
  obtain ⟨e1, e2, _, e4, e5, e6⟩ := rejected_effects H s data N hN
  refine ⟨e1, e2, e4, fun hst => ?_⟩
  by_cases hNt : N = 0xFFFF
  · rw [(e6 hNt).1] at hst
    exact absurd hst (by decide)
  · exact (e5 hNt).2.1

set_option maxRecDepth 100000 in
/-- Witness for C16 (amended): the full table and a fan record. -/
theorem capacity_rejection_witness :
    (rcv_sdr_record host_lp64 session_full
        (sdr_response (full_record_payload 0x0007 4 10 0 0 0 0x80)).byte).1.sdrd_count
      = session_full.sdrd_count :=
  (capacity_rejection host_lp64 session_full
    (sdr_response (full_record_payload 0x0007 4 10 0 0 0 0x80)).byte
    (by decide) (by decide) (by decide)).1

/-- C17: for every complete record of type 1 or 2 with a supported kind whose
per-kind count is below 20, if the total descriptor count is already 50 then, whatever
next-record id the record carries, the next-record pointer is set to 0xFFFF, no request
is sent and the state to enter is Done; in particular so for a whole response received
in Sdr at chunk size 67. -/
theorem total_capacity_ends_walk (H : Host) (s : Session) (data : Nat → Nat)
    (h12 : data 6 = 1 ∨ data 6 = 2) (hkind : 1 ≤ data 15 ∧ data 15 ≤ 4)
    (hcnt : u8 (s.bmcs_count (data 15)) < 20) (hfull : s.sdrd_count = 50) :
    (rcv_sdr_record H s data).1.nextrecord = 0xFFFF ∧
    (rcv_sdr_record H s data).1.sent = s.sent ∧
    (rcv_sdr_record H s data).2 = STATE_DONE ∧
    (∀ msg : ipmi_msg, msg.byte = data → s.state = STATE_SDR → msg.byte 0 = 0 →
      ¬ s.ipmi_sdr_partial_size < IPMI_SDR_SIZE →
      (bmcsensors_msg_handler H s msg).state = STATE_DONE ∧
      (bmcsensors_msg_handler H s msg).nextrecord = 0xFFFF ∧
      (bmcsensors_msg_handler H s msg).sent = s.sent) := by
  have hmax := bmcs_max_kind hkind.1 hkind.2
  have hN := sdr_collect_table_full
    { s with nextrecord := u16 ((data 2 <<< 8) ||| data 1) } data h12 hkind.2
    (by rw [hmax]; exact hcnt) (by show 50 ≤ s.sdrd_count; omega)
  obtain ⟨_, _, e3, _, _, e6⟩ := rejected_effects H s data 0xffff hN
  refine ⟨e3, (e6 rfl).2, (e6 rfl).1, fun msg hmsg hst hcc hsz => ?_⟩
  rw [handler_sdr_whole H s msg hst hcc hsz, hmsg]
  exact ⟨(e6 rfl).1, e3, (e6 rfl).2⟩

set_option maxRecDepth 100000 in
/-- Witness for C17: the full table and a fan record with next-record id 0x0007. -/
theorem total_capacity_ends_walk_witness :
    (bmcsensors_msg_handler host_lp64 session_full
        (sdr_response (full_record_payload 0x0007 4 10 0 0 0 0x80))).state = STATE_DONE ∧
    (bmcsensors_msg_handler host_lp64 session_full
        (sdr_response (full_record_payload 0x0007 4 10 0 0 0 0x80))).nextrecord = 0xFFFF :=
  have h := (total_capacity_ends_walk host_lp64 session_full
    (sdr_response (full_record_payload 0x0007 4 10 0 0 0 0x80)).byte
    (by decide) (by decide) (by decide) (by decide)).2.2.2
    (sdr_response (full_record_payload 0x0007 4 10 0 0 0 0x80)) rfl (by decide) (by decide)
    (by decide)
  ⟨h.1, h.2.1⟩

set_option maxRecDepth 100000 in
/-- C18, as stated, fails in two ways.  A locator record with next-record id 0xFFFF,
received when one descriptor is in the table, ends the walk and the proc-table build
changes `sysctl` of entry 0 from 0 to 1100.  A fan record that is not a threshold
sensor, with next-record id 0x0007, received when the table holds 50 descriptors, does
not continue the walk from 0x0007: the next-record pointer becomes 0xFFFF and the state
to enter is Done, with no request sent. -/
theorem skip_registers_and_full_table_ends_walk :
    (session_one_descriptor.sdrd 0).sysctl = 0 ∧
    ((rcv_sdr_record host_lp64 session_one_descriptor
        (sdr_response last_locator_payload).byte).1.sdrd 0).sysctl = 1100 ∧
    non_threshold_payload.getD 16 0 ≠ 0x01 ∧
    u16 ((non_threshold_payload.getD 2 0 <<< 8) ||| non_threshold_payload.getD 1 0) = 0x0007 ∧
    (rcv_sdr_record host_lp64 session_full (sdr_response non_threshold_payload).byte).2
      = STATE_DONE ∧
    (rcv_sdr_record host_lp64 session_full
        (sdr_response non_threshold_payload).byte).1.nextrecord = 0xFFFF ∧
    (rcv_sdr_record host_lp64 session_full (sdr_response non_threshold_payload).byte).1.sent
      = session_full.sent := by
  decide

/-- C18 (amended): for every complete record whose type is neither 1 nor 2, or whose
kind is 0 or above 4, or whose kind already has 20 descriptors, or which is not a
threshold sensor while the total count is below 50, processing the record leaves all
counts unchanged, adds no descriptor (every entry keeps its record and reading fields)
and continues from the record's own next-record pointer: if it is not 0xFFFF the table
is unchanged, one Get-Record request for that record id at offset 0 is sent and the
state to enter is Sdr; if it is 0xFFFF the state to enter is Done and no request is
sent.  In every state reached from the initialised session, every descriptor in the
table has a kind in {Temperature, Voltage, Current, Fan}. -/
theorem skip_and_continue (H : Host) (s : Session) (data : Nat → Nat)
    (hskip : ¬ (data 6 = 1 ∨ data 6 = 2) ∨ data 15 = 0 ∨ 4 < data 15 ∨
      20 ≤ u8 (s.bmcs_count (data 15)) ∨ (data 16 ≠ 0x01 ∧ s.sdrd_count < 50)) :
    (rcv_sdr_record H s data).1.sdrd_count = s.sdrd_count ∧
    (rcv_sdr_record H s data).1.bmcs_count = s.bmcs_count ∧
    (rcv_sdr_record H s data).1.nextrecord = u16 ((data 2 <<< 8) ||| data 1) ∧
    (∀ j, same_record_fields (s.sdrd j) ((rcv_sdr_record H s data).1.sdrd j)) ∧
    (u16 ((data 2 <<< 8) ||| data 1) ≠ 0xFFFF →
      (rcv_sdr_record H s data).2 = STATE_SDR ∧
      (rcv_sdr_record H s data).1.sdrd = s.sdrd ∧
      (rcv_sdr_record H s data).1.sent
        = s.sent ++ [{ netfn := IPMI_NETFN_STORAGE, cmd := IPMI_GET_SDR,
                       data := [0, 0, u8 (u16 (u16 ((data 2 <<< 8) ||| data 1)) &&& 0xff),
                                u8 (u16 (u16 ((data 2 <<< 8) ||| data 1)) >>> 8), 0,
                                u8 s.ipmi_sdr_partial_size] }]) ∧
    (u16 ((data 2 <<< 8) ||| data 1) = 0xFFFF →
      (rcv_sdr_record H s data).2 = STATE_DONE ∧
      (rcv_sdr_record H s data).1.sent = s.sent) ∧
    (∀ (s0 : Session) (msgs : List ipmi_msg) (i : Nat),
      i < (run H (bmcsensors_detect s0) msgs).sdrd_count →
      ((run H (bmcsensors_detect s0) msgs).sdrd i).stype = STYPE_TEMP ∨
      ((run H (bmcsensors_detect s0) msgs).sdrd i).stype = STYPE_VOLT ∨
      ((run H (bmcsensors_detect s0) msgs).sdrd i).stype = STYPE_CURR ∨
      ((run H (bmcsensors_detect s0) msgs).sdrd i).stype = STYPE_FAN) := by
  have hN : sdr_collect { s with nextrecord := u16 ((data 2 <<< 8) ||| data 1) } data
      = { s with nextrecord := u16 ((data 2 <<< 8) ||| data 1) } := by
    apply sdr_collect_skips
    rcases hskip with h | h | h | h | h
    · exact Or.inl h
    · refine Or.inr (Or.inr (Or.inl ?_))
      rw [h]; exact Nat.zero_le _
    · exact Or.inr (Or.inl (by unfold STYPE_MAX; omega))
    · refine Or.inr (Or.inr (Or.inl ?_))
      exact le_trans (bmcs_max_le _) h
    · exact Or.inr (Or.inr (Or.inr ⟨h.2, h.1⟩))
  obtain ⟨e1, e2, e3, e4, e5, e6⟩ := rejected_effects H s data _ hN
  refine ⟨e1, e2, e3, e4, e5, e6, fun s0 msgs i hi => ?_⟩
  obtain ⟨_, _, h3⟩ := within_capacity_run H msgs _ (within_capacity_detect s0)
  have := h3 i hi
  unfold STYPE_MAX at this
  unfold STYPE_TEMP STYPE_VOLT STYPE_CURR STYPE_FAN
  omega

/-- Witness for C18 (amended): a locator record with next-record id 0x0003. -/
theorem skip_and_continue_witness :
    (rcv_sdr_record host_lp64 session_one_descriptor
        (sdr_response locator_record_payload).byte).2 = STATE_SDR ∧
    (rcv_sdr_record host_lp64 session_one_descriptor
        (sdr_response locator_record_payload).byte).1.sdrd = session_one_descriptor.sdrd :=
  have h := (skip_and_continue host_lp64 session_one_descriptor
    (sdr_response locator_record_payload).byte (Or.inl (by decide))).2.2.2.2.1 (by decide)
  ⟨h.1, h.2.1⟩

/-! ## Reading cycle -/

theorem reading_step (H : Host) (s : Session) (msg : ipmi_msg)
    (hst : s.state = STATE_READING) (hcc : msg.byte 0 = 0)
    (hlt : s.receive_counter < s.sdrd_count) :
    bmcsensors_msg_handler H s msg
      = if s.receive_counter + 1 ≥ s.sdrd_count then
          { s with sdrd := set_at s.sdrd s.receive_counter
                             (store_reading (s.sdrd s.receive_counter) msg),
                   receive_counter := 0, state := STATE_DONE }
        else
          { (bmcsensors_get_reading
              { s with sdrd := set_at s.sdrd s.receive_counter
                                 (store_reading (s.sdrd s.receive_counter) msg),
                       receive_counter := s.receive_counter + 1 }
              (s.receive_counter + 1)) with state := STATE_READING } := by
  rw [handler_reading H s msg hst (Or.inl hcc)]
  unfold bmcsensors_rcv_reading_msg
  rw [if_neg (by omega)]
  simp only []
  split_ifs <;> rfl

/-- State of a reading cycle after `k` of the `n` responses, `k < n`. -/
theorem reading_prefix (H : Host) (s : Session) (resp : Nat → ipmi_msg)
    (hst : s.state = STATE_READING) (hrc : s.receive_counter = 0)
    (hcc : ∀ k, k < s.sdrd_count → (resp k).byte 0 = 0) :
    ∀ k, k < s.sdrd_count →
      (run H s ((List.range k).map resp)).state = STATE_READING ∧
      (run H s ((List.range k).map resp)).receive_counter = k ∧
      (run H s ((List.range k).map resp)).sdrd_count = s.sdrd_count ∧
      (∀ j, (run H s ((List.range k).map resp)).sdrd j
        = if j < k then store_reading (s.sdrd j) (resp j) else s.sdrd j) ∧
      (run H s ((List.range k).map resp)).sent
        = s.sent ++ (List.range k).map (fun i => reading_request (s.sdrd (i + 1)).number) := by
  intro k
  induction k with
  | zero =>
    intro _
    refine ⟨hst, hrc, rfl, fun j => ?_, ?_⟩
    · rw [if_neg (Nat.not_lt_zero j)]; rfl
    · simp [run]
  | succ k ih =>
    intro hk
    obtain ⟨i1, i2, i3, i4, i5⟩ := ih (by omega)
    have hstep := reading_step H (run H s ((List.range k).map resp)) (resp k) i1
      (hcc k (by omega)) (by rw [i2, i3]; omega)
    rw [if_neg (by rw [i2, i3]; omega)] at hstep
    rw [run_snoc, hstep]
    refine ⟨rfl, ?_, i3, fun j => ?_, ?_⟩
    · show (run H s ((List.range k).map resp)).receive_counter + 1 = k + 1
      rw [i2]
    · show set_at (run H s ((List.range k).map resp)).sdrd
        (run H s ((List.range k).map resp)).receive_counter _ j = _
      rw [i2]
      unfold set_at
      by_cases hj : j = k
      · rw [if_pos hj, hj, if_pos (Nat.lt_succ_self k), i4 k, if_neg (Nat.lt_irrefl k)]
      · rw [if_neg hj, i4 j]
        by_cases hjk : j < k
        · rw [if_pos hjk, if_pos (by omega)]
        · rw [if_neg hjk, if_neg (by omega)]
    · show (run H s ((List.range k).map resp)).sent ++ [reading_request _] = _
      rw [i5, List.range_succ, List.map_append, List.append_assoc]
      congr 2
      show [reading_request (set_at (run H s ((List.range k).map resp)).sdrd
        (run H s ((List.range k).map resp)).receive_counter _
        ((run H s ((List.range k).map resp)).receive_counter + 1)).number] = _
      rw [i2]
      unfold set_at
      rw [if_neg (Nat.succ_ne_self k), i4 (k + 1), if_neg (by omega)]
      rfl

/-- C19: for every session in Reading with cursor 0 and `n ≥ 1` descriptors, feeding
`n` successful reading responses stores bytes 1, 2 and 3 of response `k` as the reading,
status and threshold-comparison bytes of descriptor `k` and changes no other field of
any descriptor; the session stays in Reading after each of the first `n - 1` responses
and is in Done with the cursor reset to 0 after the last; exactly `n - 1` Get-Reading
requests are sent, in order, carrying the sensor numbers of descriptors 1 to `n - 1`. -/
theorem reading_cycle (H : Host) (s : Session) (resp : Nat → ipmi_msg)
    (hst : s.state = STATE_READING) (hrc : s.receive_counter = 0)
    (hn : 1 ≤ s.sdrd_count)
    (hcc : ∀ k, k < s.sdrd_count → (resp k).byte 0 = 0) :
    (∀ k, k < s.sdrd_count →
      (run H s ((List.range k).map resp)).state = STATE_READING) ∧
    (run H s ((List.range s.sdrd_count).map resp)).state = STATE_DONE ∧
    (run H s ((List.range s.sdrd_count).map resp)).receive_counter = 0 ∧
    (run H s ((List.range s.sdrd_count).map resp)).sdrd_count = s.sdrd_count ∧
    (∀ j, j < s.sdrd_count →
      (run H s ((List.range s.sdrd_count).map resp)).sdrd j
        = { (s.sdrd j) with reading := (resp j).byte 1, status := (resp j).byte 2,
                            thresholds := (resp j).byte 3 }) ∧
    (∀ j, s.sdrd_count ≤ j →
      (run H s ((List.range s.sdrd_count).map resp)).sdrd j = s.sdrd j) ∧
    (run H s ((List.range s.sdrd_count).map resp)).sent
      = s.sent ++ (List.range (s.sdrd_count - 1)).map
          (fun i => reading_request (s.sdrd (i + 1)).number) ∧
    ((List.range (s.sdrd_count - 1)).map
        (fun i => reading_request (s.sdrd (i + 1)).number)).length = s.sdrd_count - 1 := by
  have hpre := reading_prefix H s resp hst hrc hcc
  obtain ⟨m, hm⟩ : ∃ m, s.sdrd_count = m + 1 := ⟨s.sdrd_count - 1, by omega⟩
  obtain ⟨i1, i2, i3, i4, i5⟩ := hpre m (by omega)
  have hstep := reading_step H (run H s ((List.range m).map resp)) (resp m) i1
    (hcc m (by omega)) (by rw [i2, i3]; omega)
  rw [if_pos (by rw [i2, i3]; omega)] at hstep
  have hrun : run H s ((List.range s.sdrd_count).map resp) = _ :=
    (congrArg (fun n => run H s ((List.range n).map resp)) hm).trans
      ((run_snoc H s resp m).trans hstep)
  have hsd : ∀ j, (run H s ((List.range s.sdrd_count).map resp)).sdrd j
      = if j < s.sdrd_count then store_reading (s.sdrd j) (resp j) else s.sdrd j := by
    intro j
    rw [hrun]
    show set_at (run H s ((List.range m).map resp)).sdrd
      (run H s ((List.range m).map resp)).receive_counter _ j = _
    rw [i2]
    unfold set_at
    by_cases hj : j = m
    · rw [if_pos hj, hj, if_pos (by omega), i4 m, if_neg (Nat.lt_irrefl m)]
    · rw [if_neg hj, i4 j]
      by_cases hjm : j < m
      · rw [if_pos hjm, if_pos (by omega)]
      · rw [if_neg hjm, if_neg (by omega)]
  refine ⟨fun k hk => (hpre k hk).1, ?_, ?_, ?_, fun j hj => ?_, fun j hj => ?_, ?_, ?_⟩
  · rw [hrun]
  · rw [hrun]
  · rw [hrun]; exact i3
  · rw [hsd j, if_pos hj]; rfl
  · rw [hsd j, if_neg (by omega)]
  · rw [hrun]
    show (run H s ((List.range m).map resp)).sent = _
    rw [i5, hm, Nat.add_sub_cancel]
  · rw [List.length_map, List.length_range]

set_option maxRecDepth 100000 in
/-- Witness for C19: a reading cycle over two descriptors; the one request sent
carries the sensor number 9 of the second descriptor. -/
theorem reading_cycle_witness :
    (run host_lp64 session_reading
      ((List.range session_reading.sdrd_count).map
        (fun k => reading_response (50 + k)))).state = STATE_DONE ∧
    (run host_lp64 session_reading
      ((List.range session_reading.sdrd_count).map
        (fun k => reading_response (50 + k)))).sent
      = session_reading.sent ++ [reading_request 0x09] :=
  have h := reading_cycle host_lp64 session_reading (fun k => reading_response (50 + k))
    (by decide) (by decide) (by decide) (by decide)
  ⟨h.2.1, h.2.2.2.2.2.2.1.trans (by decide)⟩

/-! ## Identifier decoding -/

/-- C20 fails on the code for identifier length 1: with encoding tag 3 and one input
byte 65, output byte 0 keeps its previous content 0xee (the copy is guarded by
`length > 1`) while the terminator is written at position 1.  For every other length
`L ≤ 31` the `L` input bytes are copied, and the terminator is always written at
position `L`. -/
theorem plain_ascii_skips_single_byte :
    (ipmi_sprintf (fun _ => 0xee) (fun _ => 65) 3 1).1 0 = 0xee ∧
    (ipmi_sprintf (fun _ => 0xee) (fun _ => 65) 3 1).1 1 = 0 ∧
    (∀ (dst src : Nat → Nat) (L : Nat), L ≤ 31 →
      (L ≠ 1 → ∀ j, j < L → (ipmi_sprintf dst src 3 L).1 j = u8 (src j)) ∧
      (ipmi_sprintf dst src 3 L).1 L = 0) := by
  refine ⟨by decide, by decide, fun dst src L hL => ?_⟩
  have hlen : u8 L = L := by unfold u8; omega
  have h3 : u8 3 = 3 := rfl
  unfold ipmi_sprintf
  simp only [hlen, h3]
  constructor
  · intro h1 j hj
    have hL1 : L > 1 := by omega
    unfold set_at memcpy
    rw [if_neg (by omega), if_pos hL1, if_pos ⟨Nat.zero_le _, by omega⟩]
    simp
  · unfold set_at
    rw [if_pos rfl]

/-! ## Responses that are ignored -/

theorem handler_ignored (H : Host) (s : Session) (msg : ipmi_msg)
    (h0 : msg.byte 0 ≠ 0) (hca : msg.byte 0 ≠ 0xca)
    (hc5 : ¬ (s.state = STATE_SDR ∧ msg.byte 0 = 0xc5)) :
    bmcsensors_msg_handler H s msg = s := by
  unfold bmcsensors_msg_handler
  rw [if_neg hc5, if_pos ⟨h0, hca⟩]

theorem handler_done (H : Host) (s : Session) (msg : ipmi_msg)
    (hst : s.state = STATE_DONE) :
    bmcsensors_msg_handler H s msg = s := by
  unfold bmcsensors_msg_handler
  rw [if_neg (by rw [hst]; rintro ⟨h, _⟩; exact absurd h (by decide))]
  split_ifs
  · rfl
  · unfold bmcsensors_rcv_msg
    rw [if_neg (by rw [hst]; decide), if_neg (by rw [hst]; decide),
      if_neg (by rw [hst]; decide), if_neg (by rw [hst]; decide), if_pos hst]

theorem run_done (H : Host) (s : Session) (msgs : List ipmi_msg)
    (hst : s.state = STATE_DONE) : run H s msgs = s := by
  induction msgs with
  | nil => rfl
  | cons m ms ih =>
    unfold run at ih ⊢
    rw [List.foldl_cons, handler_done H s m hst]
    exact ih

/-- C21, as stated, fails: the walking session (state Sdr) that receives a response
with completion code 0xC1 stays in Sdr; it does not move to Done. -/
theorem unexpected_code_leaves_state :
    session_walking.state = STATE_SDR ∧
    (bmcsensors_msg_handler host_lp64 session_walking unknown_code_response).state
      = STATE_SDR ∧
    (bmcsensors_msg_handler host_lp64 session_walking unknown_code_response).state
      ≠ STATE_DONE := by
  decide

/-- C21 (amended): for every session and every response whose completion code is not
0x00, not 0xCA and not 0xC5 arriving in Sdr, the handler sends no request and leaves the
whole session unchanged; the state stays what it was, so the session is in Done
afterwards exactly when it was in Done before. -/
theorem unexpected_code_ignored (H : Host) (s : Session) (msg : ipmi_msg)
    (h0 : msg.byte 0 ≠ 0) (hca : msg.byte 0 ≠ 0xca)
    (hc5 : ¬ (s.state = STATE_SDR ∧ msg.byte 0 = 0xc5)) :
    bmcsensors_msg_handler H s msg = s ∧
    (bmcsensors_msg_handler H s msg).sent = s.sent ∧
    (bmcsensors_msg_handler H s msg).state = s.state ∧
    ((bmcsensors_msg_handler H s msg).state = STATE_DONE ↔ s.state = STATE_DONE) := by
  rw [handler_ignored H s msg h0 hca hc5]
  exact ⟨rfl, rfl, rfl, Iff.rfl⟩

/-- Witness for C21 (amended): completion code 0xC1 received by the walking session. -/
theorem unexpected_code_ignored_witness :
    (bmcsensors_msg_handler host_lp64 session_walking unknown_code_response).sent
      = session_walking.sent ∧
    (bmcsensors_msg_handler host_lp64 session_walking unknown_code_response).state
      = STATE_SDR :=
  ⟨(unexpected_code_ignored host_lp64 session_walking unknown_code_response
      (by decide) (by decide) (by decide)).2.1,
   (unexpected_code_ignored host_lp64 session_walking unknown_code_response
      (by decide) (by decide) (by decide)).2.2.1.trans (by decide)⟩

/-- C24: for every session in Done and every inbound response, the handler returns
the session as it was: no request is sent and the state, descriptor table, counts,
reservation id, next-record pointer, chunk size, reassembly offset and retry counter are
unchanged; hence no sequence of responses changes a session that is in Done. -/
theorem done_is_absorbing (H : Host) (s : Session) (msg : ipmi_msg)
    (hst : s.state = STATE_DONE) :
    bmcsensors_msg_handler H s msg = s ∧
    (bmcsensors_msg_handler H s msg).sent = s.sent ∧
    (bmcsensors_msg_handler H s msg).state = STATE_DONE ∧
    (bmcsensors_msg_handler H s msg).sdrd = s.sdrd ∧
    (bmcsensors_msg_handler H s msg).sdrd_count = s.sdrd_count ∧
    (bmcsensors_msg_handler H s msg).bmcs_count = s.bmcs_count ∧
    (bmcsensors_msg_handler H s msg).resid = s.resid ∧
    (bmcsensors_msg_handler H s msg).nextrecord = s.nextrecord ∧
    (bmcsensors_msg_handler H s msg).ipmi_sdr_partial_size = s.ipmi_sdr_partial_size ∧
    (bmcsensors_msg_handler H s msg).rx_msg_data_offset = s.rx_msg_data_offset ∧
    (bmcsensors_msg_handler H s msg).errorcount = s.errorcount ∧
    (∀ msgs : List ipmi_msg, run H s msgs = s) := by
  rw [handler_done H s msg hst]
  exact ⟨rfl, rfl, hst, rfl, rfl, rfl, rfl, rfl, rfl, rfl, rfl,
    fun msgs => run_done H s msgs hst⟩

/-- Witness for C24: the session after a completed walk receives a Reserve response,
a record response, an overflow response and a cancel response. -/
theorem done_is_absorbing_witness :
    session_registered.state = STATE_DONE ∧
    bmcsensors_msg_handler host_lp64 session_registered reserve_response
      = session_registered ∧
    run host_lp64 session_registered
        [reserve_response, sdr_response (full_record_payload 0x0002 1 10 0 0 0 0x80),
         overflow_response, cancel_response] = session_registered :=
  ⟨by decide,
   (done_is_absorbing host_lp64 session_registered reserve_response (by decide)).1,
   (done_is_absorbing host_lp64 session_registered reserve_response (by decide)).2.2.2.2.2.2.2.2.2.2.2 _⟩

/-- C22 fails on the code: after an overflow response (0xCA) in Sdr the request that is
re-sent is always for reservation id 0, record id 0, offset 0.  When the request that
overflowed was for record 0x0002 (bytes 0, 0, 2, 0, 0, 67) the re-sent request is for
record 0 (bytes 0, 0, 0, 0, 0, 33); when it was the continuation request of record
0x0001 at offset 16 (bytes 1, 0, 1, 0, 16, 16) the re-sent request has bytes
0, 0, 0, 0, 0, 8 and the reassembly offset stays 19. -/
theorem overflow_retry_restarts_at_record_zero :
    session_one_descriptor.state = STATE_SDR ∧
    session_one_descriptor.sent.getLast?
      = some { netfn := IPMI_NETFN_STORAGE, cmd := IPMI_GET_SDR,
               data := [0, 0, 2, 0, 0, 67] } ∧
    (bmcsensors_msg_handler host_lp64 session_one_descriptor overflow_response).sent.getLast?
      = some { netfn := IPMI_NETFN_STORAGE, cmd := IPMI_GET_SDR,
               data := [0, 0, 0, 0, 0, 33] } ∧
    session_mid_record.state = STATE_SDR ∧
    session_mid_record.sent.getLast?
      = some { netfn := IPMI_NETFN_STORAGE, cmd := IPMI_GET_SDR,
               data := [1, 0, 1, 0, 16, 16] } ∧
    (bmcsensors_msg_handler host_lp64 session_mid_record overflow_response).sent.getLast?
      = some { netfn := IPMI_NETFN_STORAGE, cmd := IPMI_GET_SDR,
               data := [0, 0, 0, 0, 0, 8] } ∧
    (bmcsensors_msg_handler host_lp64 session_mid_record overflow_response).rx_msg_data_offset
      = 19 ∧
    (∀ (H : Host) (s : Session) (msg : ipmi_msg),
      s.state = STATE_SDR → msg.byte 0 = 0xca → 8 ≤ s.ipmi_sdr_partial_size / 2 →
      (bmcsensors_msg_handler H s msg).sent
        = s.sent ++ [{ netfn := IPMI_NETFN_STORAGE, cmd := IPMI_GET_SDR,
                       data := [0, 0, 0, 0, 0, u8 (s.ipmi_sdr_partial_size / 2)] }]) := by
  refine ⟨by decide, by decide, by decide, by decide, by decide, by decide, by decide,
    fun H s msg hst hcc h8 => ((overflow_step H s msg hst hcc).2.2 h8).2⟩

/-! ## Reassembly: the completion test -/

theorem sprintf_packed_loop_frame (n : Nat) :
    ∀ (t f : Nat) (dst src : Nat → Nat) (j : Nat), (j < t ∨ t + 4 * n ≤ j) →
      sprintf_packed_loop n t f dst src j = dst j := by
  induction n with
  | zero => intro t f dst src j _; rfl
  | succ n ih =>
    intro t f dst src j hj
    unfold sprintf_packed_loop
    simp only []
    rw [ih (t + 4) (f + 3) _ src j (by omega)]
    unfold set_at
    rw [if_neg (by omega), if_neg (by omega), if_neg (by omega), if_neg (by omega)]

theorem sprintf_packed (dst src : Nat → Nat) (L : Nat) (hL : L ≤ 31) :
    ipmi_sprintf dst src 2 L
      = (set_at (sprintf_packed_loop ((L + 2) / 3) 0 0 dst src) (4 * ((L + 2) / 3)) 0,
          4 * ((L + 2) / 3) + 1) := by
  have hlen : u8 L = L := by unfold u8; omega
  have h2 : u8 2 = 2 := rfl
  unfold ipmi_sprintf
  simp only [hlen, h2]

theorem packed_extent_bound : ∀ L, L < 32 →
    (L % 3 = 0 → 4 * ((L + 2) / 3) + 1 ≤ L * 4 / 3 + 2) ∧
    (L % 3 ≠ 0 → L * 4 / 3 + 2 ≤ 4 * ((L + 2) / 3)) := by
  decide

/-- C25 fails on the code: for encoding tag 2 and length 16 the call writes output
positions 23 and 24 (the terminator), outside a buffer of
`SDR_MAX_UNPACKED_ID_LENGTH = 16 * 4 / 3 + 2 = 23` bytes.  For every `L ≤ 31` the
terminator is written at position `4 * ceil(L / 3)` and nothing beyond it; this is
within a buffer of `L * 4 / 3 + 2` bytes when `L` is a multiple of 3 and outside it
otherwise. -/
theorem packed_ascii_overruns_buffer :
    SDR_MAX_ID_LENGTH = 16 ∧ SDR_MAX_UNPACKED_ID_LENGTH = 23 ∧ 16 * 4 / 3 + 2 = 23 ∧
    (ipmi_sprintf (fun _ => 0xee) (fun _ => 0xff) 2 16).1 23 = 0x3f ∧
    (ipmi_sprintf (fun _ => 0xee) (fun _ => 0xff) 2 16).1 24 = 0 ∧
    (ipmi_sprintf (fun _ => 0xee) (fun _ => 0xff) 2 16).1 25 = 0xee ∧
    (∀ (dst src : Nat → Nat) (L : Nat), L ≤ 31 →
      (ipmi_sprintf dst src 2 L).1 (4 * ((L + 2) / 3)) = 0 ∧
      (∀ j, 4 * ((L + 2) / 3) < j → (ipmi_sprintf dst src 2 L).1 j = dst j) ∧
      (L % 3 = 0 → 4 * ((L + 2) / 3) + 1 ≤ L * 4 / 3 + 2) ∧
      (L % 3 ≠ 0 → L * 4 / 3 + 2 ≤ 4 * ((L + 2) / 3))) := by
  refine ⟨rfl, rfl, rfl, by decide, by decide, by decide, fun dst src L hL => ?_⟩
  rw [sprintf_packed dst src L hL]
  refine ⟨?_, fun j hj => ?_, (packed_extent_bound L (by omega)).1,
    (packed_extent_bound L (by omega)).2⟩
  · show set_at _ _ 0 _ = 0
    unfold set_at
    rw [if_pos rfl]
  · show set_at _ _ 0 j = dst j
    unfold set_at
    rw [if_neg (by omega)]
    exact sprintf_packed_loop_frame _ 0 0 dst src j (Or.inr (by omega))

set_option maxRecDepth 100000 in
/-- C26 fails on the code: an accepted full sensor record whose id type/length byte is
0xdf is stored with identifier length 31, and 31 identifier bytes are copied, while
`SDR_MAX_ID_LENGTH` is 16; the same holds for a compact record.  In general the stored
length is the low five bits of the type/length byte (byte 50 of a full record, byte 34
of a compact one), with no check against 16. -/
theorem id_length_exceeds_field :
    SDR_MAX_ID_LENGTH = 16 ∧
    long_id_payload.length = 70 ∧
    sdr_accepts session_walking (sdr_response long_id_payload).byte ∧
    (bmcsensors_msg_handler host_lp64 session_walking
        (sdr_response long_id_payload)).sdrd_count = 1 ∧
    ((bmcsensors_msg_handler host_lp64 session_walking
        (sdr_response long_id_payload)).sdrd 0).id_length = 31 ∧
    ((bmcsensors_msg_handler host_lp64 session_walking
        (sdr_response long_id_payload)).sdrd 0).id.length = 31 ∧
    sdr_accepts session_walking (sdr_response long_id_compact_payload).byte ∧
    ((bmcsensors_msg_handler host_lp64 session_walking
        (sdr_response long_id_compact_payload)).sdrd 0).id_length = 31 ∧
    ((bmcsensors_msg_handler host_lp64 session_walking
        (sdr_response long_id_compact_payload)).sdrd 0).id.length = 31 ∧
    (∀ (d : sdrdata) (data : Nat → Nat) (stype : Nat),
      (sdr_fill_entry d data 1 stype).id_length = u8 (data 50 &&& 0x1f) ∧
      (sdr_fill_entry d data 2 stype).id_length = u8 (data 34 &&& 0x1f)) := by
  refine ⟨rfl, by decide, by decide, by decide, by decide, by decide, by decide, by decide,
    by decide, fun d data stype => ⟨?_, ?_⟩⟩
  · unfold sdr_fill_entry
    rw [if_pos rfl]
  · unfold sdr_fill_entry
    rw [if_neg (by decide)]

end Bmcsensors
